import Mathlib

/-!
# CIBMethod: rigid-body constraint immersed-boundary kernels

A shallow embedding of the index bookkeeping and rigid-body kinematics of
`src/IB/CIBMethod.cpp`, together with theorems about it.

Conventions of the embedding.

* `double` values are read in an ordered field `α`; theorems that need
  `sqrt`, `cos` and `sin` are stated over `ℝ`.  The three library functions
  are passed to the embedded code as a record `MathFns α`, so every
  definition stays executable (for instance over `ℚ`).
* `int` values are `Int`; `unsigned` loop counters are `Nat`.  The number of
  rigid parts `d_num_rigid_parts` is the length of `d_struct_lag_idx_range`
  (the constructor resizes that vector to `d_num_rigid_parts`, which itself
  comes from an `int` argument).
* `Eigen::Vector3d` is `Fin 3 → α`, `Eigen::Matrix3d` is
  `Matrix (Fin 3) (Fin 3) α`.
-/

namespace CIBMethod

/-! ## Structure index map -/

/-- The test `lag_idx_range.first <= lag_idx && lag_idx < lag_idx_range.second`. -/
def inRange (lag_idx_range : Int × Int) (lag_idx : Int) : Prop :=
  lag_idx_range.1 ≤ lag_idx ∧ lag_idx < lag_idx_range.2

instance (r : Int × Int) (x : Int) : Decidable (inRange r x) := by
  unfold inRange; infer_instance

/-- The loop of `getStructureHandle`, started at counter `struct_no` with the
remaining entries of `d_struct_lag_idx_range`. -/
def getStructureHandleFrom (struct_no : Nat) : List (Int × Int) → Int → Int
  | [], _ => -1
  | lag_idx_range :: rest, lag_idx =>
      if lag_idx_range.1 ≤ lag_idx ∧ lag_idx < lag_idx_range.2 then (struct_no : Int)
      else getStructureHandleFrom (struct_no + 1) rest lag_idx

/-- `CIBMethod::getStructureHandle`: first structure whose range holds
`lag_idx`, or `-1`. -/
def getStructureHandle (d_struct_lag_idx_range : List (Int × Int)) (lag_idx : Int) : Int :=
  getStructureHandleFrom 0 d_struct_lag_idx_range lag_idx

/-- Pairwise disjointness of the half-open ranges of a table. -/
def PairwiseDisjoint (ranges : List (Int × Int)) : Prop :=
  ∀ (i j : Nat) (hi : i < ranges.length) (hj : j < ranges.length), i ≠ j → ∀ x : Int,
    ¬ (inRange ranges[i] x ∧ inRange ranges[j] x)

/-! ## Rotation matrices -/

/-- `Eigen::Vector3d`. -/
abbrev Vector3d (α : Type) := Fin 3 → α

/-- `Eigen::Matrix3d`. -/
abbrev Matrix3d (α : Type) := Matrix (Fin 3) (Fin 3) α

/-- The `<cmath>` functions used by `setRotationMatrix`. -/
structure MathFns (α : Type) where
  /-- `sqrt` -/
  sqrt : α → α
  /-- `cos` -/
  cos : α → α
  /-- `sin` -/
  sin : α → α

/-- `std::numeric_limits<double>::epsilon()`, that is `2^-52`. -/
def epsilon {α : Type} [Field α] : α := 1 / 2 ^ 52

/-- Body of the loop of `setRotationMatrix` for one structure: `e` is
`rot_vel[struct_no]`, `R` the incoming `rot_mat[struct_no]`; the result is
`rot_mat[struct_no]` after the iteration. -/
def setRotationMatrixEntry {α : Type} [LinearOrderedField α] (F : MathFns α)
    (e : Vector3d α) (R : Matrix3d α) (dt : α) : Matrix3d α :=
  let norm_e := F.sqrt (e 0 * e 0 + e 1 * e 1 + e 2 * e 2)
  if norm_e > epsilon then
    let theta := norm_e * dt
    let e : Vector3d α := fun i => e i / norm_e
    let c_t := F.cos theta
    let s_t := F.sin theta
    !![c_t + (1 - c_t) * e 0 * e 0, (1 - c_t) * e 0 * e 1 - s_t * e 2,
         (1 - c_t) * e 0 * e 2 + s_t * e 1;
       (1 - c_t) * e 1 * e 0 + s_t * e 2, c_t + (1 - c_t) * e 1 * e 1,
         (1 - c_t) * e 1 * e 2 - s_t * e 0;
       (1 - c_t) * e 2 * e 0 - s_t * e 1, (1 - c_t) * e 2 * e 1 + s_t * e 0,
         c_t + (1 - c_t) * e 2 * e 2]
  else R

/-- `CIBMethod::setRotationMatrix`.  Per-structure vectors are functions of
the structure index; only the entries `0 <= struct_no < d_num_rigid_parts`
are visited. -/
def setRotationMatrix {α : Type} [LinearOrderedField α] (F : MathFns α)
    (d_num_rigid_parts : Nat) (rot_vel : Int → Vector3d α) (rot_mat : Int → Matrix3d α)
    (dt : α) : Int → Matrix3d α :=
  fun struct_no =>
    if 0 ≤ struct_no ∧ struct_no < d_num_rigid_parts then
      setRotationMatrixEntry F (rot_vel struct_no) (rot_mat struct_no) dt
    else rot_mat struct_no

/-- The vector `rotation_mat` as `eulerStep` and `midpointStep` build it
before calling `setRotationMatrix`: `d_num_rigid_parts` zero matrices whose
diagonal entries are then set to `1.0`. -/
def initRotationMat {α : Type} [LinearOrderedField α] (d_num_rigid_parts : Nat) :
    Int → Matrix3d α :=
  fun struct_no =>
    if 0 ≤ struct_no ∧ struct_no < d_num_rigid_parts then
      !![1, 0, 0; 0, 1, 0; 0, 0, 1]
    else 0

/-- The rotation matrices of `eulerStep`:
`setRotationMatrix(d_rot_vel_current, rotation_mat, 0.5 * dt)`. -/
def eulerStepRotationMat {α : Type} [LinearOrderedField α] (F : MathFns α)
    (d_num_rigid_parts : Nat) (d_rot_vel_current : Int → Vector3d α) (dt : α) :
    Int → Matrix3d α :=
  setRotationMatrix F d_num_rigid_parts d_rot_vel_current (initRotationMat d_num_rigid_parts)
    (1 / 2 * dt)

/-- The rotation matrices of `midpointStep`:
`setRotationMatrix(d_rot_vel_half, rotation_mat, dt)`. -/
def midpointStepRotationMat {α : Type} [LinearOrderedField α] (F : MathFns α)
    (d_num_rigid_parts : Nat) (d_rot_vel_half : Int → Vector3d α) (dt : α) :
    Int → Matrix3d α :=
  setRotationMatrix F d_num_rigid_parts d_rot_vel_half (initRotationMat d_num_rigid_parts) dt

/-! ## Lagrangian data

The Lagrangian mesh of a hierarchy level is the list of its nodes; a node
carries its Lagrangian index and its local PETSc index.  `local_nodes` is
read as the nodes of all MPI ranks together, so that a
`SAMRAI_MPI::sumReduction` of rank-local partial sums is the sum over
`local_nodes` itself.  An `LData` array in local form is a function of the
local index and the component `d`; only the components `d < NDIM` exist in
the program, and the others are never read or written. -/

/-- `LNode`: `getLagrangianIndex()` and `getLocalPETScIndex()`. -/
structure LNode where
  /-- `getLagrangianIndex()` -/
  lag_idx : Int
  /-- `getLocalPETScIndex()` -/
  local_idx : Int
deriving DecidableEq

/-- `boost::multi_array_ref<double, 2>` view of an `LData`. -/
abbrev LDataArray (α : Type) := Int → Fin 3 → α

/-- `RigidDOFVector`: `NDIM * (NDIM + 1) / 2` generalized components, at most six. -/
abbrev RigidDOFVector (α : Type) := Fin 6 → α

/-- What `d_l_data_manager`, `d_X_current_data[ln]`, `d_X_half_data[ln]` and
`d_X_new_data[ln]` hold for one hierarchy level `ln`. -/
structure LevelData (α : Type) where
  /-- `d_l_data_manager->levelContainsLagrangianData(ln)` -/
  levelContainsLagrangianData : Bool
  /-- `d_l_data_manager->getLMesh(ln)->getLocalNodes()` -/
  local_nodes : List LNode
  /-- `d_l_data_manager->getLagrangianStructureIDs(ln)` -/
  structIDs : List Int
  /-- `d_X_current_data[ln]` -/
  X_current : LDataArray α
  /-- `d_X_half_data[ln]` -/
  X_half : LDataArray α
  /-- `d_X_new_data[ln]` -/
  X_new : LDataArray α

/-- Signature of a `ConstrainedNodalVelocityFcnPtr` with its context bound:
`(V, U, X, X_com, data_time)` to the new content of `V`. -/
abbrev NodalVelocityFcn (α : Type) :=
  LDataArray α → RigidDOFVector α → LDataArray α → Vector3d α → α → LDataArray α

/-- The members of `CIBMethod` (with those of `IBMethod` and `CIBStrategy`)
that the embedded functions read or write.  Per-structure `std::vector`s are
functions of the structure index. -/
structure CIBState (α : Type) where
  /-- The compile-time constant `NDIM` (2 or 3). -/
  NDIM : Nat
  /-- `d_struct_lag_idx_range`; its length is `d_num_rigid_parts`. -/
  d_struct_lag_idx_range : List (Int × Int)
  /-- Hierarchy levels `0 .. finest_ln`. -/
  levels : List (LevelData α)
  /-- `d_center_of_mass_current` -/
  d_center_of_mass_current : Int → Vector3d α
  /-- `d_center_of_mass_half` -/
  d_center_of_mass_half : Int → Vector3d α
  /-- `d_moment_of_inertia_current` -/
  d_moment_of_inertia_current : Int → Matrix3d α
  /-- `d_moment_of_inertia_half` -/
  d_moment_of_inertia_half : Int → Matrix3d α
  /-- `d_trans_vel_current` -/
  d_trans_vel_current : Int → Vector3d α
  /-- `d_trans_vel_half` -/
  d_trans_vel_half : Int → Vector3d α
  /-- `d_rot_vel_current` -/
  d_rot_vel_current : Int → Vector3d α
  /-- `d_rot_vel_half` -/
  d_rot_vel_half : Int → Vector3d α
  /-- `d_X_half_needs_ghost_fill` -/
  X_half_needs_ghost_fill : Bool
  /-- `d_constrained_velocity_fcns_data[part].nodalvelfcn`, `none` for a null pointer. -/
  nodalvelfcn : Nat → Option (NodalVelocityFcn α)
  /-- `d_new_time` -/
  d_new_time : α

/-- `d_num_rigid_parts`. -/
def CIBState.d_num_rigid_parts {α : Type} (st : CIBState α) : Nat :=
  st.d_struct_lag_idx_range.length

/-- Conversion of an `int` to `unsigned` (32 bits). -/
def toUnsigned (i : Int) : Nat := (i % 2 ^ 32).toNat

/-- Conversion of an `unsigned` to `int` (32 bits, two's complement). -/
def toInt (u : Nat) : Int :=
  if u % 2 ^ 32 < 2 ^ 31 then ((u % 2 ^ 32 : Nat) : Int) else ((u % 2 ^ 32 : Nat) : Int) - 2 ^ 32

/-- The read `d_struct_lag_idx_range[struct_no]`. -/
def rangeOf (d_struct_lag_idx_range : List (Int × Int)) (struct_no : Nat) : Int × Int :=
  d_struct_lag_idx_range.getD struct_no (0, 0)

/-- `CIBMethod::getNumberOfNodes`: `second - first`, returned as `unsigned`. -/
def getNumberOfNodes (d_struct_lag_idx_range : List (Int × Int)) (struct_no : Nat) : Nat :=
  toUnsigned ((rangeOf d_struct_lag_idx_range struct_no).2 -
    (rangeOf d_struct_lag_idx_range struct_no).1)

/-- The two lines
`int struct_handle = 0; if (structs_on_this_ln > 1) struct_handle = getStructureHandle(lag_idx);`
shared by `eulerStep`, `midpointStep` and `computeCOMandMOIOfStructures`. -/
def structHandle (d_struct_lag_idx_range : List (Int × Int)) (structs_on_this_ln : Nat)
    (lag_idx : Int) : Int :=
  if structs_on_this_ln > 1 then getStructureHandle d_struct_lag_idx_range lag_idx else 0

/-! ## Center of mass and moment of inertia -/

/-- One iteration of the first node loop of `computeCOMandMOIOfStructures`:
`center_of_mass[struct_handle][d] += X[d]` for `d < NDIM`. -/
def comNodeStep {α : Type} [Field α] (NDIM : Nat) (ranges : List (Int × Int))
    (structs_on_this_ln : Nat) (X_data_array : LDataArray α)
    (center_of_mass : Int → Vector3d α) (node : LNode) : Int → Vector3d α :=
  let lag_idx := node.lag_idx
  let local_idx := node.local_idx
  let struct_handle := structHandle ranges structs_on_this_ln lag_idx
  Function.update center_of_mass struct_handle
    (fun d => if d.val < NDIM then center_of_mass struct_handle d + X_data_array local_idx d
      else center_of_mass struct_handle d)

/-- The loop `for struct_no < structs_on_this_ln` that follows the node loop:
`center_of_mass[struct_no] /= total_nodes` with
`total_nodes = getNumberOfNodes(struct_no)`. -/
def comDivide {α : Type} [Field α] (ranges : List (Int × Int)) (structs_on_this_ln : Nat)
    (center_of_mass : Int → Vector3d α) : Int → Vector3d α :=
  fun struct_no =>
    if 0 ≤ struct_no ∧ struct_no < structs_on_this_ln then
      fun d => center_of_mass struct_no d /
        ((toInt (getNumberOfNodes ranges struct_no.toNat) : Int) : α)
    else center_of_mass struct_no

/-- Body of the first level loop of `computeCOMandMOIOfStructures`. -/
def comLevelStep {α : Type} [Field α] (NDIM : Nat) (ranges : List (Int × Int))
    (X_data : LevelData α → LDataArray α)
    (center_of_mass : Int → Vector3d α) (lev : LevelData α) : Int → Vector3d α :=
  if !lev.levelContainsLagrangianData then center_of_mass
  else
    comDivide ranges lev.structIDs.length
      (lev.local_nodes.foldl (comNodeStep NDIM ranges lev.structIDs.length (X_data lev))
        center_of_mass)

/-- `M(i, j) += v` on an `Eigen::Matrix3d`. -/
def addEntry {α : Type} [Field α] (M : Matrix3d α) (i j : Fin 3) (v : α) : Matrix3d α :=
  Matrix.of fun a b => if a = i ∧ b = j then M a b + v else M a b

/-- `M(i, j) = v` on an `Eigen::Matrix3d`. -/
def setEntry {α : Type} (M : Matrix3d α) (i j : Fin 3) (v : α) : Matrix3d α :=
  Matrix.of fun a b => if a = i ∧ b = j then v else M a b

/-- One iteration of the second node loop of `computeCOMandMOIOfStructures`
(the `#if (NDIM == 2)` and `#if (NDIM == 3)` branches). -/
def moiNodeStep {α : Type} [Field α] (NDIM : Nat) (ranges : List (Int × Int))
    (structs_on_this_ln : Nat) (X_data_array : LDataArray α)
    (center_of_mass : Int → Vector3d α)
    (moment_of_inertia : Int → Matrix3d α) (node : LNode) : Int → Matrix3d α :=
  let lag_idx := node.lag_idx
  let local_idx := node.local_idx
  let X := X_data_array local_idx
  let struct_handle := structHandle ranges structs_on_this_ln lag_idx
  let X_com := center_of_mass struct_handle
  let M := moment_of_inertia struct_handle
  if NDIM = 2 then
    let M := addEntry M 0 0 ((X 1 - X_com 1) ^ 2)
    let M := addEntry M 0 1 (-(X 0 - X_com 0) * (X 1 - X_com 1))
    let M := addEntry M 1 1 ((X 0 - X_com 0) ^ 2)
    let M := addEntry M 2 2 ((X 0 - X_com 0) ^ 2 + (X 1 - X_com 1) ^ 2)
    Function.update moment_of_inertia struct_handle M
  else if NDIM = 3 then
    let M := addEntry M 0 0 ((X 1 - X_com 1) ^ 2 + (X 2 - X_com 2) ^ 2)
    let M := addEntry M 0 1 (-(X 0 - X_com 0) * (X 1 - X_com 1))
    let M := addEntry M 0 2 (-(X 0 - X_com 0) * (X 2 - X_com 2))
    let M := addEntry M 1 1 ((X 0 - X_com 0) ^ 2 + (X 2 - X_com 2) ^ 2)
    let M := addEntry M 1 2 (-(X 1 - X_com 1) * (X 2 - X_com 2))
    let M := addEntry M 2 2 ((X 0 - X_com 0) ^ 2 + (X 1 - X_com 1) ^ 2)
    Function.update moment_of_inertia struct_handle M
  else moment_of_inertia

/-- Body of the second level loop of `computeCOMandMOIOfStructures`. -/
def moiLevelStep {α : Type} [Field α] (NDIM : Nat) (ranges : List (Int × Int))
    (X_data : LevelData α → LDataArray α) (center_of_mass : Int → Vector3d α)
    (moment_of_inertia : Int → Matrix3d α) (lev : LevelData α) : Int → Matrix3d α :=
  if !lev.levelContainsLagrangianData then moment_of_inertia
  else
    lev.local_nodes.foldl
      (moiNodeStep NDIM ranges lev.structIDs.length (X_data lev) center_of_mass)
      moment_of_inertia

/-- The last loop of `computeCOMandMOIOfStructures`: fill in the symmetric part. -/
def moiMirror {α : Type} (d_num_rigid_parts : Nat) (moment_of_inertia : Int → Matrix3d α) :
    Int → Matrix3d α :=
  fun struct_no =>
    if 0 ≤ struct_no ∧ struct_no < d_num_rigid_parts then
      let M := moment_of_inertia struct_no
      let M := setEntry M 1 0 (M 0 1)
      let M := setEntry M 2 0 (M 0 2)
      let M := setEntry M 2 1 (M 1 2)
      M
    else moment_of_inertia struct_no

/-- `CIBMethod::computeCOMandMOIOfStructures`.  `X_data` selects the position
data the caller passes (`d_X_current_data` or the half-step data); the result
is the new content of `center_of_mass` and of `moment_of_inertia`. -/
def computeCOMandMOIOfStructures {α : Type} [Field α] (NDIM : Nat)
    (ranges : List (Int × Int)) (levels : List (LevelData α))
    (X_data : LevelData α → LDataArray α)
    (center_of_mass : Int → Vector3d α) (moment_of_inertia : Int → Matrix3d α) :
    (Int → Vector3d α) × (Int → Matrix3d α) :=
  let d_num_rigid_parts := ranges.length
  let center_of_mass : Int → Vector3d α := fun struct_no =>
    if 0 ≤ struct_no ∧ struct_no < d_num_rigid_parts then 0 else center_of_mass struct_no
  let center_of_mass := levels.foldl (comLevelStep NDIM ranges X_data) center_of_mass
  let moment_of_inertia : Int → Matrix3d α := fun struct_no =>
    if 0 ≤ struct_no ∧ struct_no < d_num_rigid_parts then 0 else moment_of_inertia struct_no
  let moment_of_inertia :=
    levels.foldl (moiLevelStep NDIM ranges X_data center_of_mass) moment_of_inertia
  (center_of_mass, moiMirror d_num_rigid_parts moment_of_inertia)

/-! ## Position update: `eulerStep` and `midpointStep` -/

/-- One iteration of the node loop of `eulerStep` and `midpointStep`: `X_out`
is `X_half_array` with time scale `0.5 * dt` and `d_trans_vel_current` in
`eulerStep`, `X_new_array` with time scale `dt` and `d_trans_vel_half` in
`midpointStep`. -/
def stepNode {α : Type} [Field α] (NDIM : Nat) (ranges : List (Int × Int))
    (structs_on_this_ln : Nat) (d_center_of_mass_current : Int → Vector3d α)
    (rotation_mat : Int → Matrix3d α) (scaled_dt : α) (trans_vel : Int → Vector3d α)
    (X_current_array : LDataArray α) (X_out : LDataArray α) (node : LNode) : LDataArray α :=
  let lag_idx := node.lag_idx
  let local_idx := node.local_idx
  let X_current := X_current_array local_idx
  let struct_handle := structHandle ranges structs_on_this_ln lag_idx
  let dr : Vector3d α := fun d =>
    if d.val < NDIM then X_current d - d_center_of_mass_current struct_handle d else 0
  let R_dr : Vector3d α := Matrix.mulVec (rotation_mat struct_handle) dr
  Function.update X_out local_idx
    (fun d =>
      if d.val < NDIM then
        d_center_of_mass_current struct_handle d + R_dr d + scaled_dt * trans_vel struct_handle d
      else X_out local_idx d)

/-- Body of the level loop of `eulerStep`. -/
def eulerStepLevel {α : Type} [Field α] (NDIM : Nat) (ranges : List (Int × Int))
    (d_center_of_mass_current : Int → Vector3d α) (rotation_mat : Int → Matrix3d α) (dt : α)
    (d_trans_vel_current : Int → Vector3d α) (lev : LevelData α) : LevelData α :=
  if !lev.levelContainsLagrangianData then lev
  else
    { lev with
      X_half := lev.local_nodes.foldl
        (stepNode NDIM ranges lev.structIDs.length d_center_of_mass_current rotation_mat
          (1 / 2 * dt) d_trans_vel_current lev.X_current)
        lev.X_half }

/-- `CIBMethod::eulerStep`.  The half-step position data returned by
`getPositionData(.., d_half_time)` is `d_X_half_data`. -/
def eulerStep {α : Type} [LinearOrderedField α] (F : MathFns α) (st : CIBState α)
    (current_time new_time : α) : CIBState α :=
  let dt := new_time - current_time
  let cm := computeCOMandMOIOfStructures st.NDIM st.d_struct_lag_idx_range st.levels
    (fun lev => lev.X_current) st.d_center_of_mass_current st.d_moment_of_inertia_current
  let rotation_mat := eulerStepRotationMat F st.d_num_rigid_parts st.d_rot_vel_current dt
  let levels := st.levels.map
    (eulerStepLevel st.NDIM st.d_struct_lag_idx_range cm.1 rotation_mat dt st.d_trans_vel_current)
  let cm_half := computeCOMandMOIOfStructures st.NDIM st.d_struct_lag_idx_range levels
    (fun lev => lev.X_half) st.d_center_of_mass_half st.d_moment_of_inertia_half
  { st with
    d_center_of_mass_current := cm.1
    d_moment_of_inertia_current := cm.2
    levels := levels
    X_half_needs_ghost_fill := true
    d_center_of_mass_half := cm_half.1
    d_moment_of_inertia_half := cm_half.2 }

/-- Body of the level loop of `midpointStep`. -/
def midpointStepLevel {α : Type} [Field α] (NDIM : Nat) (ranges : List (Int × Int))
    (d_center_of_mass_current : Int → Vector3d α) (rotation_mat : Int → Matrix3d α) (dt : α)
    (d_trans_vel_half : Int → Vector3d α) (lev : LevelData α) : LevelData α :=
  if !lev.levelContainsLagrangianData then lev
  else
    { lev with
      X_new := lev.local_nodes.foldl
        (stepNode NDIM ranges lev.structIDs.length d_center_of_mass_current rotation_mat
          dt d_trans_vel_half lev.X_current)
        lev.X_new }

/-- `CIBMethod::midpointStep`. -/
def midpointStep {α : Type} [LinearOrderedField α] (F : MathFns α) (st : CIBState α)
    (current_time new_time : α) : CIBState α :=
  let dt := new_time - current_time
  let rotation_mat := midpointStepRotationMat F st.d_num_rigid_parts st.d_rot_vel_half dt
  { st with
    levels := st.levels.map
      (midpointStepLevel st.NDIM st.d_struct_lag_idx_range st.d_center_of_mass_current
        rotation_mat dt st.d_trans_vel_half) }

/-! ## Rigid velocity and net generalized force -/

/-- One iteration of the node loop of `setRigidBodyVelocity` (the branch
without a nodal velocity function); `part_idx_range` is
`d_struct_lag_idx_range[part]` and `X_com` is `d_center_of_mass_half[part]`. -/
def rigidVelocityNode {α : Type} [Field α] (NDIM : Nat) (part_idx_range : Int × Int)
    (U : RigidDOFVector α) (X_data_array : LDataArray α) (X_com : Vector3d α)
    (V_data_array : LDataArray α) (node : LNode) : LDataArray α :=
  let lag_idx := node.lag_idx
  if part_idx_range.1 ≤ lag_idx ∧ lag_idx < part_idx_range.2 then
    let local_idx := node.local_idx
    let V_node := V_data_array local_idx
    let X := X_data_array local_idx
    if NDIM = 2 then
      let V_node := Function.update V_node 0 (U 0 - U 2 * (X 1 - X_com 1))
      let V_node := Function.update V_node 1 (U 1 + U 2 * (X 0 - X_com 0))
      Function.update V_data_array local_idx V_node
    else if NDIM = 3 then
      let V_node := Function.update V_node 0
        (U 0 + U 4 * (X 2 - X_com 2) - U 5 * (X 1 - X_com 1))
      let V_node := Function.update V_node 1
        (U 1 + U 5 * (X 0 - X_com 0) - U 3 * (X 2 - X_com 2))
      let V_node := Function.update V_node 2
        (U 2 + U 3 * (X 1 - X_com 1) - U 4 * (X 0 - X_com 0))
      Function.update V_data_array local_idx V_node
    else V_data_array
  else V_data_array

/-- `CIBMethod::setRigidBodyVelocity`; the result is the new content of `V`.
The structures level `getStructuresLevelNumber()` is the finest level, the
last entry of `levels`. -/
def setRigidBodyVelocity {α : Type} [Field α] (st : CIBState α) (part : Nat)
    (U : RigidDOFVector α) (V : LDataArray α) : LDataArray α :=
  match st.levels.getLast? with
  | none => V
  | some lev =>
    match st.nodalvelfcn part with
    | some nodalvelfcn =>
      nodalvelfcn V U lev.X_half (st.d_center_of_mass_half part) st.d_new_time
    | none =>
      lev.local_nodes.foldl
        (rigidVelocityNode st.NDIM (rangeOf st.d_struct_lag_idx_range part) U lev.X_half
          (st.d_center_of_mass_half part))
        V

/-- `F[i] += v` on a `RigidDOFVector`. -/
def addDOF {α : Type} [Field α] (F : RigidDOFVector α) (i : Fin 6) (v : α) :
    RigidDOFVector α :=
  fun k => if k = i then F k + v else F k

/-- One iteration of the node loop of `computeNetRigidGeneralizedForce`;
`X_com` is `d_center_of_mass_half[part]`. -/
def netForceNode {α : Type} [Field α] (NDIM : Nat) (ranges : List (Int × Int)) (part : Nat)
    (p_data_array : LDataArray α) (X_data_array : LDataArray α) (X_com : Vector3d α)
    (F : RigidDOFVector α) (node : LNode) : RigidDOFVector α :=
  let lag_idx := node.lag_idx
  let local_idx := node.local_idx
  let P := p_data_array local_idx
  let X := X_data_array local_idx
  let struct_id : Nat := toUnsigned (getStructureHandle ranges lag_idx)
  if struct_id ≠ part then F
  else if NDIM = 2 then
    let F := addDOF F 0 (P 0)
    let F := addDOF F 1 (P 1)
    addDOF F 2 (P 1 * (X 0 - X_com 0) - P 0 * (X 1 - X_com 1))
  else if NDIM = 3 then
    let F := addDOF F 0 (P 0)
    let F := addDOF F 1 (P 1)
    let F := addDOF F 2 (P 2)
    let F := addDOF F 3 (P 2 * (X 1 - X_com 1) - P 1 * (X 2 - X_com 2))
    let F := addDOF F 4 (P 0 * (X 2 - X_com 2) - P 2 * (X 0 - X_com 0))
    addDOF F 5 (P 1 * (X 0 - X_com 0) - P 0 * (X 1 - X_com 1))
  else F

/-- `CIBMethod::computeNetRigidGeneralizedForce`; `F` is the incoming content
of the output vector and the result its new content. -/
def computeNetRigidGeneralizedForce {α : Type} [Field α] (st : CIBState α) (part : Nat)
    (L : LDataArray α) (F : RigidDOFVector α) : RigidDOFVector α :=
  match st.levels.getLast? with
  | none => F
  | some lev =>
    let F : RigidDOFVector α := 0
    lev.local_nodes.foldl
      (netForceNode st.NDIM st.d_struct_lag_idx_range part L lev.X_half
        (st.d_center_of_mass_half part))
      F

/-! ## Marshalling between a distributed `Vec` and a flat array

A PETSc `Vec` and the raw `double*` buffer are functions of the (global)
index; `PetscInt` arithmetic is exact. -/

/-- The vector `map` of `copyVecToArray` and `copyArrayToVec` before the call
of `mapLagrangianToPETSc`: for each listed structure the indices
`lag_idx_range.first + j`, `j < getNumberOfNodes(struct_ids[k])`
(`int + unsigned`, stored as `int`). -/
def lagrangianIndices (ranges : List (Int × Int)) (struct_ids : List Nat) : List Int :=
  struct_ids.flatMap (fun id =>
    (List.range (getNumberOfNodes ranges id)).map
      (fun (j : Nat) => toInt (toUnsigned (rangeOf ranges id).1 + j)))

/-- `total_nodes`: the sum of `getNumberOfNodes(struct_ids[k])`. -/
def totalNodes (ranges : List (Int × Int)) (struct_ids : List Nat) : Nat :=
  (struct_ids.map (getNumberOfNodes ranges)).sum

/-- The index lists of the scatter, as pairs `(array_indices[i], vec_indices[i])`:
for `j < total_nodes` and `d < data_depth`, the pair
`(j * data_depth + d, map[j] * data_depth + d)`. -/
def scatterIndices (total_nodes : Nat) (map : List Int) (data_depth : Int) : List (Int × Int) :=
  (List.range total_nodes).flatMap (fun j =>
    (List.range data_depth.toNat).map
      (fun (d : Nat) => ((j : Int) * data_depth + (d : Int), map.getD j 0 * data_depth + (d : Int))))

/-- A forward `VecScatter` with `INSERT_VALUES` from `src` at the indices
`p.1` to `dst` at the indices `p.2`: `dst[p.2] = src[p.1]` for every pair. -/
def vecScatter {α : Type} (src : Int → α) (pairs : List (Int × Int)) (dst : Int → α) :
    Int → α :=
  pairs.foldl (fun acc p => Function.update acc p.2 (src p.1)) dst

/-- `CIBMethod::copyVecToArray`; the result is the new content of `array`.
`mapLagrangianToPETSc` is the index map of the structures level. -/
def copyVecToArray {α : Type} (ranges : List (Int × Int)) (mapLagrangianToPETSc : Int → Int)
    (b : Int → α) (array : Int → α) (struct_ids : List Nat) (data_depth : Int) : Int → α :=
  if struct_ids.isEmpty then array
  else
    let total_nodes := totalNodes ranges struct_ids
    let map := (lagrangianIndices ranges struct_ids).map mapLagrangianToPETSc
    let idx := scatterIndices total_nodes map data_depth
    vecScatter b (idx.map (fun p => (p.2, p.1))) array

/-- `CIBMethod::copyArrayToVec`; the result is the new content of `b`. -/
def copyArrayToVec {α : Type} (ranges : List (Int × Int)) (mapLagrangianToPETSc : Int → Int)
    (b : Int → α) (array : Int → α) (struct_ids : List Nat) (data_depth : Int) : Int → α :=
  if struct_ids.isEmpty then b
  else
    let total_nodes := totalNodes ranges struct_ids
    let map := (lagrangianIndices ranges struct_ids).map mapLagrangianToPETSc
    let idx := scatterIndices total_nodes map data_depth
    vecScatter array idx b

/-! ## Mobility matrix -/

/-- How a fatal error ends the run: a failed `TBOX_ASSERT`, a `TBOX_ERROR` or
an uncaught exception. -/
inductive Abort where
  /-- A `TBOX_ASSERT` failed (builds without `NDEBUG` only). -/
  | assertion
  /-- A `TBOX_ERROR` was raised. -/
  | error
  /-- An uncaught C++ exception (`std::length_error` from a `std::vector`
  of negative size). -/
  | exception
deriving DecidableEq

/-- `MobilityMatrixType`; `UNKNOWN` stands for every enumerator other than
`RPY` and `EMPIRICAL`. -/
inductive MobilityMatrixType where
  /-- Rotne-Prager-Yamakawa kernel. -/
  | RPY
  /-- Empirical kernel. -/
  | EMPIRICAL
  /-- Any other value. -/
  | UNKNOWN
deriving DecidableEq

/-- The two external (`extern "C"`) kernel generators; each returns the
content of `mm` after the call. -/
structure MobilityKernels (α : Type) where
  /-- `getRPYMobilityMatrix(kernel_name, mu, dx, X, n, periodic_correction, mm)` -/
  getRPYMobilityMatrix : String → α → α → (Int → α) → Nat → α → (Int → α) → Int → α
  /-- `getEmpiricalMobilityMatrix(kernel_name, mu, rho, dt, dx, X, n,
  reset_constants, periodic_correction, l_domain, mm)` -/
  getEmpiricalMobilityMatrix :
    String → α → α → α → α → (Int → α) → Nat → Bool → α → α → (Int → α) → Int → α

/-- The regularization loop of `generateMobilityMatrix`:
`mobility_mat[i * size + j] *= scale.first`, and on the diagonal
`mobility_mat[i * size + j] += scale.second * XW[i]`. -/
def regularizeMobilityMatrix {α : Type} [Field α] (size : Nat) (scale : α × α)
    (XW : Int → α) (mobility_mat : Int → α) : Int → α :=
  (List.range size).foldl (fun (mm : Int → α) (i : Nat) =>
    (List.range size).foldl (fun (mm : Int → α) (j : Nat) =>
      let mm : Int → α := fun x =>
        if x = (i : Int) * (size : Int) + (j : Int) then mm x * scale.1 else mm x
      if i = j then
        fun x => if x = (i : Int) * (size : Int) + (j : Int) then mm x + scale.2 * XW (i : Int)
          else mm x
      else mm) mm) mobility_mat

/-- The kernel call of `generateMobilityMatrix`, or the fatal error for an
unrecognised matrix type. -/
def mobilityKernel {α : Type} (K : MobilityKernels α) (mat_type : MobilityMatrixType)
    (ib_kernel : String) (mu rho dt : α) (grid_dx domain_extents : Nat → α) (XW : Int → α)
    (num_nodes : Nat) (f_periodic_corr : α) (mobility_mat : Int → α) :
    Except Abort (Int → α) :=
  match mat_type with
  | MobilityMatrixType.RPY =>
    Except.ok (K.getRPYMobilityMatrix ib_kernel mu (grid_dx 0) XW num_nodes f_periodic_corr
      mobility_mat)
  | MobilityMatrixType.EMPIRICAL =>
    Except.ok (K.getEmpiricalMobilityMatrix ib_kernel mu rho dt (grid_dx 0) XW num_nodes false
      f_periodic_corr (domain_extents 0) mobility_mat)
  | MobilityMatrixType.UNKNOWN => Except.error Abort.error

/-- `CIBMethod::generateMobilityMatrix`; the result is the new content of
`mobility_mat`.  `X` is the `Vec` of `d_X_half_data[struct_ln]`, `W` the `Vec`
of the `"regulator"` data of the structures level, `dt` is
`d_new_time - d_current_time` and `ib_kernel` the default interpolation
kernel name. -/
def generateMobilityMatrix {α : Type} [Field α] (K : MobilityKernels α) (NDIM : Nat)
    (ranges : List (Int × Int)) (mapLagrangianToPETSc : Int → Int) (ib_kernel : String)
    (dt : α) (X W : Int → α) (mat_type : MobilityMatrixType) (mobility_mat : Int → α)
    (prototype_struct_ids : List Nat) (grid_dx domain_extents : Nat → α) (rho mu : α)
    (scale : α × α) (f_periodic_corr : α) : Except Abort (Int → α) :=
  let num_nodes := totalNodes ranges prototype_struct_ids
  let size := num_nodes * NDIM
  let XW : Int → α := fun _ => 0
  let XW := copyVecToArray ranges mapLagrangianToPETSc X XW prototype_struct_ids NDIM
  match mobilityKernel K mat_type ib_kernel mu rho dt grid_dx domain_extents XW num_nodes
      f_periodic_corr mobility_mat with
  | Except.error e => Except.error e
  | Except.ok mobility_mat =>
    let XW := copyVecToArray ranges mapLagrangianToPETSc W XW prototype_struct_ids NDIM
    Except.ok (regularizeMobilityMatrix size scale XW mobility_mat)

/-! ## Freshness flags: interpolation, spreading and the constraint force

The calls delegated to the Lagrangian data manager and to `IBMethod` are
recorded in call logs; the schedules and boundary operators passed through
unchanged are left out. -/

/-- One call `d_l_data_manager->interp(u_data_idx, U_data, X_data, .., data_time)`,
with the times at which `U_data` and `X_data` were requested from
`getVelocityData` and `getPositionData`. -/
structure InterpCall (α : Type) where
  /-- `u_data_idx` -/
  u_data_idx : Int
  /-- Time level of the marker velocity data. -/
  U_data_time : α
  /-- Time level of the marker position data. -/
  X_data_time : α
  /-- `data_time` -/
  data_time : α

/-- One call `IBMethod::spreadForce(f_data_idx, .., data_time)`. -/
structure SpreadCall (α : Type) where
  /-- `f_data_idx` -/
  f_data_idx : Int
  /-- `data_time` -/
  data_time : α

/-- The members read or written by `interpolateVelocity`, `spreadForce`,
`setConstraintForce` and `setInterpolatedVelocityVector`. -/
structure TransferState (α : Type) where
  /-- `d_lag_velvec_is_initialized` -/
  d_lag_velvec_is_initialized : Bool
  /-- `d_constraint_force_is_initialized` -/
  d_constraint_force_is_initialized : Bool
  /-- `d_half_time` -/
  d_half_time : α
  /-- The `Vec` of the half-step force data on the structures level. -/
  F_half : Int → α
  /-- `d_F_half_needs_ghost_fill` -/
  F_half_needs_ghost_fill : Bool
  /-- The calls of `d_l_data_manager->interp` made so far. -/
  interp_calls : List (InterpCall α)
  /-- The calls of `IBMethod::spreadForce` made so far. -/
  spread_calls : List (SpreadCall α)

/-- The statement `TBOX_ASSERT(MathUtilities<double>::equalEps(data_time, d_half_time))`
inside `#if !defined(NDEBUG)`: whether it aborts.  `equalEps` is the
comparison within floating-point epsilon. -/
def timeAssertFails {α : Type} (NDEBUG : Bool) (equalEps : α → α → Bool)
    (data_time d_half_time : α) : Bool :=
  !NDEBUG && !equalEps data_time d_half_time

/-- `CIBMethod::interpolateVelocity`. -/
def interpolateVelocity {α : Type} (NDEBUG : Bool) (equalEps : α → α → Bool)
    (st : TransferState α) (u_data_idx : Int) (data_time : α) :
    Except Abort (TransferState α) :=
  if st.d_lag_velvec_is_initialized then
    if timeAssertFails NDEBUG equalEps data_time st.d_half_time then
      Except.error Abort.assertion
    else
      Except.ok { st with
        interp_calls := st.interp_calls ++
          [{ u_data_idx := u_data_idx, U_data_time := st.d_half_time,
             X_data_time := st.d_half_time, data_time := data_time }]
        d_lag_velvec_is_initialized := false }
  else Except.ok st

/-- `CIBMethod::spreadForce`. -/
def spreadForce {α : Type} (NDEBUG : Bool) (equalEps : α → α → Bool)
    (st : TransferState α) (f_data_idx : Int) (data_time : α) :
    Except Abort (TransferState α) :=
  if st.d_constraint_force_is_initialized then
    if timeAssertFails NDEBUG equalEps data_time st.d_half_time then
      Except.error Abort.assertion
    else
      Except.ok { st with
        spread_calls := st.spread_calls ++
          [{ f_data_idx := f_data_idx, data_time := data_time }]
        d_constraint_force_is_initialized := false }
  else Except.ok st

/-- `CIBMethod::trapezoidalStep`: the `TBOX_ERROR` is its first statement. -/
def trapezoidalStep {α : Type} (_st : CIBState α) (_current_time _new_time : α) :
    Except Abort (CIBState α) :=
  Except.error Abort.error

/-- `CIBMethod::setConstraintForce`: `VecCopy(L, F_half); VecScale(F_half, scale)`.
The caller's `L` is a `Vec` other than `F_half`, and is only read. -/
def setConstraintForce {α : Type} [Field α] (NDEBUG : Bool) (equalEps : α → α → Bool)
    (st : TransferState α) (L : Int → α) (data_time : α) (scale : α) :
    Except Abort (TransferState α) :=
  if timeAssertFails NDEBUG equalEps data_time st.d_half_time then
    Except.error Abort.assertion
  else
    let F_half : Int → α := L
    let F_half : Int → α := fun i => scale * F_half i
    Except.ok { st with
      F_half := F_half
      F_half_needs_ghost_fill := true
      d_constraint_force_is_initialized := true }

/-- `CIBMethod::setInterpolatedVelocityVector`. -/
def setInterpolatedVelocityVector {α : Type} (NDEBUG : Bool) (equalEps : α → α → Bool)
    (st : TransferState α) (data_time : α) : Except Abort (TransferState α) :=
  if timeAssertFails NDEBUG equalEps data_time st.d_half_time then
    Except.error Abort.assertion
  else Except.ok { st with d_lag_velvec_is_initialized := true }

/-- A sequence of `spreadForce` calls with the arguments `(f_data_idx, data_time)`
of `calls`, stopping at the first fatal error. -/
def spreadForceSeq {α : Type} (NDEBUG : Bool) (equalEps : α → α → Bool) :
    TransferState α → List (Int × α) → Except Abort (TransferState α)
  | st, [] => Except.ok st
  | st, call :: calls =>
    match spreadForce NDEBUG equalEps st call.1 call.2 with
    | Except.ok st' => spreadForceSeq NDEBUG equalEps st' calls
    | Except.error e => Except.error e

/-! ## Mean constraint force -/

/-- Index of a side of a patch along one axis. -/
abbrev SideIndex := Int × Int × Int

/-- The side-centered data `patch->getPatchData(f_data_idx)` of one patch:
`sideIndices axis` is the enumeration of `SideIterator(patch_box, axis)` and
`data axis i` the sample at the side `i` normal to `axis`. -/
structure PatchSideData (α : Type) where
  /-- The sides visited by `SideIterator(patch_box, axis)`. -/
  sideIndices : Nat → List SideIndex
  /-- The samples `(*p_data)(i)`. -/
  data : Nat → SideIndex → α

/-- The sums `F[d] += L_array[k * NDIM + d]` of `subtractMeanConstraintForce`,
from `F = {0.0}`. -/
def sumConstraintForce {α : Type} [Field α] (NDIM : Nat) (L_array : Int → α)
    (local_no_ib_pts : Nat) : Nat → α :=
  (List.range local_no_ib_pts).foldl (fun (F : Nat → α) (k : Nat) =>
    (List.range NDIM).foldl (fun (F : Nat → α) (d : Nat) =>
      fun x => if x = d then F x + L_array ((k : Int) * (NDIM : Int) + (d : Int)) else F x) F)
    (fun _ => 0)

/-- The loops over `axis` and the sides of one patch:
`(*p_data)(it()) -= F[axis] / vol_domain`. -/
def subtractMeanPatch {α : Type} [Field α] (NDIM : Nat) (F : Nat → α) (vol_domain : α)
    (patch : PatchSideData α) : PatchSideData α :=
  (List.range NDIM).foldl (fun (p : PatchSideData α) (axis : Nat) =>
    (p.sideIndices axis).foldl (fun (p : PatchSideData α) (i : SideIndex) =>
      { p with data := fun a x =>
          if a = axis ∧ x = i then p.data a x - F axis / vol_domain else p.data a x }) p)
    patch

/-- `CIBMethod::subtractMeanConstraintForce`; `local_size_L` is the local size
of `L`, `hierarchy` the patches of the levels `0 .. finest_ln` with their
data of index `f_data_idx`, and `vol_domain` the volume of the physical
domain.  The result is the new content of `L` and of the patch data. -/
def subtractMeanConstraintForce {α : Type} [Field α] (NDIM : Nat) (vol_domain : α)
    (L : Int → α) (local_size_L : Nat) (hierarchy : List (List (PatchSideData α)))
    (scale : α) : (Int → α) × List (List (PatchSideData α)) :=
  let L : Int → α := fun i => scale * L i
  let local_no_ib_pts := local_size_L / NDIM
  let F := sumConstraintForce NDIM L local_no_ib_pts
  let hierarchy := hierarchy.map (fun level => level.map (subtractMeanPatch NDIM F vol_domain))
  let L : Int → α := fun i => 1 / scale * L i
  (L, hierarchy)

/-! ## Pre-fluid-solve callbacks

The callbacks are function pointers with a `void*` context; what they do is
outside the class, so a run of `preprocessSolveFluidEquations` is recorded as
the list of the calls it makes, in order. -/

/-- One call made by `preprocessSolveFluidEquations`. -/
inductive PreprocessEvent (α Fn Ctx : Type) where
  /-- `IBMethod::preprocessSolveFluidEquations(current_time, new_time, cycle_num)` -/
  | base (current_time new_time : α) (cycle_num : Int)
  /-- `d_prefluidsolve_callback_fcns[i](current_time, new_time, cycle_num, ctx)` -/
  | callback (fcn : Fn) (current_time new_time : α) (cycle_num : Int) (ctx : Ctx)

/-- The two vectors of registered callbacks and of their contexts. -/
structure CallbackState (Fn Ctx : Type) where
  /-- `d_prefluidsolve_callback_fcns` -/
  d_prefluidsolve_callback_fcns : List Fn
  /-- `d_prefluidsolve_callback_fcns_ctx` -/
  d_prefluidsolve_callback_fcns_ctx : List Ctx

/-- `CIBMethod::registerPreProcessSolveFluidEquationsCallBackFcn`: two `push_back`s. -/
def registerPreProcessSolveFluidEquationsCallBackFcn {Fn Ctx : Type}
    (st : CallbackState Fn Ctx) (callback : Fn) (ctx : Ctx) : CallbackState Fn Ctx :=
  { d_prefluidsolve_callback_fcns := st.d_prefluidsolve_callback_fcns ++ [callback]
    d_prefluidsolve_callback_fcns_ctx := st.d_prefluidsolve_callback_fcns_ctx ++ [ctx] }

/-- `CIBMethod::preprocessSolveFluidEquations`: the calls it makes, in order.
The loop runs over `i < d_prefluidsolve_callback_fcns.size()`; a read of
`d_prefluidsolve_callback_fcns_ctx[i]` past the end of that vector (which no
sequence of registrations produces) records no call. -/
def preprocessSolveFluidEquations {α Fn Ctx : Type} (st : CallbackState Fn Ctx)
    (current_time new_time : α) (cycle_num : Int) : List (PreprocessEvent α Fn Ctx) :=
  [PreprocessEvent.base current_time new_time cycle_num] ++
    (List.range st.d_prefluidsolve_callback_fcns.length).filterMap (fun (i : Nat) =>
      match st.d_prefluidsolve_callback_fcns[i]?, st.d_prefluidsolve_callback_fcns_ctx[i]? with
      | some fcn, some ctx =>
        some (PreprocessEvent.callback fcn current_time new_time cycle_num ctx)
      | _, _ => none)

/-! ## Checkpoint: `putToDatabase` and `getFromRestart`

A SAMRAI `Database` is read as the map from its keys to the double arrays
stored under them; the restart root database maps object names to child
databases. -/

/-- The double arrays of a `Database`, by key. -/
abbrev Database (α : Type) := String → Option (List α)

/-- `db->putDoubleArray(key, data, nelements)`, with `data` the `nelements`
values read from the pointer. -/
def putDoubleArray {α : Type} (db : Database α) (key : String) (data : List α) : Database α :=
  fun k => if k = key then some data else db k

/-- `db->getDoubleArray(key, data, nelements)`: the stored array, or a fatal
error when the key is absent or the stored array does not have `nelements`
entries. -/
def getDoubleArray {α : Type} (db : Database α) (key : String) (nelements : Nat) :
    Except Abort (List α) :=
  match db key with
  | some data => if data.length = nelements then Except.ok data else Except.error Abort.error
  | none => Except.error Abort.error

/-- The key `U.str()` after `U << "U_" << struct_no`. -/
def keyU (struct_no : Nat) : String := "U_" ++ toString struct_no

/-- The key `W.str()` after `W << "W_" << struct_no`. -/
def keyW (struct_no : Nat) : String := "W_" ++ toString struct_no

/-- `CIBMethod::putToDatabase`; `IBMethod_putToDatabase` is the base-class
call that comes first, and the result is the content of `db` afterwards. -/
def putToDatabase {α : Type} (IBMethod_putToDatabase : Database α → Database α)
    (st : CIBState α) (db : Database α) : Database α :=
  let db := IBMethod_putToDatabase db
  (List.range st.d_num_rigid_parts).foldl (fun (db : Database α) (struct_no : Nat) =>
    let db := putDoubleArray db (keyU struct_no)
      [st.d_trans_vel_current struct_no 0, st.d_trans_vel_current struct_no 1,
        st.d_trans_vel_current struct_no 2]
    putDoubleArray db (keyW struct_no)
      [st.d_rot_vel_current struct_no 0, st.d_rot_vel_current struct_no 1,
        st.d_rot_vel_current struct_no 2]) db

/-- The loop of `getFromRestart` over the structures `struct_nos`. -/
def getFromRestartLoop {α : Type} [Zero α] (db : Database α) :
    List Nat → CIBState α → Except Abort (CIBState α)
  | [], st => Except.ok st
  | struct_no :: rest, st =>
    match getDoubleArray db (keyU struct_no) 3 with
    | Except.error e => Except.error e
    | Except.ok U =>
      match getDoubleArray db (keyW struct_no) 3 with
      | Except.error e => Except.error e
      | Except.ok W =>
        getFromRestartLoop db rest
          { st with
            d_trans_vel_current := fun i =>
              if i = (struct_no : Int) then fun d => U.getD d.val 0
              else st.d_trans_vel_current i
            d_rot_vel_current := fun i =>
              if i = (struct_no : Int) then fun d => W.getD d.val 0
              else st.d_rot_vel_current i }

/-- `CIBMethod::getFromRestart`; `restart_db` is the root database of the
restart manager, by object name. -/
def getFromRestart {α : Type} [Zero α] (restart_db : String → Option (Database α))
    (d_object_name : String) (st : CIBState α) : Except Abort (CIBState α) :=
  match restart_db d_object_name with
  | none => Except.error Abort.error
  | some db => getFromRestartLoop db (List.range st.d_num_rigid_parts) st

/-! ## Weight and lambda files

A file is the list of its lines, as successive `std::getline` calls return
them; `openFile` gives the lines of the file of a given name, `none` when the
stream does not open.  The stream extractions `iss >> x` are library code and
are parameters of the embedding.  The loaders return the new content of the
marker array, or the fatal error together with the content of the array at
the moment of the abort. -/

/-- What `operator>>` of a `std::istringstream` over a line yields. -/
structure Extraction (α : Type) where
  /-- The value of an `int` after `iss >> lag_pts` on a fresh stream over the
  line, given its value before. -/
  readInt : String → Int → Int
  /-- The value of a `double` after the `d`-th extraction (`d = 0, 1, ..`) on
  one stream over the line, given its value before. -/
  readDouble : String → Nat → α → α

/-- The constant `cell_volume` of `setRegularizationWeight` (`NDIM` is 2 or
3; for any other value the program does not compile). -/
def cellVolume {α : Type} [Field α] (NDIM : Nat) (dx : Nat → α) : α :=
  if NDIM = 2 then dx 0 * dx 1
  else if NDIM = 3 then dx 0 * dx 1 * dx 2
  else 0

/-- One iteration of a node loop of `setRegularizationWeight` or
`setInitialLambda`: for a node whose Lagrangian index lies in
`lag_idx_range`, `A[local_idx][d] = value lag_idx d` for `d < NDIM`. -/
def assignNode {α : Type} (NDIM : Nat) (lag_idx_range : Int × Int)
    (value : Int → Fin 3 → α) (A : LDataArray α) (node : LNode) : LDataArray α :=
  let lag_idx := node.lag_idx
  if lag_idx_range.1 ≤ lag_idx ∧ lag_idx < lag_idx_range.2 then
    let local_idx := node.local_idx
    fun i d => if i = local_idx ∧ d.val < NDIM then value lag_idx d else A i d
  else A

/-- The first `getline` of a weight or lambda file and the check of the
marker count; the result is `lag_pts` and the remaining lines. -/
def readCount {α : Type} (ex : Extraction α) (lag_idx_range : Int × Int)
    (lines : List String) : Except Abort (Int × List String) :=
  match lines with
  | [] => Except.error Abort.error
  | line_f :: lines =>
    let lag_pts := ex.readInt line_f (-1)
    if lag_pts ≠ lag_idx_range.2 - lag_idx_range.1 then Except.error Abort.error
    else Except.ok (lag_pts, lines)

/-- The loop `for (int k = 0; k < lag_pts; ++k)` of `setRegularizationWeight`,
with `n` iterations left from `k` on: one `getline` and one extraction into
`reg_weight[k]` per iteration. -/
def readWeightLines {α : Type} (ex : Extraction α) :
    Nat → Int → List String → (Int → α) → Except Abort (Int → α)
  | 0, _, _, reg_weight => Except.ok reg_weight
  | n + 1, k, lines, reg_weight =>
    match lines with
    | [] => Except.error Abort.error
    | line_f :: lines =>
      readWeightLines ex n (k + 1) lines
        (fun i => if i = k then ex.readDouble line_f 0 (reg_weight i) else reg_weight i)

/-- The loop `for (int k = 0; k < lag_pts; ++k)` of `setInitialLambda`, with
`n` iterations left from `k` on: one `getline` and `NDIM` extractions into
`initial_lambda[k * NDIM + d]` per iteration. -/
def readLambdaLines {α : Type} (ex : Extraction α) (NDIM : Nat) :
    Nat → Int → List String → (Int → α) → Except Abort (Int → α)
  | 0, _, _, initial_lambda => Except.ok initial_lambda
  | n + 1, k, lines, initial_lambda =>
    match lines with
    | [] => Except.error Abort.error
    | line_f :: lines =>
      readLambdaLines ex NDIM n (k + 1) lines
        ((List.range NDIM).foldl (fun (initial_lambda : Int → α) (d : Nat) =>
          fun i => if i = k * (NDIM : Int) + (d : Int)
            then ex.readDouble line_f d (initial_lambda i) else initial_lambda i)
          initial_lambda)

/-- The loop `for (unsigned struct_no = 0; struct_no < structs_on_this_ln; ++struct_no)`
of the two loaders, over the values `struct_nos` of `struct_no`: it stops at
the first fatal error. -/
def forStructs {D : Type} (body : D → Nat → Except (Abort × D) D) :
    List Nat → D → Except (Abort × D) D
  | [], data => Except.ok data
  | struct_no :: rest, data =>
    match body data struct_no with
    | Except.ok data => forStructs body rest data
    | Except.error e => Except.error e

/-- Body of the structure loop of `setRegularizationWeight`. -/
def regWeightStruct {α : Type} [Field α] (ex : Extraction α)
    (openFile : String → Option (List String)) (NDIM : Nat) (equalEps : α → α → Bool)
    (cell_volume : α) (ranges : List (Int × Int)) (d_reg_filename : Nat → String)
    (local_nodes : List LNode) (reg_data_array : LDataArray α) (struct_no : Nat) :
    Except (Abort × LDataArray α) (LDataArray α) :=
  let lag_idx_range := rangeOf ranges struct_no
  if d_reg_filename struct_no = "" then
    Except.ok (local_nodes.foldl (assignNode NDIM lag_idx_range (fun _ _ => cell_volume))
      reg_data_array)
  else
    match openFile (d_reg_filename struct_no) with
    | none => Except.error (Abort.error, reg_data_array)
    | some lines =>
      match readCount ex lag_idx_range lines with
      | Except.error e => Except.error (e, reg_data_array)
      | Except.ok (lag_pts, lines) =>
        if lag_pts < 0 then Except.error (Abort.exception, reg_data_array)
        else
          match readWeightLines ex lag_pts.toNat 0 lines (fun _ => 0) with
          | Except.error e => Except.error (e, reg_data_array)
          | Except.ok reg_weight =>
            Except.ok (local_nodes.foldl
              (assignNode NDIM lag_idx_range (fun lag_idx _ =>
                let weight := reg_weight (lag_idx - lag_idx_range.1)
                if !equalEps weight 0 then cell_volume / reg_weight (lag_idx - lag_idx_range.1)
                else 0))
              reg_data_array)

/-- `CIBMethod::setRegularizationWeight(level_number)`; `lev` is the level
`level_number`, `reg_data_array` the `"regulator"` data of that level and
`dx` the grid spacing. -/
def setRegularizationWeight {α : Type} [Field α] (ex : Extraction α)
    (openFile : String → Option (List String)) (NDEBUG : Bool) (equalEps : α → α → Bool)
    (NDIM : Nat) (dx : Nat → α) (ranges : List (Int × Int)) (d_reg_filename : Nat → String)
    (lev : LevelData α) (reg_data_array : LDataArray α) :
    Except (Abort × LDataArray α) (LDataArray α) :=
  let cell_volume := cellVolume NDIM dx
  let structs_on_this_ln := lev.structIDs.length
  if !NDEBUG && decide (structs_on_this_ln ≠ ranges.length) then
    Except.error (Abort.assertion, reg_data_array)
  else
    forStructs
      (regWeightStruct ex openFile NDIM equalEps cell_volume ranges d_reg_filename
        lev.local_nodes)
      (List.range structs_on_this_ln) reg_data_array

/-- Body of the structure loop of `setInitialLambda`. -/
def lambdaStruct {α : Type} [Field α] (ex : Extraction α)
    (openFile : String → Option (List String)) (NDIM : Nat) (ranges : List (Int × Int))
    (d_lambda_filename : Nat → String) (local_nodes : List LNode)
    (lambda_data_array : LDataArray α) (struct_no : Nat) :
    Except (Abort × LDataArray α) (LDataArray α) :=
  let lag_idx_range := rangeOf ranges struct_no
  if d_lambda_filename struct_no = "" then Except.ok lambda_data_array
  else
    match openFile (d_lambda_filename struct_no) with
    | none => Except.error (Abort.error, lambda_data_array)
    | some lines =>
      match readCount ex lag_idx_range lines with
      | Except.error e => Except.error (e, lambda_data_array)
      | Except.ok (lag_pts, lines) =>
        if lag_pts * (NDIM : Int) < 0 then Except.error (Abort.exception, lambda_data_array)
        else
          match readLambdaLines ex NDIM lag_pts.toNat 0 lines (fun _ => 0) with
          | Except.error e => Except.error (e, lambda_data_array)
          | Except.ok initial_lambda =>
            Except.ok (local_nodes.foldl
              (assignNode NDIM lag_idx_range (fun lag_idx d =>
                initial_lambda ((lag_idx - lag_idx_range.1) * (NDIM : Int) + (d.val : Int))))
              lambda_data_array)

/-- `CIBMethod::setInitialLambda(level_number)`; `lev` is the level
`level_number` and `lambda_data_array` the `"lambda"` data of that level. -/
def setInitialLambda {α : Type} [Field α] (ex : Extraction α)
    (openFile : String → Option (List String)) (NDEBUG : Bool) (NDIM : Nat)
    (ranges : List (Int × Int)) (d_lambda_filename : Nat → String)
    (lev : LevelData α) (lambda_data_array : LDataArray α) :
    Except (Abort × LDataArray α) (LDataArray α) :=
  let structs_on_this_ln := lev.structIDs.length
  if !NDEBUG && decide (structs_on_this_ln ≠ ranges.length) then
    Except.error (Abort.assertion, lambda_data_array)
  else
    forStructs (lambdaStruct ex openFile NDIM ranges d_lambda_filename lev.local_nodes)
      (List.range structs_on_this_ln) lambda_data_array

/-! ## Data-model invariants and specification-side quantities -/

/-- The markers of structure `struct_no` among `nodes`: the nodes whose
Lagrangian index lies in the structure's range. -/
def markersOf (ranges : List (Int × Int)) (struct_no : Nat) (nodes : List LNode) : List LNode :=
  nodes.filter (fun node => inRange (rangeOf ranges struct_no) node.lag_idx)

/-- Arithmetic mean of the rows of `X` at `nodes`, on the components
`d < NDIM` (zero on the others). -/
def meanPosition {α : Type} [Field α] (NDIM : Nat) (X : LDataArray α) (nodes : List LNode) :
    Vector3d α :=
  fun d =>
    if d.val < NDIM then (nodes.map (fun node => X node.local_idx d)).sum / (nodes.length : α)
    else 0

/-- The data-model invariant of a level that holds the structures (spec,
section 3, and the `TBOX_ASSERT(structs_on_this_ln == d_num_rigid_parts)` of
the source): the level holds all the structures, their ranges are valid and
pairwise disjoint, distinct nodes have distinct local and Lagrangian
indices, and the nodes are exactly the markers of the structures. -/
structure MarkerLayout (ranges : List (Int × Int)) (structs_on_this_ln : Nat)
    (nodes : List LNode) : Prop where
  /-- The level holds all `d_num_rigid_parts` structures. -/
  structs : structs_on_this_ln = ranges.length
  /-- Ranges of distinct structures are disjoint. -/
  disjoint : PairwiseDisjoint ranges
  /-- Every range is a valid `int` range whose size fits an `int`. -/
  valid : ∀ r ∈ ranges, r.1 ≤ r.2 ∧ r.2 - r.1 < 2 ^ 31
  /-- Distinct nodes have distinct local PETSc indices. -/
  local_nodup : (nodes.map LNode.local_idx).Nodup
  /-- Distinct nodes have distinct Lagrangian indices. -/
  lag_nodup : (nodes.map LNode.lag_idx).Nodup
  /-- Every index of a range is the Lagrangian index of a node. -/
  cover : ∀ r ∈ ranges, ∀ x, inRange r x → ∃ node ∈ nodes, node.lag_idx = x
  /-- Every node belongs to a structure. -/
  belongs : ∀ node ∈ nodes, ∃ r ∈ ranges, inRange r node.lag_idx

/-- The skew-symmetric cross-product matrix `[e]x`. -/
def crossMatrix {α : Type} [Field α] (e : Vector3d α) : Matrix3d α :=
  !![0, -e 2, e 1; e 2, 0, -e 0; -e 1, e 0, 0]

/-- Follows the spec's words (section 4.4): the rotation of a structure with
rotational velocity `U_rot` over the time scale `t` is the Rodrigues matrix
`I cos(theta) + (1 - cos(theta)) e eᵀ + sin(theta) [e]x` with
`e = U_rot / |U_rot|` and `theta = t * |U_rot|` when `|U_rot|` exceeds machine
epsilon, and the identity otherwise. -/
def specRotation {α : Type} [LinearOrderedField α] (F : MathFns α) (U_rot : Vector3d α)
    (t : α) : Matrix3d α :=
  let norm := F.sqrt (U_rot 0 * U_rot 0 + U_rot 1 * U_rot 1 + U_rot 2 * U_rot 2)
  if norm > epsilon then
    let e : Vector3d α := fun i => U_rot i / norm
    let theta := t * norm
    F.cos theta • (1 : Matrix3d α) + (1 - F.cos theta) • Matrix.vecMulVec e e +
      F.sin theta • crossMatrix e
  else 1

/-- The `NDIM` leading components of a 3-vector, the others set to zero: an
`NDIM`-dimensional vector read in 3-space, as the `Eigen::Vector3d dr` of
the position updates. -/
def spatial {α : Type} [Field α] (NDIM : Nat) (v : Vector3d α) : Vector3d α :=
  fun d => if d.val < NDIM then v d else 0

/-- The row that the loop body of `setRigidBodyVelocity` leaves at a marker
of the part, given the row `V_node` before: the `NDIM` leading components are
overwritten with the rigid velocity, the others are kept. -/
def rigidRow {α : Type} [Field α] (NDIM : Nat) (U : RigidDOFVector α) (X : Vector3d α)
    (X_com : Vector3d α) (V_node : Vector3d α) : Vector3d α :=
  if NDIM = 2 then
    ![U 0 - U 2 * (X 1 - X_com 1), U 1 + U 2 * (X 0 - X_com 0), V_node 2]
  else if NDIM = 3 then
    ![U 0 + U 4 * (X 2 - X_com 2) - U 5 * (X 1 - X_com 1),
      U 1 + U 5 * (X 0 - X_com 0) - U 3 * (X 2 - X_com 2),
      U 2 + U 3 * (X 1 - X_com 1) - U 4 * (X 0 - X_com 0)]
  else V_node

/-- What the loop body of `computeNetRigidGeneralizedForce` adds to `F` for
one marker of the part: the force `P` and its torque about `X_com`. -/
def forceContribution {α : Type} [Field α] (NDIM : Nat) (P : Vector3d α) (X : Vector3d α)
    (X_com : Vector3d α) : RigidDOFVector α :=
  if NDIM = 2 then
    ![P 0, P 1, P 1 * (X 0 - X_com 0) - P 0 * (X 1 - X_com 1), 0, 0, 0]
  else if NDIM = 3 then
    ![P 0, P 1, P 2,
      P 2 * (X 1 - X_com 1) - P 1 * (X 2 - X_com 2),
      P 0 * (X 2 - X_com 2) - P 2 * (X 0 - X_com 0),
      P 1 * (X 0 - X_com 0) - P 0 * (X 1 - X_com 1)]
  else 0

/-! ## The rotation scenario of the spec (section 8)

One structure of four markers at `(1,0,0)`, `(-1,0,0)`, `(0,1,0)`,
`(0,-1,0)` (current and half-step positions), on a hierarchy of one level;
the rotational velocity is `(0, 0, omega)` and the translational velocity
is zero. -/

/-- The level of the scenario. -/
def scenarioLevel (α : Type) [Field α] : LevelData α where
  levelContainsLagrangianData := true
  local_nodes := [⟨0, 0⟩, ⟨1, 1⟩, ⟨2, 2⟩, ⟨3, 3⟩]
  structIDs := [0]
  X_current := fun local_idx =>
    if local_idx = 0 then ![1, 0, 0]
    else if local_idx = 1 then ![-1, 0, 0]
    else if local_idx = 2 then ![0, 1, 0]
    else if local_idx = 3 then ![0, -1, 0]
    else 0
  X_half := fun local_idx =>
    if local_idx = 0 then ![1, 0, 0]
    else if local_idx = 1 then ![-1, 0, 0]
    else if local_idx = 2 then ![0, 1, 0]
    else if local_idx = 3 then ![0, -1, 0]
    else 0
  X_new := fun _ => 0

/-- The state of the scenario. -/
def scenarioState (α : Type) [Field α] (omega : α) : CIBState α where
  NDIM := 3
  d_struct_lag_idx_range := [(0, 4)]
  levels := [scenarioLevel α]
  d_center_of_mass_current := fun _ => 0
  d_center_of_mass_half := fun _ => 0
  d_moment_of_inertia_current := fun _ => 0
  d_moment_of_inertia_half := fun _ => 0
  d_trans_vel_current := fun _ => 0
  d_trans_vel_half := fun _ => 0
  d_rot_vel_current := fun _ => ![0, 0, omega]
  d_rot_vel_half := fun _ => ![0, 0, omega]
  X_half_needs_ghost_fill := false
  nodalvelfcn := fun _ => none
  d_new_time := 1

/-- The scenario state with a nodal velocity function registered for every
part, one that leaves `V` as it is. -/
def scenarioStateWithFcn (α : Type) [Field α] (omega : α) : CIBState α :=
  { scenarioState α omega with nodalvelfcn := fun _ => some (fun V _ _ _ _ => V) }

/-- A state of the freshness flags with half-step time `1/2`, for examples. -/
def transferScenario (α : Type) [Field α] (vel_pending force_fresh : Bool) : TransferState α where
  d_lag_velvec_is_initialized := vel_pending
  d_constraint_force_is_initialized := force_fresh
  d_half_time := 1 / 2
  F_half := fun _ => 0
  F_half_needs_ghost_fill := false
  interp_calls := []
  spread_calls := []

/-- Stand-ins for the external kernel generators, for examples. -/
def sampleKernels (α : Type) [Field α] : MobilityKernels α where
  getRPYMobilityMatrix := fun _ mu _ X _ _ _ i => mu * X i
  getEmpiricalMobilityMatrix := fun _ _ _ _ _ X _ _ _ _ _ i => X i

/-- A patch with two sides along axis 0 and one side along the other axes,
holding the sample `axis + 10` everywhere, for examples. -/
def samplePatch (α : Type) [Field α] : PatchSideData α where
  sideIndices := fun axis => if axis = 0 then [(0, 0, 0), (1, 0, 0)] else [(0, 0, 0)]
  data := fun axis _ => (axis : α) + 10

/-- Dot product of two marker rows over the `NDIM` spatial components. -/
def dotSpatial {α : Type} [Field α] (NDIM : Nat) (a b : Vector3d α) : α :=
  ∑ d : Fin 3, if d.val < NDIM then a d * b d else 0

/-- Dot product of two generalized vectors over their
`NDIM * (NDIM + 1) / 2` components (6 in 3-D, 3 in 2-D). -/
def dotDOF {α : Type} [Field α] (NDIM : Nat) (U F : RigidDOFVector α) : α :=
  ∑ k : Fin 6, if k.val < NDIM * (NDIM + 1) / 2 then U k * F k else 0

/-- The Euclidean distance of two points of 3-space, with the square root of
`F`. -/
def euclideanDistance {α : Type} [Field α] (F : MathFns α) (a b : Vector3d α) : α :=
  F.sqrt ((a 0 - b 0) ^ 2 + (a 1 - b 1) ^ 2 + (a 2 - b 2) ^ 2)

/-- Follows the spec's words (the hooks are "invoked once per cycle before
delegating to the base fluid-structure preprocessing"): in the list of calls,
every callback invocation comes before every call of the base
preprocessing. -/
def specCallbacksBeforeBase {α Fn Ctx : Type} (calls : List (PreprocessEvent α Fn Ctx)) : Prop :=
  ∀ (i j : Nat) (fcn : Fn) (t0 t1 : α) (c : Int) (ctx : Ctx) (t0' t1' : α) (c' : Int),
    calls[i]? = some (PreprocessEvent.callback fcn t0 t1 c ctx) →
    calls[j]? = some (PreprocessEvent.base t0' t1' c') → i < j

/-- The number written by a string of decimal digits, continuing from `acc`. -/
def digitsValue (ds : List Char) (acc : Nat) : Nat :=
  ds.foldl (fun a c => a * 10 + (c.toNat - 48)) acc

/-- A tolerance comparison for examples, after the `MathUtilities<double>::equalEps`
of the SAMRAI library that the source calls:
`|a - b| / max(|a|, |b|, eps) < sqrt(eps)` with `eps = 2^-52`. -/
def sampleEqualEps {α : Type} [LinearOrderedField α] (a b : α) : Bool :=
  decide (|a - b| / max (max |a| |b|) epsilon < 1 / 2 ^ 26)

/-- Stand-in for the stream extractions, for examples: it knows the lines
`"0"`, `"1"`, `"2"`, `"4"`, `"1e-30"` and `"1 2 3"`; from any other line an
`int` extraction leaves `0` and a `double` extraction leaves `0`, as a failed
extraction does. -/
def sampleExtraction (α : Type) [Field α] : Extraction α where
  readInt := fun line _ =>
    if line = "1" then 1 else if line = "2" then 2 else if line = "4" then 4 else 0
  readDouble := fun line d _ =>
    if line = "0" ∧ d = 0 then 0
    else if line = "1" ∧ d = 0 then 1
    else if line = "2" ∧ d = 0 then 2
    else if line = "4" ∧ d = 0 then 4
    else if line = "1e-30" ∧ d = 0 then 1 / 10 ^ 30
    else if line = "1 2 3" ∧ d < 3 then (d : α) + 1
    else 0

/-- A file system for examples: `weights.dat` (two markers, weights 0 and 4),
`tiny.dat` (one marker, weight `1e-30`), `short.dat` (a count of 2 and one data
line), `bad.dat` (two markers, data lines that hold no number) and
`lambda.dat` (two markers). -/
def sampleFiles (name : String) : Option (List String) :=
  if name = "weights.dat" then some ["2", "0", "4"]
  else if name = "tiny.dat" then some ["1", "1e-30"]
  else if name = "short.dat" then some ["2", "4"]
  else if name = "bad.dat" then some ["2", "abc", "x y z"]
  else if name = "lambda.dat" then some ["2", "1 2 3", "1 2 3"]
  else none

/-- The weight that the file of structure `struct_no` assigns to the marker of
Lagrangian index `lag_idx`: what the first extraction yields from the data
line number `lag_idx - first` (zero when there is no such file). -/
def fileWeight {α : Type} [Field α] (ex : Extraction α)
    (openFile : String → Option (List String)) (ranges : List (Int × Int))
    (d_reg_filename : Nat → String) (struct_no : Nat) (lag_idx : Int) : α :=
  match openFile (d_reg_filename struct_no) with
  | some (_ :: rest) =>
    ex.readDouble (rest.getD (lag_idx - (rangeOf ranges struct_no).1).toNat "") 0 0
  | _ => 0

/-- A weight or lambda file that loads for structure `struct_no`: it opens,
its first line holds the marker count `last - first` of the structure, and at
least that many data lines follow. -/
def FileLoads {α : Type} (ex : Extraction α) (openFile : String → Option (List String))
    (ranges : List (Int × Int)) (filename : Nat → String) (struct_no : Nat) : Prop :=
  ∃ (first : String) (rest : List String),
    openFile (filename struct_no) = some (first :: rest) ∧
    ex.readInt first (-1) = (rangeOf ranges struct_no).2 - (rangeOf ranges struct_no).1 ∧
    ((rangeOf ranges struct_no).2 - (rangeOf ranges struct_no).1).toNat ≤ rest.length

/-- The regularization entry that the marker of Lagrangian index `lag_idx` of
structure `struct_no` is to hold: the cell volume without a weight file, and
with a file `0` or `cell_volume / weight` as `equalEps(weight, 0.0)` decides. -/
def regEntry {α : Type} [Field α] (ex : Extraction α)
    (openFile : String → Option (List String)) (equalEps : α → α → Bool) (cell_volume : α)
    (ranges : List (Int × Int)) (d_reg_filename : Nat → String) (struct_no : Nat)
    (lag_idx : Int) : α :=
  if d_reg_filename struct_no = "" then cell_volume
  else if !equalEps (fileWeight ex openFile ranges d_reg_filename struct_no lag_idx) 0 then
    cell_volume / fileWeight ex openFile ranges d_reg_filename struct_no lag_idx
  else 0

/-- A level with the given nodes and one structure, for examples. -/
def levelOfNodes (α : Type) [Field α] (nodes : List LNode) : LevelData α where
  levelContainsLagrangianData := true
  local_nodes := nodes
  structIDs := [0]
  X_current := fun _ => 0
  X_half := fun _ => 0
  X_new := fun _ => 0

/-! ## Theorems: structure index map -/

theorem getStructureHandleFrom_nonneg_or (k : Nat) (rs : List (Int × Int)) (x : Int) :
    getStructureHandleFrom k rs x = -1 ∨ (k : Int) ≤ getStructureHandleFrom k rs x := by
  induction rs generalizing k with
  | nil => left; rfl
  | cons r rest ih =>
    unfold getStructureHandleFrom
    split
    · right; exact le_refl _
    · rcases ih (k + 1) with h | h
      · left; exact h
      · right; push_cast at h; omega

theorem getStructureHandleFrom_eq_neg_one (k : Nat) (rs : List (Int × Int)) (x : Int) :
    getStructureHandleFrom k rs x = -1 ↔ ∀ r ∈ rs, ¬ inRange r x := by
  induction rs generalizing k with
  | nil => simp [getStructureHandleFrom]
  | cons r rest ih =>
    unfold getStructureHandleFrom
    by_cases h : r.1 ≤ x ∧ x < r.2
    · rw [if_pos h]
      constructor
      · intro hk; omega
      · intro hall; exact absurd h (hall r (List.mem_cons_self _ _))
    · rw [if_neg h, ih (k + 1)]
      constructor
      · intro hall r' hr'
        rcases List.mem_cons.mp hr' with rfl | hmem
        · exact h
        · exact hall r' hmem
      · intro hall r' hr'
        exact hall r' (List.mem_cons_of_mem _ hr')

theorem getStructureHandleFrom_eq_idx (k : Nat) (rs : List (Int × Int)) (x : Int)
    (i : Nat) (hi : i < rs.length) :
    getStructureHandleFrom k rs x = ((k + i : Nat) : Int) ↔
      inRange rs[i] x ∧ ∀ j (hj : j < i), ¬ inRange (rs[j]) x := by
  induction rs generalizing k i with
  | nil => simp at hi
  | cons r rest ih =>
    unfold getStructureHandleFrom
    by_cases h : r.1 ≤ x ∧ x < r.2
    · rw [if_pos h]
      cases i with
      | zero =>
        simp only [Nat.add_zero, List.getElem_cons_zero, true_and, Nat.not_lt_zero,
          IsEmpty.forall_iff, implies_true, and_true]
        exact ⟨fun _ => h, fun _ => trivial⟩
      | succ i =>
        constructor
        · intro hk; push_cast at hk; omega
        · rintro ⟨_, hall⟩
          exact absurd h (hall 0 (Nat.succ_pos i))
    · rw [if_neg h]
      cases i with
      | zero =>
        simp only [Nat.add_zero, List.getElem_cons_zero]
        constructor
        · intro hk
          rcases getStructureHandleFrom_nonneg_or (k + 1) rest x with h1 | h1
          · omega
          · push_cast at h1; omega
        · rintro ⟨h0, _⟩; exact absurd h0 h
      | succ i =>
        have hi' : i < rest.length := by simpa using hi
        have := ih (k + 1) i hi'
        have hk : k + 1 + i = k + (i + 1) := by omega
        rw [hk] at this
        rw [this]
        simp only [List.getElem_cons_succ]
        constructor
        · rintro ⟨h1, h2⟩
          refine ⟨h1, ?_⟩
          intro j hj
          cases j with
          | zero => exact h
          | succ j => simpa using h2 j (by omega)
        · rintro ⟨h1, h2⟩
          refine ⟨h1, ?_⟩
          intro j hj
          simpa using h2 (j + 1) (by omega)

theorem getStructureHandle_eq_iff (ranges : List (Int × Int)) (lag_idx : Int)
    (hdisj : PairwiseDisjoint ranges) (s : Nat) (hs : s < ranges.length) :
    getStructureHandle ranges lag_idx = (s : Int) ↔ inRange ranges[s] lag_idx := by
  have h := getStructureHandleFrom_eq_idx 0 ranges lag_idx s hs
  simp only [Nat.zero_add] at h
  unfold getStructureHandle
  rw [h]
  constructor
  · exact fun hh => hh.1
  · intro hin
    refine ⟨hin, ?_⟩
    intro j hj hinj
    exact hdisj s j hs (by omega) (by omega) lag_idx ⟨hin, hinj⟩

theorem getStructureHandle_eq_neg_one_iff (ranges : List (Int × Int)) (lag_idx : Int) :
    getStructureHandle ranges lag_idx = -1 ↔
      ∀ (s : Nat) (hs : s < ranges.length), ¬ inRange ranges[s] lag_idx := by
  unfold getStructureHandle
  rw [getStructureHandleFrom_eq_neg_one]
  constructor
  · intro hall s hs
    exact hall _ (List.getElem_mem _)
  · intro hall r hr
    obtain ⟨n, hn, rfl⟩ := List.getElem_of_mem hr
    exact hall n hn

/-- C1: for a table of pairwise disjoint half-open ranges and any `lag_idx`,
`getStructureHandle` returns `s` exactly when `first_s <= lag_idx < last_s`,
and returns the sentinel `-1` exactly when `lag_idx` lies in none of the
ranges. -/
theorem getStructureHandle_spec (d_struct_lag_idx_range : List (Int × Int)) (lag_idx : Int)
    (hdisj : ∀ (i j : Nat) (hi : i < d_struct_lag_idx_range.length)
      (hj : j < d_struct_lag_idx_range.length), i ≠ j → ∀ x : Int,
        ¬ ((d_struct_lag_idx_range[i].1 ≤ x ∧ x < d_struct_lag_idx_range[i].2) ∧
          (d_struct_lag_idx_range[j].1 ≤ x ∧ x < d_struct_lag_idx_range[j].2))) :
    (∀ (s : Nat) (hs : s < d_struct_lag_idx_range.length),
        getStructureHandle d_struct_lag_idx_range lag_idx = (s : Int) ↔
          (d_struct_lag_idx_range[s].1 ≤ lag_idx ∧ lag_idx < d_struct_lag_idx_range[s].2)) ∧
    (getStructureHandle d_struct_lag_idx_range lag_idx = -1 ↔
        ∀ (s : Nat) (hs : s < d_struct_lag_idx_range.length),
          ¬ (d_struct_lag_idx_range[s].1 ≤ lag_idx ∧ lag_idx < d_struct_lag_idx_range[s].2)) :=
  ⟨fun s hs => getStructureHandle_eq_iff d_struct_lag_idx_range lag_idx hdisj s hs,
    getStructureHandle_eq_neg_one_iff d_struct_lag_idx_range lag_idx⟩

/-- Witness for C1 on the table `[(0,4), (4,9)]` and `lag_idx = 5`. -/
theorem getStructureHandle_spec_witness :
    (∀ (s : Nat) (hs : s < [((0 : Int), (4 : Int)), (4, 9)].length),
        getStructureHandle [((0 : Int), (4 : Int)), (4, 9)] 5 = (s : Int) ↔
          (([((0 : Int), (4 : Int)), (4, 9)])[s].1 ≤ 5 ∧ 5 < ([((0 : Int), (4 : Int)), (4, 9)])[s].2)) ∧
    (getStructureHandle [((0 : Int), (4 : Int)), (4, 9)] 5 = -1 ↔
        ∀ (s : Nat) (hs : s < [((0 : Int), (4 : Int)), (4, 9)].length),
          ¬ (([((0 : Int), (4 : Int)), (4, 9)])[s].1 ≤ 5 ∧ 5 < ([((0 : Int), (4 : Int)), (4, 9)])[s].2)) :=
  getStructureHandle_spec [((0 : Int), (4 : Int)), (4, 9)] 5 (by
    intro i j hi hj hne x
    simp only [List.length_cons, List.length_nil] at hi hj
    have hi2 : i = 0 ∨ i = 1 := by omega
    have hj2 : j = 0 ∨ j = 1 := by omega
    rcases hi2 with rfl | rfl <;> rcases hj2 with rfl | rfl <;>
      simp [inRange] at hne ⊢ <;> omega)

/-! ## Theorems: rotation matrices -/

theorem initRotationMat_eq_one {α : Type} [LinearOrderedField α] (n : Nat) (s : Int)
    (hs : 0 ≤ s ∧ s < n) : initRotationMat (α := α) n s = 1 := by
  unfold initRotationMat
  rw [if_pos hs]
  ext i j
  fin_cases i <;> fin_cases j <;> simp [Matrix.vecHead, Matrix.vecTail]

/-- The Rodrigues matrix with unit axis `(a, b, d)` and `c^2 + s^2 = 1` is
orthogonal. -/
theorem rodrigues_orthogonal (c s a b d : ℝ) (h1 : c * c + s * s = 1)
    (h2 : a * a + b * b + d * d = 1) :
    (!![c + (1 - c) * a * a, (1 - c) * a * b - s * d, (1 - c) * a * d + s * b;
        (1 - c) * b * a + s * d, c + (1 - c) * b * b, (1 - c) * b * d - s * a;
        (1 - c) * d * a - s * b, (1 - c) * d * b + s * a, c + (1 - c) * d * d] :
          Matrix (Fin 3) (Fin 3) ℝ).transpose *
      !![c + (1 - c) * a * a, (1 - c) * a * b - s * d, (1 - c) * a * d + s * b;
        (1 - c) * b * a + s * d, c + (1 - c) * b * b, (1 - c) * b * d - s * a;
        (1 - c) * d * a - s * b, (1 - c) * d * b + s * a, c + (1 - c) * d * d] = 1 := by
  ext i j
  fin_cases i <;> fin_cases j <;>
    simp [Matrix.mul_apply, Fin.sum_univ_three, Matrix.one_apply, Matrix.transpose_apply,
      Matrix.vecHead, Matrix.vecTail]
  · linear_combination (1 - a * a) * h1 + (s * s + (1 - c) * (1 - c) * a * a) * h2
  · linear_combination (- a * b) * h1 + ((1 - c) * (1 - c) * a * b) * h2
  · linear_combination (- a * d) * h1 + ((1 - c) * (1 - c) * a * d) * h2
  · linear_combination (- b * a) * h1 + ((1 - c) * (1 - c) * b * a) * h2
  · linear_combination (1 - b * b) * h1 + (s * s + (1 - c) * (1 - c) * b * b) * h2
  · linear_combination (- b * d) * h1 + ((1 - c) * (1 - c) * b * d) * h2
  · linear_combination (- d * a) * h1 + ((1 - c) * (1 - c) * d * a) * h2
  · linear_combination (- d * b) * h1 + ((1 - c) * (1 - c) * d * b) * h2
  · linear_combination (1 - d * d) * h1 + (s * s + (1 - c) * (1 - c) * d * d) * h2

/-- The Rodrigues matrix with unit axis `(a, b, d)` and `c^2 + s^2 = 1` has
determinant one. -/
theorem rodrigues_det (c s a b d : ℝ) (h1 : c * c + s * s = 1)
    (h2 : a * a + b * b + d * d = 1) :
    (!![c + (1 - c) * a * a, (1 - c) * a * b - s * d, (1 - c) * a * d + s * b;
        (1 - c) * b * a + s * d, c + (1 - c) * b * b, (1 - c) * b * d - s * a;
        (1 - c) * d * a - s * b, (1 - c) * d * b + s * a, c + (1 - c) * d * d] :
          Matrix (Fin 3) (Fin 3) ℝ).det = 1 := by
  rw [Matrix.det_fin_three]
  simp [Matrix.vecHead, Matrix.vecTail]
  linear_combination (1 + (1 - c) * (a * a + b * b + d * d - 1)) * h1 +
    (s * s + (1 - c) + (1 - c) * s * s * (a * a + b * b + d * d - 1)) * h2

theorem epsilon_pos : (0 : ℝ) < epsilon := by
  unfold epsilon; positivity

/-- Over the reals, whenever the guard `norm_e > epsilon` holds the
normalised axis has unit length. -/
theorem normalised_axis_unit (e : Vector3d ℝ)
    (h : Real.sqrt (e 0 * e 0 + e 1 * e 1 + e 2 * e 2) > epsilon) :
    e 0 / Real.sqrt (e 0 * e 0 + e 1 * e 1 + e 2 * e 2) *
        (e 0 / Real.sqrt (e 0 * e 0 + e 1 * e 1 + e 2 * e 2)) +
      e 1 / Real.sqrt (e 0 * e 0 + e 1 * e 1 + e 2 * e 2) *
        (e 1 / Real.sqrt (e 0 * e 0 + e 1 * e 1 + e 2 * e 2)) +
      e 2 / Real.sqrt (e 0 * e 0 + e 1 * e 1 + e 2 * e 2) *
        (e 2 / Real.sqrt (e 0 * e 0 + e 1 * e 1 + e 2 * e 2)) = 1 := by
  have hpos : 0 < Real.sqrt (e 0 * e 0 + e 1 * e 1 + e 2 * e 2) := lt_trans epsilon_pos h
  have hq : 0 ≤ e 0 * e 0 + e 1 * e 1 + e 2 * e 2 := by
    nlinarith [mul_self_nonneg (e 0), mul_self_nonneg (e 1), mul_self_nonneg (e 2)]
  have hsq := Real.mul_self_sqrt hq
  generalize Real.sqrt (e 0 * e 0 + e 1 * e 1 + e 2 * e 2) = n at hpos hsq ⊢
  have hne : n ≠ 0 := ne_of_gt hpos
  field_simp
  linarith

theorem setRotationMatrixEntry_proper (e : Vector3d ℝ) (R : Matrix3d ℝ) (dt : ℝ)
    (hR : R.transpose * R = 1 ∧ R.det = 1) :
    (setRotationMatrixEntry (MathFns.mk Real.sqrt Real.cos Real.sin) e R dt).transpose *
        setRotationMatrixEntry (MathFns.mk Real.sqrt Real.cos Real.sin) e R dt = 1 ∧
      (setRotationMatrixEntry (MathFns.mk Real.sqrt Real.cos Real.sin) e R dt).det = 1 := by
  unfold setRotationMatrixEntry
  by_cases h : Real.sqrt (e 0 * e 0 + e 1 * e 1 + e 2 * e 2) > epsilon
  · simp only [if_pos h]
    have h2 := normalised_axis_unit e h
    have h1 : ∀ t : ℝ, Real.cos t * Real.cos t + Real.sin t * Real.sin t = 1 := by
      intro t
      have := Real.cos_sq_add_sin_sq t
      nlinarith [this]
    exact ⟨rodrigues_orthogonal _ _ _ _ _ (h1 _) h2, rodrigues_det _ _ _ _ _ (h1 _) h2⟩
  · simp only [if_neg h]
    exact hR

/-- C2: for every `dt` and every rotational velocity (in particular every
nonzero one), the matrix that `setRotationMatrix` builds for a structure,
as called by `eulerStep` (time scale `0.5 * dt`) and by `midpointStep` (time
scale `dt`), is a proper rotation over the reals: `Rᵀ R = I` and `det R = 1`. -/
theorem rotation_matrix_proper (d_num_rigid_parts : Nat) (rot_vel : Int → Vector3d ℝ)
    (dt : ℝ) (struct_no : Int) (hs : 0 ≤ struct_no ∧ struct_no < d_num_rigid_parts) :
    ((eulerStepRotationMat (MathFns.mk Real.sqrt Real.cos Real.sin) d_num_rigid_parts
          rot_vel dt struct_no).transpose *
        eulerStepRotationMat (MathFns.mk Real.sqrt Real.cos Real.sin) d_num_rigid_parts
          rot_vel dt struct_no = 1 ∧
      (eulerStepRotationMat (MathFns.mk Real.sqrt Real.cos Real.sin) d_num_rigid_parts
          rot_vel dt struct_no).det = 1) ∧
    ((midpointStepRotationMat (MathFns.mk Real.sqrt Real.cos Real.sin) d_num_rigid_parts
          rot_vel dt struct_no).transpose *
        midpointStepRotationMat (MathFns.mk Real.sqrt Real.cos Real.sin) d_num_rigid_parts
          rot_vel dt struct_no = 1 ∧
      (midpointStepRotationMat (MathFns.mk Real.sqrt Real.cos Real.sin) d_num_rigid_parts
          rot_vel dt struct_no).det = 1) := by
  have hI : (initRotationMat (α := ℝ) d_num_rigid_parts struct_no).transpose *
      initRotationMat d_num_rigid_parts struct_no = 1 ∧
      (initRotationMat (α := ℝ) d_num_rigid_parts struct_no).det = 1 := by
    rw [initRotationMat_eq_one _ _ hs]
    simp
  unfold eulerStepRotationMat midpointStepRotationMat setRotationMatrix
  simp only [if_pos hs]
  exact ⟨setRotationMatrixEntry_proper _ _ _ hI, setRotationMatrixEntry_proper _ _ _ hI⟩

/-- Witness for C2: one structure rotating about the z-axis, `dt = 1`. -/
theorem rotation_matrix_proper_witness :
    ((0 : Int) ≤ 0 ∧ (0 : Int) < ((1 : Nat) : Int)) ∧
    (((eulerStepRotationMat (MathFns.mk Real.sqrt Real.cos Real.sin) 1
          (fun _ => ![0, 0, 1]) 1 0).transpose *
        eulerStepRotationMat (MathFns.mk Real.sqrt Real.cos Real.sin) 1
          (fun _ => ![0, 0, 1]) 1 0 = 1 ∧
      (eulerStepRotationMat (MathFns.mk Real.sqrt Real.cos Real.sin) 1
          (fun _ => ![0, 0, 1]) 1 0).det = 1) ∧
    ((midpointStepRotationMat (MathFns.mk Real.sqrt Real.cos Real.sin) 1
          (fun _ => ![0, 0, 1]) 1 0).transpose *
        midpointStepRotationMat (MathFns.mk Real.sqrt Real.cos Real.sin) 1
          (fun _ => ![0, 0, 1]) 1 0 = 1 ∧
      (midpointStepRotationMat (MathFns.mk Real.sqrt Real.cos Real.sin) 1
          (fun _ => ![0, 0, 1]) 1 0).det = 1)) :=
  ⟨by decide, rotation_matrix_proper 1 (fun _ => ![0, 0, 1]) 1 0 (by decide)⟩

theorem setRotationMatrixEntry_zero (R : Matrix3d ℝ) (dt : ℝ) (e : Vector3d ℝ) (he : e = 0) :
    ¬ (Real.sqrt (e 0 * e 0 + e 1 * e 1 + e 2 * e 2) > epsilon) ∧
    setRotationMatrixEntry (MathFns.mk Real.sqrt Real.cos Real.sin) e R dt = R := by
  have hguard : ¬ (Real.sqrt (e 0 * e 0 + e 1 * e 1 + e 2 * e 2) > epsilon) := by
    subst he
    simp only [Pi.zero_apply, mul_zero, add_zero, Real.sqrt_zero, gt_iff_lt, not_lt]
    exact le_of_lt epsilon_pos
  refine ⟨hguard, ?_⟩
  unfold setRotationMatrixEntry
  simp only [if_neg hguard]

/-- C3: for a structure whose rotational velocity is the zero vector, the
rotation matrix used by `eulerStep` and by `midpointStep` is exactly the
identity for every `dt`: the guard `norm_e > epsilon` of `setRotationMatrix`
fails, so the branch that divides by `norm_e` is not entered and the
identity pre-filled by the caller is kept. -/
theorem rotation_matrix_zero_vel (d_num_rigid_parts : Nat) (rot_vel : Int → Vector3d ℝ)
    (dt : ℝ) (struct_no : Int) (hs : 0 ≤ struct_no ∧ struct_no < d_num_rigid_parts)
    (hzero : rot_vel struct_no = 0) :
    ¬ (Real.sqrt (rot_vel struct_no 0 * rot_vel struct_no 0 +
          rot_vel struct_no 1 * rot_vel struct_no 1 +
          rot_vel struct_no 2 * rot_vel struct_no 2) > epsilon) ∧
    eulerStepRotationMat (MathFns.mk Real.sqrt Real.cos Real.sin) d_num_rigid_parts
        rot_vel dt struct_no = 1 ∧
    midpointStepRotationMat (MathFns.mk Real.sqrt Real.cos Real.sin) d_num_rigid_parts
        rot_vel dt struct_no = 1 := by
  refine ⟨(setRotationMatrixEntry_zero 1 dt _ hzero).1, ?_, ?_⟩
  · unfold eulerStepRotationMat setRotationMatrix
    simp only [if_pos hs]
    rw [(setRotationMatrixEntry_zero _ _ _ hzero).2, initRotationMat_eq_one _ _ hs]
  · unfold midpointStepRotationMat setRotationMatrix
    simp only [if_pos hs]
    rw [(setRotationMatrixEntry_zero _ _ _ hzero).2, initRotationMat_eq_one _ _ hs]

/-- Witness for C3: one structure at rest, `dt = 1`. -/
theorem rotation_matrix_zero_vel_witness :
    (((0 : Int) ≤ 0 ∧ (0 : Int) < ((1 : Nat) : Int)) ∧
      (fun _ : Int => (0 : Vector3d ℝ)) 0 = 0) ∧
    (¬ (Real.sqrt ((fun _ : Int => (0 : Vector3d ℝ)) 0 0 * (fun _ : Int => (0 : Vector3d ℝ)) 0 0 +
          (fun _ : Int => (0 : Vector3d ℝ)) 0 1 * (fun _ : Int => (0 : Vector3d ℝ)) 0 1 +
          (fun _ : Int => (0 : Vector3d ℝ)) 0 2 * (fun _ : Int => (0 : Vector3d ℝ)) 0 2) >
        epsilon) ∧
    eulerStepRotationMat (MathFns.mk Real.sqrt Real.cos Real.sin) 1
        (fun _ => (0 : Vector3d ℝ)) 1 0 = 1 ∧
    midpointStepRotationMat (MathFns.mk Real.sqrt Real.cos Real.sin) 1
        (fun _ => (0 : Vector3d ℝ)) 1 0 = 1) :=
  ⟨⟨by decide, rfl⟩, rotation_matrix_zero_vel 1 (fun _ => 0) 1 0 (by decide) rfl⟩

/-! ## Theorems: center of mass -/

theorem comFold_apply {α : Type} [Field α] (NDIM : Nat) (ranges : List (Int × Int)) (k : Nat)
    (X : LDataArray α) (nodes : List LNode) (com : Int → Vector3d α) (s : Int) (d : Fin 3) :
    (nodes.foldl (comNodeStep NDIM ranges k X) com) s d =
      com s d + if d.val < NDIM then
        ((nodes.filter (fun n => structHandle ranges k n.lag_idx = s)).map
          (fun n => X n.local_idx d)).sum else 0 := by
  induction nodes generalizing com with
  | nil => simp
  | cons a rest ih =>
    rw [List.foldl_cons, ih]
    by_cases hd : d.val < NDIM
    · by_cases hs : structHandle ranges k a.lag_idx = s
      · subst hs
        simp [comNodeStep, hd, List.filter_cons, add_assoc]
      · have hs' : s ≠ structHandle ranges k a.lag_idx := fun h => hs h.symm
        simp [comNodeStep, hd, List.filter_cons, hs, Function.update_noteq hs']
    · by_cases hs : structHandle ranges k a.lag_idx = s
      · subst hs
        simp [comNodeStep, hd]
      · have hs' : s ≠ structHandle ranges k a.lag_idx := fun h => hs h.symm
        simp [comNodeStep, hd, Function.update_noteq hs']

theorem foldl_single_active {β γ : Type} (f : β → γ → β) (active : γ → Prop)
    (hf : ∀ acc x, ¬ active x → f acc x = acc)
    (pre post : List γ) (x : γ) (hpre : ∀ y ∈ pre, ¬ active y) (hpost : ∀ y ∈ post, ¬ active y)
    (init : β) :
    (pre ++ x :: post).foldl f init = f init x := by
  have hskip : ∀ (l : List γ) (acc : β), (∀ y ∈ l, ¬ active y) → l.foldl f acc = acc := by
    intro l
    induction l with
    | nil => intro acc _; rfl
    | cons a rest ih =>
      intro acc h
      rw [List.foldl_cons, hf acc a (h a (List.mem_cons_self _ _))]
      exact ih acc (fun y hy => h y (List.mem_cons_of_mem _ hy))
  rw [List.foldl_append, hskip pre init hpre, List.foldl_cons, hskip post _ hpost]

theorem toInt_toUnsigned (n : Int) (h0 : 0 ≤ n) (h1 : n < 2 ^ 31) :
    toInt (toUnsigned n) = n := by
  unfold toInt toUnsigned
  have e1 : n % 2 ^ 32 = n := Int.emod_eq_of_lt h0 (by omega)
  rw [e1]
  obtain ⟨m, rfl⟩ := Int.eq_ofNat_of_zero_le h0
  simp only [Int.toNat_ofNat]
  have hm : m < 2 ^ 31 := by exact_mod_cast h1
  have e2 : m % 2 ^ 32 = m := Nat.mod_eq_of_lt (by omega)
  rw [e2, if_pos hm]

theorem count_in_range (nodes : List LNode) (r : Int × Int)
    (hlag : (nodes.map LNode.lag_idx).Nodup)
    (hcover : ∀ x, inRange r x → ∃ node ∈ nodes, node.lag_idx = x) :
    (nodes.filter (fun node => inRange r node.lag_idx)).length = (r.2 - r.1).toNat := by
  have hnd : ((nodes.filter (fun node => inRange r node.lag_idx)).map LNode.lag_idx).Nodup := by
    exact (List.Nodup.sublist ((List.filter_sublist nodes).map _) hlag)
  have hfin : ((nodes.filter (fun node => inRange r node.lag_idx)).map LNode.lag_idx).toFinset
      = Finset.Ico r.1 r.2 := by
    ext x
    simp only [List.mem_toFinset, List.mem_map, List.mem_filter, decide_eq_true_eq,
      Finset.mem_Ico]
    constructor
    · rintro ⟨node, ⟨_, hin⟩, rfl⟩
      exact hin
    · intro hx
      obtain ⟨node, hmem, rfl⟩ := hcover x hx
      exact ⟨node, ⟨hmem, hx⟩, rfl⟩
  have hcard := List.toFinset_card_of_nodup hnd
  rw [hfin, Int.card_Ico, List.length_map] at hcard
  exact hcard.symm

theorem rangeOf_eq (ranges : List (Int × Int)) (s : Nat) (hs : s < ranges.length) :
    rangeOf ranges s = ranges[s] := by
  unfold rangeOf
  exact List.getD_eq_getElem _ _ hs

theorem structHandle_eq_iff (ranges : List (Int × Int)) (k : Nat) (nodes : List LNode)
    (h : MarkerLayout ranges k nodes) (node : LNode) (hnode : node ∈ nodes)
    (s : Nat) (hs : s < ranges.length) :
    structHandle ranges k node.lag_idx = (s : Int) ↔
      inRange (rangeOf ranges s) node.lag_idx := by
  rw [rangeOf_eq ranges s hs]
  unfold structHandle
  by_cases hk : k > 1
  · rw [if_pos hk]
    exact getStructureHandle_eq_iff ranges node.lag_idx h.disjoint s hs
  · rw [if_neg hk]
    have hlen : ranges.length = 1 := by have := h.structs; omega
    have hs0 : s = 0 := by omega
    subst hs0
    simp only [Nat.cast_zero, true_iff]
    obtain ⟨r, hr, hin⟩ := h.belongs node hnode
    obtain ⟨i, hi, rfl⟩ := List.getElem_of_mem hr
    have hi0 : i = 0 := by omega
    subst hi0
    exact hin

theorem comLevel_mean {α : Type} [Field α] (NDIM : Nat) (ranges : List (Int × Int))
    (X_data : LevelData α → LDataArray α) (lev : LevelData α)
    (hlev : lev.levelContainsLagrangianData = true)
    (h : MarkerLayout ranges lev.structIDs.length lev.local_nodes)
    (com : Int → Vector3d α) (s : Nat) (hs : s < ranges.length) (hcom : com s = 0) :
    comLevelStep NDIM ranges X_data com lev s =
      meanPosition NDIM (X_data lev) (markersOf ranges s lev.local_nodes) := by
  funext d
  unfold comLevelStep comDivide
  have hs' : (0 : Int) ≤ (s : Int) ∧ ((s : Nat) : Int) < (lev.structIDs.length : Int) := by
    rw [h.structs]; constructor <;> omega
  simp only [hlev, Bool.not_true, Bool.false_eq_true, if_false, if_pos hs', Int.toNat_ofNat]
  rw [comFold_apply, hcom]
  have hr := h.valid _ (List.getElem_mem hs)
  have hN : toInt (getNumberOfNodes ranges s) = ranges[s].2 - ranges[s].1 := by
    unfold getNumberOfNodes
    rw [rangeOf_eq ranges s hs]
    exact toInt_toUnsigned _ (by omega) hr.2
  have hfilter : lev.local_nodes.filter
      (fun n => structHandle ranges lev.structIDs.length n.lag_idx = (s : Int)) =
      markersOf ranges s lev.local_nodes := by
    unfold markersOf
    apply List.filter_congr
    intro x hx
    have := structHandle_eq_iff ranges _ _ h x hx s hs
    simp only [decide_eq_decide]
    exact this
  have hcount : ((markersOf ranges s lev.local_nodes).length : α) =
      ((ranges[s].2 - ranges[s].1 : Int) : α) := by
    unfold markersOf
    rw [rangeOf_eq ranges s hs,
      count_in_range _ _ h.lag_nodup (h.cover _ (List.getElem_mem hs))]
    have : (((ranges[s].2 - ranges[s].1).toNat : Nat) : Int) = ranges[s].2 - ranges[s].1 :=
      Int.toNat_of_nonneg (by omega)
    calc (((ranges[s].2 - ranges[s].1).toNat : Nat) : α)
        = ((((ranges[s].2 - ranges[s].1).toNat : Nat) : Int) : α) := (Int.cast_natCast _).symm
      _ = ((ranges[s].2 - ranges[s].1 : Int) : α) := by rw [this]
  unfold meanPosition
  rw [hN, hfilter, hcount]
  by_cases hd : d.val < NDIM
  · simp [hd]
  · simp [hd]


/-! ## Theorems: position update -/

theorem setRotationMatrixEntry_eq_spec {α : Type} [LinearOrderedField α] (F : MathFns α)
    (w : Vector3d α) (t : α) :
    setRotationMatrixEntry F w 1 t = specRotation F w t := by
  unfold setRotationMatrixEntry specRotation
  by_cases h : F.sqrt (w 0 * w 0 + w 1 * w 1 + w 2 * w 2) > epsilon
  · simp only [if_pos h]
    rw [mul_comm (F.sqrt (w 0 * w 0 + w 1 * w 1 + w 2 * w 2)) t]
    ext i j
    fin_cases i <;> fin_cases j <;>
      simp [crossMatrix, Matrix.vecMulVec_apply, Matrix.one_apply, Matrix.vecHead,
        Matrix.vecTail] <;> ring
  · simp only [if_neg h]

theorem eulerStepRotationMat_eq_spec {α : Type} [LinearOrderedField α] (F : MathFns α)
    (n : Nat) (w : Int → Vector3d α) (dt : α) (s : Int) (hs : 0 ≤ s ∧ s < n) :
    eulerStepRotationMat F n w dt s = specRotation F (w s) (1 / 2 * dt) := by
  unfold eulerStepRotationMat setRotationMatrix
  simp only [if_pos hs]
  rw [initRotationMat_eq_one _ _ hs, setRotationMatrixEntry_eq_spec]

theorem midpointStepRotationMat_eq_spec {α : Type} [LinearOrderedField α] (F : MathFns α)
    (n : Nat) (w : Int → Vector3d α) (dt : α) (s : Int) (hs : 0 ≤ s ∧ s < n) :
    midpointStepRotationMat F n w dt s = specRotation F (w s) dt := by
  unfold midpointStepRotationMat setRotationMatrix
  simp only [if_pos hs]
  rw [initRotationMat_eq_one _ _ hs, setRotationMatrixEntry_eq_spec]

theorem stepFold_not_mem {α : Type} [Field α] (NDIM : Nat) (ranges : List (Int × Int))
    (k : Nat) (com : Int → Vector3d α) (rot : Int → Matrix3d α) (sdt : α)
    (tv : Int → Vector3d α) (Xc : LDataArray α) (nodes : List LNode) (X_out : LDataArray α)
    (i : Int) (hi : i ∉ nodes.map LNode.local_idx) :
    (nodes.foldl (stepNode NDIM ranges k com rot sdt tv Xc) X_out) i = X_out i := by
  induction nodes generalizing X_out with
  | nil => rfl
  | cons a rest ih =>
    rw [List.foldl_cons, ih]
    · unfold stepNode
      have : i ≠ a.local_idx := by
        intro h; apply hi; simp [h]
      simp only [Function.update_noteq this]
    · intro h; apply hi; simp only [List.map_cons, List.mem_cons]; right; exact h

theorem stepFold_mem {α : Type} [Field α] (NDIM : Nat) (ranges : List (Int × Int))
    (k : Nat) (com : Int → Vector3d α) (rot : Int → Matrix3d α) (sdt : α)
    (tv : Int → Vector3d α) (Xc : LDataArray α) (nodes : List LNode)
    (hnd : (nodes.map LNode.local_idx).Nodup) (X_out : LDataArray α)
    (node : LNode) (hnode : node ∈ nodes) (d : Fin 3) (hd : d.val < NDIM) :
    (nodes.foldl (stepNode NDIM ranges k com rot sdt tv Xc) X_out) node.local_idx d =
      com (structHandle ranges k node.lag_idx) d +
        Matrix.mulVec (rot (structHandle ranges k node.lag_idx))
          (spatial NDIM (fun d' => Xc node.local_idx d' -
            com (structHandle ranges k node.lag_idx) d')) d +
        sdt * tv (structHandle ranges k node.lag_idx) d := by
  induction nodes generalizing X_out with
  | nil => simp at hnode
  | cons a rest ih =>
    rw [List.foldl_cons]
    rw [List.map_cons, List.nodup_cons] at hnd
    rcases List.mem_cons.mp hnode with rfl | hmem
    · rw [stepFold_not_mem _ _ _ _ _ _ _ _ _ _ _ hnd.1]
      unfold stepNode spatial
      simp only [Function.update_same, if_pos hd]
    · exact ih hnd.2 _ hmem

theorem map_single_active {γ : Type} (f : γ → γ) (active : γ → Prop)
    (hf : ∀ x, ¬ active x → f x = x)
    (pre post : List γ) (x : γ) (hpre : ∀ y ∈ pre, ¬ active y) (hpost : ∀ y ∈ post, ¬ active y) :
    (pre ++ x :: post).map f = pre ++ f x :: post := by
  have hskip : ∀ (l : List γ), (∀ y ∈ l, ¬ active y) → l.map f = l := by
    intro l h
    conv_rhs => rw [← List.map_id l]
    apply List.map_congr_left
    intro a ha
    simp only [id]
    exact hf a (h a ha)
  rw [List.map_append, List.map_cons, hskip pre hpre, hskip post hpost]

theorem computeCOM_mean {α : Type} [Field α] (NDIM : Nat) (ranges : List (Int × Int))
    (X_data : LevelData α → LDataArray α) (pre post : List (LevelData α)) (lev : LevelData α)
    (hpre : ∀ l ∈ pre, l.levelContainsLagrangianData = false)
    (hpost : ∀ l ∈ post, l.levelContainsLagrangianData = false)
    (hlev : lev.levelContainsLagrangianData = true)
    (h : MarkerLayout ranges lev.structIDs.length lev.local_nodes)
    (com : Int → Vector3d α) (moi : Int → Matrix3d α) (s : Nat) (hs : s < ranges.length) :
    (computeCOMandMOIOfStructures NDIM ranges (pre ++ lev :: post) X_data com moi).1 s =
      meanPosition NDIM (X_data lev) (markersOf ranges s lev.local_nodes) := by
  unfold computeCOMandMOIOfStructures
  simp only []
  rw [foldl_single_active (comLevelStep NDIM ranges X_data)
    (fun l => l.levelContainsLagrangianData = true) _ pre post lev
    (fun y hy => by simp [hpre y hy]) (fun y hy => by simp [hpost y hy])]
  · apply comLevel_mean NDIM ranges X_data lev hlev h _ s hs
    have : (0 : Int) ≤ (s : Int) ∧ (s : Int) < (ranges.length : Int) := by
      constructor <;> omega
    simp only [if_pos this]
  · intro acc x hx
    unfold comLevelStep
    simp only [Bool.not_eq_true] at hx
    simp [hx]

theorem eulerStep_levels {α : Type} [LinearOrderedField α] (F : MathFns α) (st : CIBState α)
    (t0 t1 : α) (pre post : List (LevelData α)) (lev : LevelData α)
    (hlevels : st.levels = pre ++ lev :: post)
    (hpre : ∀ l ∈ pre, l.levelContainsLagrangianData = false)
    (hpost : ∀ l ∈ post, l.levelContainsLagrangianData = false) :
    (eulerStep F st t0 t1).levels =
      pre ++ eulerStepLevel st.NDIM st.d_struct_lag_idx_range
        (eulerStep F st t0 t1).d_center_of_mass_current
        (eulerStepRotationMat F st.d_num_rigid_parts st.d_rot_vel_current (t1 - t0)) (t1 - t0)
        st.d_trans_vel_current lev :: post := by
  unfold eulerStep
  simp only []
  rw [hlevels]
  apply map_single_active _ (fun l => l.levelContainsLagrangianData = true) _ pre post lev
    (fun y hy => by simp [hpre y hy]) (fun y hy => by simp [hpost y hy])
  intro x hx
  unfold eulerStepLevel
  simp only [Bool.not_eq_true] at hx
  simp [hx]

theorem eulerStep_com_current {α : Type} [LinearOrderedField α] (F : MathFns α)
    (st : CIBState α) (t0 t1 : α) (pre post : List (LevelData α)) (lev : LevelData α)
    (hlevels : st.levels = pre ++ lev :: post)
    (hpre : ∀ l ∈ pre, l.levelContainsLagrangianData = false)
    (hpost : ∀ l ∈ post, l.levelContainsLagrangianData = false)
    (hlev : lev.levelContainsLagrangianData = true)
    (h : MarkerLayout st.d_struct_lag_idx_range lev.structIDs.length lev.local_nodes)
    (s : Nat) (hs : s < st.d_num_rigid_parts) :
    (eulerStep F st t0 t1).d_center_of_mass_current s =
      meanPosition st.NDIM lev.X_current (markersOf st.d_struct_lag_idx_range s lev.local_nodes) := by
  unfold eulerStep
  simp only []
  rw [hlevels]
  exact computeCOM_mean st.NDIM st.d_struct_lag_idx_range (fun l => l.X_current) pre post lev
    hpre hpost hlev h _ _ s hs

theorem mem_markersOf (ranges : List (Int × Int)) (s : Nat) (nodes : List LNode) (node : LNode) :
    node ∈ markersOf ranges s nodes ↔ node ∈ nodes ∧ inRange (rangeOf ranges s) node.lag_idx := by
  unfold markersOf
  simp [List.mem_filter]

theorem eulerStep_positions_aux {α : Type} [LinearOrderedField α] (F : MathFns α)
    (st : CIBState α) (t0 t1 : α) (pre post : List (LevelData α)) (lev : LevelData α)
    (hlevels : st.levels = pre ++ lev :: post)
    (hpre : ∀ l ∈ pre, l.levelContainsLagrangianData = false)
    (hpost : ∀ l ∈ post, l.levelContainsLagrangianData = false)
    (hlev : lev.levelContainsLagrangianData = true)
    (h : MarkerLayout st.d_struct_lag_idx_range lev.structIDs.length lev.local_nodes) :
    ∃ lev' : LevelData α,
      (eulerStep F st t0 t1).levels = pre ++ lev' :: post ∧
      lev'.X_current = lev.X_current ∧
      lev'.local_nodes = lev.local_nodes ∧
      ∀ (s : Nat), s < st.d_num_rigid_parts →
        ∀ node ∈ markersOf st.d_struct_lag_idx_range s lev.local_nodes,
          ∀ d : Fin 3, d.val < st.NDIM →
            lev'.X_half node.local_idx d =
              meanPosition st.NDIM lev.X_current
                  (markersOf st.d_struct_lag_idx_range s lev.local_nodes) d +
                Matrix.mulVec (specRotation F (st.d_rot_vel_current s) (1 / 2 * (t1 - t0)))
                  (spatial st.NDIM (fun d' => lev.X_current node.local_idx d' -
                    meanPosition st.NDIM lev.X_current
                      (markersOf st.d_struct_lag_idx_range s lev.local_nodes) d')) d +
                1 / 2 * (t1 - t0) * st.d_trans_vel_current s d := by
  refine ⟨_, eulerStep_levels F st t0 t1 pre post lev hlevels hpre hpost, ?_, ?_, ?_⟩
  · unfold eulerStepLevel; simp [hlev]
  · unfold eulerStepLevel; simp [hlev]
  · intro s hs node hnode d hd
    rw [mem_markersOf] at hnode
    have hh := (structHandle_eq_iff _ _ _ h node hnode.1 s hs).mpr hnode.2
    have hcom := eulerStep_com_current F st t0 t1 pre post lev hlevels hpre hpost hlev h s hs
    have hsr : (0 : Int) ≤ (s : Int) ∧ (s : Int) < (st.d_num_rigid_parts : Int) := by
      constructor <;> omega
    unfold eulerStepLevel
    simp only [hlev, Bool.not_true, Bool.false_eq_true, if_false]
    rw [stepFold_mem _ _ _ _ _ _ _ _ _ h.local_nodup _ node hnode.1 d hd, hh, hcom,
      eulerStepRotationMat_eq_spec F _ _ _ _ hsr]

theorem spatial_three {α : Type} [Field α] (v : Vector3d α) : spatial 3 v = v := by
  funext d
  unfold spatial
  rw [if_pos d.isLt]

/-- C4: after `eulerStep(current_time, new_time)` with
`dt = new_time - current_time`, on the level that holds the structures and
for every marker of a structure `s`,
`X_half = COM_current[s] + R_s (X_current - COM_current[s]) + 0.5 dt U_trans_current[s]`
on the components `d < NDIM` (and as an equation of 3-vectors when
`NDIM = 3`), where `COM_current[s]` is the mean of the current positions of
the markers of `s` and `R_s` is the Rodrigues matrix of `U_rot_current[s]`
with angle `0.5 dt |U_rot_current[s]|` (the identity when the norm does not
exceed machine epsilon); `X_current` and the other levels are unchanged.
Holds over every ordered field and every `sqrt`, `cos`, `sin`. -/
theorem eulerStep_marker_positions {α : Type} [LinearOrderedField α] (F : MathFns α)
    (st : CIBState α) (current_time new_time : α)
    (pre post : List (LevelData α)) (lev : LevelData α)
    (hlevels : st.levels = pre ++ lev :: post)
    (hpre : ∀ l ∈ pre, l.levelContainsLagrangianData = false)
    (hpost : ∀ l ∈ post, l.levelContainsLagrangianData = false)
    (hlev : lev.levelContainsLagrangianData = true)
    (hlayout : MarkerLayout st.d_struct_lag_idx_range lev.structIDs.length lev.local_nodes) :
    ∃ lev' : LevelData α,
      (eulerStep F st current_time new_time).levels = pre ++ lev' :: post ∧
      lev'.X_current = lev.X_current ∧
      ∀ (s : Nat), s < st.d_num_rigid_parts →
        ∀ node ∈ markersOf st.d_struct_lag_idx_range s lev.local_nodes,
          (∀ d : Fin 3, d.val < st.NDIM →
            lev'.X_half node.local_idx d =
              meanPosition st.NDIM lev.X_current
                  (markersOf st.d_struct_lag_idx_range s lev.local_nodes) d +
                Matrix.mulVec
                  (specRotation F (st.d_rot_vel_current s) (1 / 2 * (new_time - current_time)))
                  (spatial st.NDIM (fun d' => lev.X_current node.local_idx d' -
                    meanPosition st.NDIM lev.X_current
                      (markersOf st.d_struct_lag_idx_range s lev.local_nodes) d')) d +
                1 / 2 * (new_time - current_time) * st.d_trans_vel_current s d) ∧
          (st.NDIM = 3 →
            lev'.X_half node.local_idx =
              meanPosition 3 lev.X_current
                  (markersOf st.d_struct_lag_idx_range s lev.local_nodes) +
                Matrix.mulVec
                  (specRotation F (st.d_rot_vel_current s) (1 / 2 * (new_time - current_time)))
                  (lev.X_current node.local_idx -
                    meanPosition 3 lev.X_current
                      (markersOf st.d_struct_lag_idx_range s lev.local_nodes)) +
                (1 / 2 * (new_time - current_time)) • st.d_trans_vel_current s) := by
  obtain ⟨lev', h1, h2, _, h4⟩ :=
    eulerStep_positions_aux F st current_time new_time pre post lev hlevels hpre hpost hlev hlayout
  refine ⟨lev', h1, h2, ?_⟩
  intro s hs node hnode
  refine ⟨h4 s hs node hnode, ?_⟩
  intro h3
  funext d
  have hd : d.val < st.NDIM := by rw [h3]; exact d.isLt
  have := h4 s hs node hnode d hd
  rw [h3, spatial_three] at this
  rw [this]
  simp only [Pi.add_apply, Pi.smul_apply, smul_eq_mul]
  rfl

theorem scenario_layout :
    MarkerLayout [((0 : Int), (4 : Int))] 1 [⟨0, 0⟩, ⟨1, 1⟩, ⟨2, 2⟩, ⟨3, 3⟩] where
  structs := rfl
  disjoint := by
    intro i j hi hj hne
    simp only [List.length_cons, List.length_nil] at hi hj
    omega
  valid := by
    intro r hr
    simp only [List.mem_singleton] at hr
    subst hr
    decide
  local_nodup := by decide
  lag_nodup := by decide
  cover := by
    intro r hr x hx
    simp only [List.mem_singleton] at hr
    subst hr
    obtain ⟨h1, h2⟩ := hx
    simp only at h1 h2
    have : x = 0 ∨ x = 1 ∨ x = 2 ∨ x = 3 := by omega
    rcases this with rfl | rfl | rfl | rfl <;> simp
  belongs := by
    intro node hnode
    refine ⟨(0, 4), by simp, ?_⟩
    simp only [List.mem_cons, List.mem_singleton, List.not_mem_nil, or_false] at hnode
    rcases hnode with rfl | rfl | rfl | rfl <;> decide

theorem markersOf_single (r : Int × Int) (k : Nat) (nodes : List LNode)
    (h : MarkerLayout [r] k nodes) : markersOf [r] 0 nodes = nodes := by
  unfold markersOf
  rw [List.filter_eq_self]
  intro node hnode
  obtain ⟨r', hr', hin⟩ := h.belongs node hnode
  simp only [List.mem_singleton] at hr'
  subst hr'
  simpa [rangeOf] using hin

theorem specRotation_quarter_turn :
    specRotation (MathFns.mk Real.sqrt Real.cos Real.sin) ![0, 0, Real.pi] (1 / 2 * 1) =
      !![0, -1, 0; 1, 0, 0; 0, 0, 1] := by
  have hpi : Real.sqrt (Real.pi * Real.pi) = Real.pi := Real.sqrt_mul_self Real.pi_pos.le
  have hgt : Real.pi > (epsilon : ℝ) := by
    have h3 := Real.pi_gt_three
    have he : (epsilon : ℝ) < 1 := by
      unfold epsilon
      rw [div_lt_one (by positivity)]
      norm_num
    linarith
  unfold specRotation
  simp only [Matrix.cons_val_zero, Matrix.cons_val_one, Matrix.head_cons, Matrix.cons_val_two,
    Matrix.tail_cons, mul_zero, add_zero, zero_add, hpi, if_pos hgt]
  have hth : (1 / 2 * 1 * Real.pi : ℝ) = Real.pi / 2 := by ring
  rw [hth, Real.cos_pi_div_two, Real.sin_pi_div_two]
  have hne : Real.pi ≠ 0 := Real.pi_ne_zero
  ext i j
  fin_cases i <;> fin_cases j <;>
    simp [crossMatrix, Matrix.vecMulVec_apply, Matrix.one_apply, Matrix.vecHead,
      Matrix.vecTail, hne]

theorem midpointStep_levels_getElem? {α : Type} [LinearOrderedField α] (F : MathFns α)
    (st : CIBState α) (t0 t1 : α) (ln : Nat) :
    (midpointStep F st t0 t1).levels[ln]? =
      (st.levels[ln]?).map
        (midpointStepLevel st.NDIM st.d_struct_lag_idx_range st.d_center_of_mass_current
          (midpointStepRotationMat F st.d_num_rigid_parts st.d_rot_vel_half (t1 - t0)) (t1 - t0)
          st.d_trans_vel_half) := by
  unfold midpointStep
  simp only [List.getElem?_map]

theorem midpointStepLevel_frame {α : Type} [Field α] (NDIM : Nat) (ranges : List (Int × Int))
    (com : Int → Vector3d α) (rot : Int → Matrix3d α) (dt : α) (tv : Int → Vector3d α)
    (lev : LevelData α) :
    (midpointStepLevel NDIM ranges com rot dt tv lev).X_current = lev.X_current ∧
    (midpointStepLevel NDIM ranges com rot dt tv lev).X_half = lev.X_half ∧
    (midpointStepLevel NDIM ranges com rot dt tv lev).local_nodes = lev.local_nodes := by
  unfold midpointStepLevel
  by_cases h : lev.levelContainsLagrangianData = true
  · simp [h]
  · simp only [Bool.not_eq_true] at h
    simp [h]

theorem midpointStep_positions_aux {α : Type} [LinearOrderedField α] (F : MathFns α)
    (st : CIBState α) (t0 t1 : α) (ln : Nat) (lev : LevelData α)
    (hln : st.levels[ln]? = some lev)
    (hlev : lev.levelContainsLagrangianData = true)
    (h : MarkerLayout st.d_struct_lag_idx_range lev.structIDs.length lev.local_nodes) :
    ∃ lev' : LevelData α,
      (midpointStep F st t0 t1).levels[ln]? = some lev' ∧
      ∀ (s : Nat), s < st.d_num_rigid_parts →
        ∀ node ∈ markersOf st.d_struct_lag_idx_range s lev.local_nodes,
          ∀ d : Fin 3, d.val < st.NDIM →
            lev'.X_new node.local_idx d =
              st.d_center_of_mass_current s d +
                Matrix.mulVec (specRotation F (st.d_rot_vel_half s) (t1 - t0))
                  (spatial st.NDIM (fun d' => lev.X_current node.local_idx d' -
                    st.d_center_of_mass_current s d')) d +
                (t1 - t0) * st.d_trans_vel_half s d := by
  refine ⟨_, by rw [midpointStep_levels_getElem?, hln]; rfl, ?_⟩
  intro s hs node hnode d hd
  rw [mem_markersOf] at hnode
  have hh := (structHandle_eq_iff _ _ _ h node hnode.1 s hs).mpr hnode.2
  have hsr : (0 : Int) ≤ (s : Int) ∧ (s : Int) < (st.d_num_rigid_parts : Int) := by
    constructor <;> omega
  unfold midpointStepLevel
  simp only [hlev, Bool.not_true, Bool.false_eq_true, if_false]
  rw [stepFold_mem _ _ _ _ _ _ _ _ _ h.local_nodup _ node hnode.1 d hd, hh,
    midpointStepRotationMat_eq_spec F _ _ _ _ hsr]

/-- C5: after `midpointStep(current_time, new_time)` with
`dt = new_time - current_time`, every level keeps its `X_current` and
`X_half`, and on a level that holds the structures, for every marker of a
structure `s`,
`X_new = COM_current[s] + R_s (X_current - COM_current[s]) + dt U_trans_half[s]`
on the components `d < NDIM` (and as an equation of 3-vectors when
`NDIM = 3`), where `R_s` is the Rodrigues matrix of `U_rot_half[s]` with
angle `dt |U_rot_half[s]|` (the identity when the norm does not exceed
machine epsilon).  Holds over every ordered field and every `sqrt`, `cos`,
`sin`. -/
theorem midpointStep_marker_positions {α : Type} [LinearOrderedField α] (F : MathFns α)
    (st : CIBState α) (current_time new_time : α) (ln : Nat) (lev : LevelData α)
    (hln : st.levels[ln]? = some lev) :
    ∃ lev' : LevelData α,
      (midpointStep F st current_time new_time).levels[ln]? = some lev' ∧
      lev'.X_current = lev.X_current ∧
      lev'.X_half = lev.X_half ∧
      (lev.levelContainsLagrangianData = true →
        MarkerLayout st.d_struct_lag_idx_range lev.structIDs.length lev.local_nodes →
        ∀ (s : Nat), s < st.d_num_rigid_parts →
          ∀ node ∈ markersOf st.d_struct_lag_idx_range s lev.local_nodes,
            (∀ d : Fin 3, d.val < st.NDIM →
              lev'.X_new node.local_idx d =
                st.d_center_of_mass_current s d +
                  Matrix.mulVec (specRotation F (st.d_rot_vel_half s) (new_time - current_time))
                    (spatial st.NDIM (fun d' => lev.X_current node.local_idx d' -
                      st.d_center_of_mass_current s d')) d +
                  (new_time - current_time) * st.d_trans_vel_half s d) ∧
            (st.NDIM = 3 →
              lev'.X_new node.local_idx =
                st.d_center_of_mass_current s +
                  Matrix.mulVec (specRotation F (st.d_rot_vel_half s) (new_time - current_time))
                    (lev.X_current node.local_idx - st.d_center_of_mass_current s) +
                  (new_time - current_time) • st.d_trans_vel_half s)) := by
  have hfr := midpointStepLevel_frame st.NDIM st.d_struct_lag_idx_range
    st.d_center_of_mass_current
    (midpointStepRotationMat F st.d_num_rigid_parts st.d_rot_vel_half (new_time - current_time))
    (new_time - current_time) st.d_trans_vel_half lev
  refine ⟨_, by rw [midpointStep_levels_getElem?, hln]; rfl, hfr.1, hfr.2.1, ?_⟩
  intro hlev hlayout s hs node hnode
  obtain ⟨lev', h1, h2⟩ :=
    midpointStep_positions_aux F st current_time new_time ln lev hln hlev hlayout
  rw [midpointStep_levels_getElem?, hln] at h1
  simp only [Option.map_some', Option.some.injEq] at h1
  subst h1
  refine ⟨h2 s hs node hnode, ?_⟩
  intro h3
  funext d
  have hd : d.val < st.NDIM := by rw [h3]; exact d.isLt
  have := h2 s hs node hnode d hd
  have hsp : ∀ v : Vector3d α, spatial st.NDIM v = v := by
    intro v; rw [h3]; exact spatial_three v
  rw [hsp] at this
  rw [this]
  simp only [Pi.add_apply, Pi.smul_apply, smul_eq_mul]
  rfl

/-- C6: in the scenario of one structure of four markers at `(1,0,0)`,
`(-1,0,0)`, `(0,1,0)`, `(0,-1,0)` with `U_trans_current = (0,0,0)`,
`U_rot_current = (0,0,pi)` and `dt = 1`, the rotation matrix of `eulerStep`
is the rotation by `pi/2` about the z-axis, and the half-step positions of
the four markers are `(0,1,0)`, `(0,-1,0)`, `(-1,0,0)`, `(1,0,0)`
respectively (real arithmetic). -/
theorem eulerStep_quarter_turn (st : CIBState ℝ) (current_time new_time : ℝ)
    (pre post : List (LevelData ℝ)) (lev : LevelData ℝ)
    (hlevels : st.levels = pre ++ lev :: post)
    (hpre : ∀ l ∈ pre, l.levelContainsLagrangianData = false)
    (hpost : ∀ l ∈ post, l.levelContainsLagrangianData = false)
    (hlev : lev.levelContainsLagrangianData = true)
    (hlayout : MarkerLayout st.d_struct_lag_idx_range lev.structIDs.length lev.local_nodes)
    (hNDIM : st.NDIM = 3)
    (r : Int × Int) (hone : st.d_struct_lag_idx_range = [r])
    (n1 n2 n3 n4 : LNode) (hnodes : lev.local_nodes = [n1, n2, n3, n4])
    (hX1 : lev.X_current n1.local_idx = ![1, 0, 0])
    (hX2 : lev.X_current n2.local_idx = ![-1, 0, 0])
    (hX3 : lev.X_current n3.local_idx = ![0, 1, 0])
    (hX4 : lev.X_current n4.local_idx = ![0, -1, 0])
    (htrans : st.d_trans_vel_current 0 = ![0, 0, 0])
    (hrot : st.d_rot_vel_current 0 = ![0, 0, Real.pi])
    (hdt : new_time - current_time = 1) :
    eulerStepRotationMat (MathFns.mk Real.sqrt Real.cos Real.sin) st.d_num_rigid_parts
        st.d_rot_vel_current (new_time - current_time) 0 = !![0, -1, 0; 1, 0, 0; 0, 0, 1] ∧
    ∃ lev' : LevelData ℝ,
      (eulerStep (MathFns.mk Real.sqrt Real.cos Real.sin) st current_time new_time).levels =
        pre ++ lev' :: post ∧
      lev'.X_half n1.local_idx = ![0, 1, 0] ∧
      lev'.X_half n2.local_idx = ![0, -1, 0] ∧
      lev'.X_half n3.local_idx = ![-1, 0, 0] ∧
      lev'.X_half n4.local_idx = ![1, 0, 0] := by
  have hn : st.d_num_rigid_parts = 1 := by
    unfold CIBState.d_num_rigid_parts; rw [hone]; rfl
  have hmark : markersOf st.d_struct_lag_idx_range 0 lev.local_nodes = lev.local_nodes := by
    rw [hone]
    exact markersOf_single r _ _ (hone ▸ hlayout)
  have hmean : meanPosition st.NDIM lev.X_current lev.local_nodes = 0 := by
    funext d
    unfold meanPosition
    rw [hnodes, hNDIM, if_pos d.isLt]
    simp only [List.map_cons, List.map_nil, List.sum_cons, List.sum_nil, hX1, hX2, hX3, hX4]
    fin_cases d <;> simp
  constructor
  · rw [eulerStepRotationMat_eq_spec _ _ _ _ _ (by rw [hn]; decide), hrot, hdt]
    exact specRotation_quarter_turn
  · obtain ⟨lev', h1, _, _, h4⟩ :=
      eulerStep_positions_aux (MathFns.mk Real.sqrt Real.cos Real.sin) st current_time new_time
        pre post lev hlevels hpre hpost hlev hlayout
    have key : ∀ node ∈ lev.local_nodes, lev'.X_half node.local_idx =
        Matrix.mulVec !![0, -1, 0; 1, 0, 0; 0, 0, 1] (lev.X_current node.local_idx) := by
      intro node hnode
      funext d
      have hd : d.val < st.NDIM := by rw [hNDIM]; exact d.isLt
      have hm : node ∈ markersOf st.d_struct_lag_idx_range 0 lev.local_nodes := by
        rw [hmark]; exact hnode
      have := h4 0 (by rw [hn]; decide) node hm d hd
      rw [hmark, hmean, hNDIM, spatial_three] at this
      simp only [Nat.cast_zero, hrot, htrans, hdt, specRotation_quarter_turn] at this
      rw [this]
      have hz : (![0, 0, 0] : Fin 3 → ℝ) d = 0 := by fin_cases d <;> simp
      simp [hz]
    refine ⟨lev', h1, ?_, ?_, ?_, ?_⟩
    · rw [key n1 (by rw [hnodes]; simp), hX1]
      funext d; fin_cases d <;> simp [Matrix.mulVec, Matrix.dotProduct, Fin.sum_univ_three, Matrix.vecHead, Matrix.vecTail]
    · rw [key n2 (by rw [hnodes]; simp), hX2]
      funext d; fin_cases d <;> simp [Matrix.mulVec, Matrix.dotProduct, Fin.sum_univ_three, Matrix.vecHead, Matrix.vecTail]
    · rw [key n3 (by rw [hnodes]; simp), hX3]
      funext d; fin_cases d <;> simp [Matrix.mulVec, Matrix.dotProduct, Fin.sum_univ_three, Matrix.vecHead, Matrix.vecTail]
    · rw [key n4 (by rw [hnodes]; simp), hX4]
      funext d; fin_cases d <;> simp [Matrix.mulVec, Matrix.dotProduct, Fin.sum_univ_three, Matrix.vecHead, Matrix.vecTail]

/-- Witness for C6: the scenario state with `omega = pi`, from time 0 to time 1. -/
theorem eulerStep_quarter_turn_witness :
    eulerStepRotationMat (MathFns.mk Real.sqrt Real.cos Real.sin)
        (scenarioState ℝ Real.pi).d_num_rigid_parts
        (scenarioState ℝ Real.pi).d_rot_vel_current (1 - 0) 0 =
      !![0, -1, 0; 1, 0, 0; 0, 0, 1] ∧
    ∃ lev' : LevelData ℝ,
      (eulerStep (MathFns.mk Real.sqrt Real.cos Real.sin) (scenarioState ℝ Real.pi) 0 1).levels =
        [] ++ lev' :: [] ∧
      lev'.X_half 0 = ![0, 1, 0] ∧
      lev'.X_half 1 = ![0, -1, 0] ∧
      lev'.X_half 2 = ![-1, 0, 0] ∧
      lev'.X_half 3 = ![1, 0, 0] :=
  eulerStep_quarter_turn (scenarioState ℝ Real.pi) 0 1 [] [] (scenarioLevel ℝ) rfl
    (by simp) (by simp) rfl scenario_layout rfl (0, 4) rfl ⟨0, 0⟩ ⟨1, 1⟩ ⟨2, 2⟩ ⟨3, 3⟩ rfl
    (by simp [scenarioLevel]) (by simp [scenarioLevel]) (by simp [scenarioLevel])
    (by simp [scenarioLevel]) (by funext d; fin_cases d <;> simp [scenarioState]) rfl
    (by norm_num)

/-- Witness for C4: the scenario state with `omega = pi`, from time 0 to time 1. -/
theorem eulerStep_marker_positions_witness :
    ∃ lev' : LevelData ℝ,
      (eulerStep (MathFns.mk Real.sqrt Real.cos Real.sin) (scenarioState ℝ Real.pi) 0 1).levels =
        [] ++ lev' :: [] ∧
      lev'.X_current = (scenarioLevel ℝ).X_current ∧
      ∀ (s : Nat), s < (scenarioState ℝ Real.pi).d_num_rigid_parts →
        ∀ node ∈ markersOf (scenarioState ℝ Real.pi).d_struct_lag_idx_range s
            (scenarioLevel ℝ).local_nodes,
          (∀ d : Fin 3, d.val < (scenarioState ℝ Real.pi).NDIM →
            lev'.X_half node.local_idx d =
              meanPosition (scenarioState ℝ Real.pi).NDIM (scenarioLevel ℝ).X_current
                  (markersOf (scenarioState ℝ Real.pi).d_struct_lag_idx_range s
                    (scenarioLevel ℝ).local_nodes) d +
                Matrix.mulVec
                  (specRotation (MathFns.mk Real.sqrt Real.cos Real.sin)
                    ((scenarioState ℝ Real.pi).d_rot_vel_current s) (1 / 2 * (1 - 0)))
                  (spatial (scenarioState ℝ Real.pi).NDIM
                    (fun d' => (scenarioLevel ℝ).X_current node.local_idx d' -
                      meanPosition (scenarioState ℝ Real.pi).NDIM (scenarioLevel ℝ).X_current
                        (markersOf (scenarioState ℝ Real.pi).d_struct_lag_idx_range s
                          (scenarioLevel ℝ).local_nodes) d')) d +
                1 / 2 * (1 - 0) * (scenarioState ℝ Real.pi).d_trans_vel_current s d) ∧
          ((scenarioState ℝ Real.pi).NDIM = 3 →
            lev'.X_half node.local_idx =
              meanPosition 3 (scenarioLevel ℝ).X_current
                  (markersOf (scenarioState ℝ Real.pi).d_struct_lag_idx_range s
                    (scenarioLevel ℝ).local_nodes) +
                Matrix.mulVec
                  (specRotation (MathFns.mk Real.sqrt Real.cos Real.sin)
                    ((scenarioState ℝ Real.pi).d_rot_vel_current s) (1 / 2 * (1 - 0)))
                  ((scenarioLevel ℝ).X_current node.local_idx -
                    meanPosition 3 (scenarioLevel ℝ).X_current
                      (markersOf (scenarioState ℝ Real.pi).d_struct_lag_idx_range s
                        (scenarioLevel ℝ).local_nodes)) +
                (1 / 2 * ((1 : ℝ) - 0)) • (scenarioState ℝ Real.pi).d_trans_vel_current s) :=
  eulerStep_marker_positions (MathFns.mk Real.sqrt Real.cos Real.sin) (scenarioState ℝ Real.pi)
    0 1 [] [] (scenarioLevel ℝ) rfl (by simp) (by simp) rfl scenario_layout

/-- Witness for C5: the scenario state with `omega = pi`, from time 0 to time 1. -/
theorem midpointStep_marker_positions_witness :
    ∃ lev' : LevelData ℝ,
      (midpointStep (MathFns.mk Real.sqrt Real.cos Real.sin) (scenarioState ℝ Real.pi)
        0 1).levels[0]? = some lev' ∧
      lev'.X_current = (scenarioLevel ℝ).X_current ∧
      lev'.X_half = (scenarioLevel ℝ).X_half ∧
      ((scenarioLevel ℝ).levelContainsLagrangianData = true →
        MarkerLayout (scenarioState ℝ Real.pi).d_struct_lag_idx_range
          (scenarioLevel ℝ).structIDs.length (scenarioLevel ℝ).local_nodes →
        ∀ (s : Nat), s < (scenarioState ℝ Real.pi).d_num_rigid_parts →
          ∀ node ∈ markersOf (scenarioState ℝ Real.pi).d_struct_lag_idx_range s
              (scenarioLevel ℝ).local_nodes,
            (∀ d : Fin 3, d.val < (scenarioState ℝ Real.pi).NDIM →
              lev'.X_new node.local_idx d =
                (scenarioState ℝ Real.pi).d_center_of_mass_current s d +
                  Matrix.mulVec
                    (specRotation (MathFns.mk Real.sqrt Real.cos Real.sin)
                      ((scenarioState ℝ Real.pi).d_rot_vel_half s) (1 - 0))
                    (spatial (scenarioState ℝ Real.pi).NDIM
                      (fun d' => (scenarioLevel ℝ).X_current node.local_idx d' -
                        (scenarioState ℝ Real.pi).d_center_of_mass_current s d')) d +
                  (1 - 0) * (scenarioState ℝ Real.pi).d_trans_vel_half s d) ∧
            ((scenarioState ℝ Real.pi).NDIM = 3 →
              lev'.X_new node.local_idx =
                (scenarioState ℝ Real.pi).d_center_of_mass_current s +
                  Matrix.mulVec
                    (specRotation (MathFns.mk Real.sqrt Real.cos Real.sin)
                      ((scenarioState ℝ Real.pi).d_rot_vel_half s) (1 - 0))
                    ((scenarioLevel ℝ).X_current node.local_idx -
                      (scenarioState ℝ Real.pi).d_center_of_mass_current s) +
                  ((1 : ℝ) - 0) • (scenarioState ℝ Real.pi).d_trans_vel_half s)) :=
  midpointStep_marker_positions (MathFns.mk Real.sqrt Real.cos Real.sin)
    (scenarioState ℝ Real.pi) 0 1 0 (scenarioLevel ℝ) rfl

/-! ## Theorems: marshalling -/

theorem vecScatter_not_mem {α : Type} (src : Int → α) (pairs : List (Int × Int))
    (dst : Int → α) (k : Int) (hk : k ∉ pairs.map Prod.snd) :
    vecScatter src pairs dst k = dst k := by
  unfold vecScatter
  induction pairs generalizing dst with
  | nil => rfl
  | cons p rest ih =>
    rw [List.foldl_cons, ih]
    · have : k ≠ p.2 := by
        intro h; apply hk; simp [h]
      exact Function.update_noteq this _ _
    · intro h; apply hk; simp only [List.map_cons, List.mem_cons]; right; exact h

theorem vecScatter_mem {α : Type} (src : Int → α) (pairs : List (Int × Int))
    (dst : Int → α) (hnd : (pairs.map Prod.snd).Nodup) (p : Int × Int) (hp : p ∈ pairs) :
    vecScatter src pairs dst p.2 = src p.1 := by
  induction pairs generalizing dst with
  | nil => simp at hp
  | cons q rest ih =>
    rw [List.map_cons, List.nodup_cons] at hnd
    rcases List.mem_cons.mp hp with rfl | hmem
    · have := vecScatter_not_mem src rest (Function.update dst p.2 (src p.1)) p.2 hnd.1
      unfold vecScatter at this ⊢
      rw [List.foldl_cons, this, Function.update_same]
    · have := ih (Function.update dst q.2 (src q.1)) hnd.2 hmem
      unfold vecScatter at this ⊢
      rw [List.foldl_cons]
      exact this

theorem vecScatter_self {α : Type} (src : Int → α) (pairs : List (Int × Int))
    (dst : Int → α) (h : ∀ p ∈ pairs, src p.1 = dst p.2) :
    vecScatter src pairs dst = dst := by
  unfold vecScatter
  induction pairs with
  | nil => rfl
  | cons q rest ih =>
    rw [List.foldl_cons, h q (List.mem_cons_self _ _), Function.update_eq_self]
    exact ih (fun p hp => h p (List.mem_cons_of_mem _ hp))

theorem scatterIndices_fst_nodup (total_nodes : Nat) (map : List Int) (data_depth : Int) :
    ((scatterIndices total_nodes map data_depth).map Prod.fst).Nodup := by
  unfold scatterIndices
  rw [List.map_flatMap]
  simp only [List.map_map]
  rw [List.nodup_flatMap]
  constructor
  · intro j _
    apply List.Nodup.map _ (List.nodup_range _)
    intro d d' h
    simp only [Function.comp] at h
    omega
  · apply List.Pairwise.imp _ (List.nodup_range total_nodes)
    intro j j' hne
    simp only [Function.onFun, List.disjoint_left, List.mem_map, List.mem_range,
      Function.comp]
    rintro x ⟨d, hd, rfl⟩ ⟨d', hd', h⟩
    have hpos : 0 < data_depth := by omega
    obtain ⟨D, rfl⟩ := Int.eq_ofNat_of_zero_le hpos.le
    simp only [Int.toNat_ofNat] at hd hd'
    have h' : j' * D + d' = j * D + d := by exact_mod_cast h
    rcases Nat.lt_or_gt_of_ne hne with hlt | hgt
    · have := Nat.mul_le_mul_right D (Nat.succ_le_of_lt hlt)
      rw [Nat.succ_mul] at this
      omega
    · have := Nat.mul_le_mul_right D (Nat.succ_le_of_lt hgt)
      rw [Nat.succ_mul] at this
      omega

/-- C10: for every distributed field `b`, every buffer, every list
`struct_ids`, every `data_depth` (in particular every `data_depth >= 1`) and
every Lagrangian-to-PETSc index map, `copyVecToArray` followed by
`copyArrayToVec` on the same buffer leaves every entry of `b` equal to its
value before the two calls. -/
theorem copy_round_trip {α : Type} (ranges : List (Int × Int))
    (mapLagrangianToPETSc : Int → Int) (b : Int → α) (array : Int → α)
    (struct_ids : List Nat) (data_depth : Int) :
    copyArrayToVec ranges mapLagrangianToPETSc b
      (copyVecToArray ranges mapLagrangianToPETSc b array struct_ids data_depth)
      struct_ids data_depth = b := by
  unfold copyArrayToVec copyVecToArray
  by_cases he : struct_ids.isEmpty = true
  · simp [he]
  · simp only [he, Bool.false_eq_true, if_false]
    apply vecScatter_self
    intro p hp
    have hnd := scatterIndices_fst_nodup (totalNodes ranges struct_ids)
      ((lagrangianIndices ranges struct_ids).map mapLagrangianToPETSc) data_depth
    have hmem : (p.2, p.1) ∈ (scatterIndices (totalNodes ranges struct_ids)
        ((lagrangianIndices ranges struct_ids).map mapLagrangianToPETSc) data_depth).map
        (fun p => (p.2, p.1)) := List.mem_map_of_mem _ hp
    have := vecScatter_mem b _ array (by simpa [List.map_map, Function.comp] using hnd) _ hmem
    exact this

/-! ## Theorems: rigid velocity and net generalized force -/

theorem rigidVelocityNode_eq {α : Type} [Field α] (NDIM : Nat) (r : Int × Int)
    (U : RigidDOFVector α) (X : LDataArray α) (Xc : Vector3d α) (V : LDataArray α)
    (node : LNode) :
    rigidVelocityNode NDIM r U X Xc V node =
      if inRange r node.lag_idx then
        Function.update V node.local_idx (rigidRow NDIM U (X node.local_idx) Xc (V node.local_idx))
      else V := by
  unfold rigidVelocityNode inRange rigidRow
  by_cases h : r.1 ≤ node.lag_idx ∧ node.lag_idx < r.2
  · simp only [if_pos h]
    by_cases h2 : NDIM = 2
    · simp only [if_pos h2]
      have hrow : ∀ (row : Vector3d α) (a b : α),
          Function.update (Function.update row 0 a) 1 b = ![a, b, row 2] := by
        intro row a b
        funext d
        fin_cases d <;> simp [Function.update]
      rw [hrow]
    · simp only [if_neg h2]
      by_cases h3 : NDIM = 3
      · simp only [if_pos h3]
        have hrow : ∀ (row : Vector3d α) (a b c : α),
            Function.update (Function.update (Function.update row 0 a) 1 b) 2 c = ![a, b, c] := by
          intro row a b c
          funext d
          fin_cases d <;> simp [Function.update]
        rw [hrow]
      · simp only [if_neg h3]
        simp
  · simp only [if_neg h]

theorem rigidRow_idem {α : Type} [Field α] (NDIM : Nat) (U : RigidDOFVector α) (X : Vector3d α)
    (Xc : Vector3d α) (row : Vector3d α) :
    rigidRow NDIM U X Xc (rigidRow NDIM U X Xc row) = rigidRow NDIM U X Xc row := by
  unfold rigidRow
  by_cases h2 : NDIM = 2
  · simp [h2]
  · by_cases h3 : NDIM = 3
    · simp [h3]
    · simp [h2, h3]

theorem rigidFold_apply {α : Type} [Field α] (NDIM : Nat) (r : Int × Int)
    (U : RigidDOFVector α) (X : LDataArray α) (Xc : Vector3d α) (nodes : List LNode)
    (V : LDataArray α) (k : Int) :
    (nodes.foldl (rigidVelocityNode NDIM r U X Xc) V) k =
      if ∃ node ∈ nodes, inRange r node.lag_idx ∧ node.local_idx = k then
        rigidRow NDIM U (X k) Xc (V k)
      else V k := by
  induction nodes generalizing V with
  | nil => simp
  | cons a rest ih =>
    rw [List.foldl_cons, ih, rigidVelocityNode_eq]
    by_cases ha : inRange r a.lag_idx
    · simp only [if_pos ha]
      by_cases hk : a.local_idx = k
      · subst hk
        have hex : ∃ node ∈ a :: rest, inRange r node.lag_idx ∧ node.local_idx = a.local_idx :=
          ⟨a, List.mem_cons_self _ _, ha, rfl⟩
        rw [if_pos hex, Function.update_same]
        by_cases hr : ∃ node ∈ rest, inRange r node.lag_idx ∧ node.local_idx = a.local_idx
        · rw [if_pos hr, rigidRow_idem]
        · rw [if_neg hr]
      · have hk' : k ≠ a.local_idx := fun h => hk h.symm
        rw [Function.update_noteq hk']
        have : (∃ node ∈ a :: rest, inRange r node.lag_idx ∧ node.local_idx = k) ↔
            (∃ node ∈ rest, inRange r node.lag_idx ∧ node.local_idx = k) := by
          constructor
          · rintro ⟨n, hn, h1, h2⟩
            rcases List.mem_cons.mp hn with rfl | hn'
            · exact absurd h2 hk
            · exact ⟨n, hn', h1, h2⟩
          · rintro ⟨n, hn, h1, h2⟩
            exact ⟨n, List.mem_cons_of_mem _ hn, h1, h2⟩
        simp only [this]
    · simp only [if_neg ha]
      have : (∃ node ∈ a :: rest, inRange r node.lag_idx ∧ node.local_idx = k) ↔
          (∃ node ∈ rest, inRange r node.lag_idx ∧ node.local_idx = k) := by
        constructor
        · rintro ⟨n, hn, h1, h2⟩
          rcases List.mem_cons.mp hn with rfl | hn'
          · exact absurd h1 ha
          · exact ⟨n, hn', h1, h2⟩
        · rintro ⟨n, hn, h1, h2⟩
          exact ⟨n, List.mem_cons_of_mem _ hn, h1, h2⟩
      simp only [this]

theorem setRigidBodyVelocity_apply {α : Type} [Field α] (st : CIBState α) (part : Nat)
    (U : RigidDOFVector α) (V : LDataArray α) (lev : LevelData α)
    (hlast : st.levels.getLast? = some lev) (hfcn : st.nodalvelfcn part = none) (k : Int) :
    setRigidBodyVelocity st part U V k =
      if ∃ node ∈ lev.local_nodes,
          inRange (rangeOf st.d_struct_lag_idx_range part) node.lag_idx ∧ node.local_idx = k then
        rigidRow st.NDIM U (lev.X_half k) (st.d_center_of_mass_half part) (V k)
      else V k := by
  unfold setRigidBodyVelocity
  rw [hlast]
  simp only [hfcn]
  exact rigidFold_apply _ _ _ _ _ _ _ _

/-- C7: for every generalized velocity `U` and every structure `part`
without a nodal velocity function, `setRigidBodyVelocity(part, U, V)` sets,
for each local marker whose Lagrangian index lies in the range of `part`,
`V = U_trans + U_rot x (X_half - COM_half[part])` (3-D: `U_trans = U[0..2]`,
`U_rot = U[3..5]`; 2-D: `V = (U0 - U2 ry, U1 + U2 rx)`), and leaves unchanged
every entry of `V` that is not the entry of a marker of that range, so (local
indices being distinct) the entry of every marker outside the range. -/
theorem setRigidBodyVelocity_spec {α : Type} [Field α] (st : CIBState α) (part : Nat)
    (U : RigidDOFVector α) (V : LDataArray α) (lev : LevelData α)
    (hlast : st.levels.getLast? = some lev) (hfcn : st.nodalvelfcn part = none) :
    (∀ node ∈ lev.local_nodes,
        inRange (rangeOf st.d_struct_lag_idx_range part) node.lag_idx →
        (st.NDIM = 3 →
          setRigidBodyVelocity st part U V node.local_idx =
            ![U 0, U 1, U 2] +
              crossProduct ![U 3, U 4, U 5]
                (lev.X_half node.local_idx - st.d_center_of_mass_half part)) ∧
        (st.NDIM = 2 →
          setRigidBodyVelocity st part U V node.local_idx 0 =
              U 0 - U 2 * (lev.X_half node.local_idx 1 - st.d_center_of_mass_half part 1) ∧
            setRigidBodyVelocity st part U V node.local_idx 1 =
              U 1 + U 2 * (lev.X_half node.local_idx 0 - st.d_center_of_mass_half part 0))) ∧
    (∀ k : Int,
        (∀ node ∈ lev.local_nodes,
          inRange (rangeOf st.d_struct_lag_idx_range part) node.lag_idx → node.local_idx ≠ k) →
        setRigidBodyVelocity st part U V k = V k) ∧
    ((lev.local_nodes.map LNode.local_idx).Nodup →
      ∀ node ∈ lev.local_nodes,
        ¬ inRange (rangeOf st.d_struct_lag_idx_range part) node.lag_idx →
        setRigidBodyVelocity st part U V node.local_idx = V node.local_idx) := by
  have hnot : ∀ k : Int,
      (∀ node ∈ lev.local_nodes,
        inRange (rangeOf st.d_struct_lag_idx_range part) node.lag_idx → node.local_idx ≠ k) →
      setRigidBodyVelocity st part U V k = V k := by
    intro k hk
    rw [setRigidBodyVelocity_apply st part U V lev hlast hfcn, if_neg]
    rintro ⟨node, hn, h1, h2⟩
    exact hk node hn h1 h2
  refine ⟨?_, hnot, ?_⟩
  · intro node hnode hin
    have hex : ∃ n ∈ lev.local_nodes,
        inRange (rangeOf st.d_struct_lag_idx_range part) n.lag_idx ∧
          n.local_idx = node.local_idx := ⟨node, hnode, hin, rfl⟩
    rw [setRigidBodyVelocity_apply st part U V lev hlast hfcn, if_pos hex]
    constructor
    · intro h3
      unfold rigidRow
      simp only [h3, Nat.succ_ne_self, if_false, if_true]
      rw [cross_apply]
      funext d
      fin_cases d <;> simp <;> ring
    · intro h2
      unfold rigidRow
      simp [h2]
  · intro hnd node hnode hout
    apply hnot
    intro m hm hin heq
    have : m = node := List.inj_on_of_nodup_map hnd hm hnode heq
    subst this
    exact hout hin

theorem netForceNode_eq {α : Type} [Field α] (NDIM : Nat) (ranges : List (Int × Int))
    (part : Nat) (L X : LDataArray α) (Xc : Vector3d α) (F : RigidDOFVector α) (node : LNode)
    (i : Fin 6) :
    netForceNode NDIM ranges part L X Xc F node i =
      F i + if toUnsigned (getStructureHandle ranges node.lag_idx) = part then
        forceContribution NDIM (L node.local_idx) (X node.local_idx) Xc i else 0 := by
  unfold netForceNode forceContribution
  by_cases h : toUnsigned (getStructureHandle ranges node.lag_idx) = part
  · simp only [h, ne_eq, not_true_eq_false, if_false, if_true]
    by_cases h2 : NDIM = 2
    · simp only [if_pos h2]
      fin_cases i <;> simp [addDOF]
      rfl
    · simp only [if_neg h2]
      by_cases h3 : NDIM = 3
      · simp only [if_pos h3]
        fin_cases i <;> simp [addDOF]
        rfl
      · simp only [if_neg h3]
        simp
  · simp [h]

theorem netForceFold_apply {α : Type} [Field α] (NDIM : Nat) (ranges : List (Int × Int))
    (part : Nat) (L X : LDataArray α) (Xc : Vector3d α) (nodes : List LNode)
    (F : RigidDOFVector α) (i : Fin 6) :
    (nodes.foldl (netForceNode NDIM ranges part L X Xc) F) i =
      F i + ((nodes.filter
          (fun node => toUnsigned (getStructureHandle ranges node.lag_idx) = part)).map
        (fun node => forceContribution NDIM (L node.local_idx) (X node.local_idx) Xc i)).sum := by
  induction nodes generalizing F with
  | nil => simp
  | cons a rest ih =>
    rw [List.foldl_cons, ih, netForceNode_eq]
    by_cases h : toUnsigned (getStructureHandle ranges a.lag_idx) = part
    · simp [h, List.filter_cons, add_assoc]
    · simp [h, List.filter_cons]

theorem getStructureHandleFrom_lt (k : Nat) (rs : List (Int × Int)) (x : Int) :
    getStructureHandleFrom k rs x < ((k + rs.length : Nat) : Int) := by
  induction rs generalizing k with
  | nil =>
    unfold getStructureHandleFrom
    have : (0 : Int) ≤ ((k + 0 : Nat) : Int) := Int.natCast_nonneg _
    simp only [List.length_nil]
    omega
  | cons r rest ih =>
    unfold getStructureHandleFrom
    split
    · simp only [List.length_cons]; push_cast; omega
    · have := ih (k + 1)
      simp only [List.length_cons]
      push_cast at this ⊢
      omega

theorem toUnsigned_handle_eq_iff (ranges : List (Int × Int)) (x : Int) (part : Nat)
    (hpart : part < ranges.length) (hlen : ranges.length < 2 ^ 32) :
    toUnsigned (getStructureHandle ranges x) = part ↔
      getStructureHandle ranges x = (part : Int) := by
  have hlt := getStructureHandleFrom_lt 0 ranges x
  have hge := getStructureHandleFrom_nonneg_or 0 ranges x
  unfold getStructureHandle
  generalize getStructureHandleFrom 0 ranges x = h at hlt hge
  simp only [Nat.zero_add, Nat.cast_zero] at hlt hge
  unfold toUnsigned
  rcases hge with rfl | hge
  · constructor
    · intro h1
      have : ((-1 : Int) % 2 ^ 32).toNat = 4294967295 := by decide
      rw [this] at h1
      omega
    · intro h1; omega
  · have e : h % 2 ^ 32 = h := Int.emod_eq_of_lt hge (by omega)
    rw [e]
    constructor
    · intro h1; omega
    · intro h1; omega

theorem computeNetRigidGeneralizedForce_apply {α : Type} [Field α] (st : CIBState α)
    (part : Nat) (L : LDataArray α) (F_in : RigidDOFVector α) (lev : LevelData α)
    (hlast : st.levels.getLast? = some lev)
    (hdisj : PairwiseDisjoint st.d_struct_lag_idx_range)
    (hpart : part < st.d_num_rigid_parts) (hlen : st.d_num_rigid_parts < 2 ^ 32) (i : Fin 6) :
    computeNetRigidGeneralizedForce st part L F_in i =
      ((markersOf st.d_struct_lag_idx_range part lev.local_nodes).map
        (fun node => forceContribution st.NDIM (L node.local_idx) (lev.X_half node.local_idx)
          (st.d_center_of_mass_half part) i)).sum := by
  unfold computeNetRigidGeneralizedForce
  rw [hlast]
  simp only []
  rw [netForceFold_apply]
  have hfilter : lev.local_nodes.filter
      (fun node => toUnsigned (getStructureHandle st.d_struct_lag_idx_range node.lag_idx) = part)
      = markersOf st.d_struct_lag_idx_range part lev.local_nodes := by
    unfold markersOf
    apply List.filter_congr
    intro x _
    simp only [decide_eq_decide]
    rw [toUnsigned_handle_eq_iff _ _ _ hpart hlen, rangeOf_eq _ _ hpart]
    exact getStructureHandle_eq_iff _ _ hdisj part hpart
  rw [hfilter]
  simp

/-- C8: for every per-marker field `L`, every incoming `F` and every
structure `part` (of a table of pairwise disjoint ranges),
`computeNetRigidGeneralizedForce(part, L, F)` overwrites `F` with the net
force `sum_i L_i` and the net torque `sum_i (X_half_i - COM_half[part]) x L_i`
(three components in 3-D, the z-component in 2-D), the sums ranging over
exactly the markers whose Lagrangian index lies in the range of `part`; the
result does not depend on the incoming `F` nor on the other markers. -/
theorem computeNetRigidGeneralizedForce_spec {α : Type} [Field α] (st : CIBState α)
    (part : Nat) (L : LDataArray α) (F_in : RigidDOFVector α) (lev : LevelData α)
    (hlast : st.levels.getLast? = some lev)
    (hdisj : PairwiseDisjoint st.d_struct_lag_idx_range)
    (hpart : part < st.d_num_rigid_parts) (hlen : st.d_num_rigid_parts < 2 ^ 32) :
    (st.NDIM = 3 →
      (∀ d : Fin 3, computeNetRigidGeneralizedForce st part L F_in (Fin.castAdd 3 d) =
        ((markersOf st.d_struct_lag_idx_range part lev.local_nodes).map
          (fun node => L node.local_idx d)).sum) ∧
      (∀ d : Fin 3, computeNetRigidGeneralizedForce st part L F_in (Fin.natAdd 3 d) =
        ((markersOf st.d_struct_lag_idx_range part lev.local_nodes).map
          (fun node => crossProduct
            (lev.X_half node.local_idx - st.d_center_of_mass_half part)
            (L node.local_idx) d)).sum)) ∧
    (st.NDIM = 2 →
      computeNetRigidGeneralizedForce st part L F_in 0 =
        ((markersOf st.d_struct_lag_idx_range part lev.local_nodes).map
          (fun node => L node.local_idx 0)).sum ∧
      computeNetRigidGeneralizedForce st part L F_in 1 =
        ((markersOf st.d_struct_lag_idx_range part lev.local_nodes).map
          (fun node => L node.local_idx 1)).sum ∧
      computeNetRigidGeneralizedForce st part L F_in 2 =
        ((markersOf st.d_struct_lag_idx_range part lev.local_nodes).map
          (fun node =>
            (lev.X_half node.local_idx 0 - st.d_center_of_mass_half part 0) *
                L node.local_idx 1 -
              (lev.X_half node.local_idx 1 - st.d_center_of_mass_half part 1) *
                L node.local_idx 0)).sum) := by
  have key := computeNetRigidGeneralizedForce_apply st part L F_in lev hlast hdisj hpart hlen
  constructor
  · intro h3
    constructor
    · intro d
      rw [key]
      congr 1
      apply List.map_congr_left
      intro node _
      unfold forceContribution
      simp only [h3, Nat.succ_ne_self, if_false, if_true]
      fin_cases d <;> rfl
    · intro d
      rw [key]
      congr 1
      apply List.map_congr_left
      intro node _
      unfold forceContribution
      simp only [h3, Nat.succ_ne_self, if_false, if_true, cross_apply]
      fin_cases d
      · show L node.local_idx 2 * (lev.X_half node.local_idx 1 - st.d_center_of_mass_half part 1) -
          L node.local_idx 1 * (lev.X_half node.local_idx 2 - st.d_center_of_mass_half part 2) = _
        simp; ring
      · show L node.local_idx 0 * (lev.X_half node.local_idx 2 - st.d_center_of_mass_half part 2) -
          L node.local_idx 2 * (lev.X_half node.local_idx 0 - st.d_center_of_mass_half part 0) = _
        simp; ring
      · show L node.local_idx 1 * (lev.X_half node.local_idx 0 - st.d_center_of_mass_half part 0) -
          L node.local_idx 0 * (lev.X_half node.local_idx 1 - st.d_center_of_mass_half part 1) = _
        simp; ring
  · intro h2
    refine ⟨?_, ?_, ?_⟩
    · rw [key]
      congr 1
      apply List.map_congr_left
      intro node _
      unfold forceContribution
      simp [h2]
    · rw [key]
      congr 1
      apply List.map_congr_left
      intro node _
      unfold forceContribution
      simp [h2]
    · rw [key]
      congr 1
      apply List.map_congr_left
      intro node _
      unfold forceContribution
      simp only [h2, if_true]
      show L node.local_idx 1 * (lev.X_half node.local_idx 0 - st.d_center_of_mass_half part 0) -
          L node.local_idx 0 * (lev.X_half node.local_idx 1 - st.d_center_of_mass_half part 1) = _
      ring

theorem sum_map_const_mul {α : Type} [Field α] {β : Type} (l : List β) (c : α) :
    (l.map (fun _ => c)).sum = (l.length : α) * c := by
  induction l with
  | nil => simp
  | cons a rest ih =>
    simp only [List.map_cons, List.sum_cons, ih, List.length_cons]
    push_cast
    ring

theorem sum_map_lin {α : Type} [Field α] {β : Type} (l : List β) (a b : α) (f g : β → α) :
    (l.map (fun m => a * f m - b * g m)).sum = a * (l.map f).sum - b * (l.map g).sum := by
  induction l with
  | nil => simp
  | cons x rest ih =>
    simp only [List.map_cons, List.sum_cons, ih]
    ring

theorem sum_map_centered {α : Type} [Field α] [CharZero α] {β : Type} (l : List β)
    (f : β → α) (c : α) (hc : c = (l.map f).sum / (l.length : α)) :
    (l.map (fun m => f m - c)).sum = 0 := by
  have h : (l.map (fun m => f m - c)).sum = (l.map f).sum - (l.length : α) * c := by
    induction l with
    | nil => simp
    | cons x rest ih =>
      simp only [List.map_cons, List.sum_cons, List.length_cons]
      have := sum_map_lin rest 1 1 f (fun _ => c)
      simp only [one_mul] at this
      rw [this, sum_map_const_mul]
      push_cast
      ring
  rw [h, hc]
  by_cases hl : l = []
  · subst hl; simp
  · have hne : (l.length : α) ≠ 0 := by
      have : l.length ≠ 0 := fun h0 => hl (List.length_eq_zero.mp h0)
      exact_mod_cast this
    field_simp

theorem round_trip_aux {α : Type} [Field α] (st : CIBState α) (part : Nat)
    (U : RigidDOFVector α) (V : LDataArray α) (F_in : RigidDOFVector α) (lev : LevelData α)
    (hlast : st.levels.getLast? = some lev) (hfcn : st.nodalvelfcn part = none)
    (hdisj : PairwiseDisjoint st.d_struct_lag_idx_range)
    (hpart : part < st.d_num_rigid_parts) (hlen : st.d_num_rigid_parts < 2 ^ 32)
    (i : Fin 6) :
    computeNetRigidGeneralizedForce st part (setRigidBodyVelocity st part U V) F_in i =
      ((markersOf st.d_struct_lag_idx_range part lev.local_nodes).map
        (fun node => forceContribution st.NDIM
          (rigidRow st.NDIM U (lev.X_half node.local_idx) (st.d_center_of_mass_half part)
            (V node.local_idx))
          (lev.X_half node.local_idx) (st.d_center_of_mass_half part) i)).sum := by
  rw [computeNetRigidGeneralizedForce_apply st part _ F_in lev hlast hdisj hpart hlen]
  congr 1
  apply List.map_congr_left
  intro node hnode
  rw [mem_markersOf] at hnode
  rw [setRigidBodyVelocity_apply st part U V lev hlast hfcn, if_pos ⟨node, hnode.1, hnode.2, rfl⟩]


theorem centered_sum_zero {α : Type} [Field α] [CharZero α] (NDIM : Nat) (X : LDataArray α)
    (M : List LNode) (Xc : Vector3d α) (d : Fin 3) (hd : d.val < NDIM)
    (hcom : Xc d = meanPosition NDIM X M d) :
    (M.map (fun node => X node.local_idx d - Xc d)).sum = 0 := by
  apply sum_map_centered M (fun node => X node.local_idx d) (Xc d)
  rw [hcom]
  unfold meanPosition
  rw [if_pos hd]

/-- C9 (amended): round trip on a structure `part` without a nodal velocity
function: if `V` is produced by `setRigidBodyVelocity(part, U, V)` for a
translation-only `U` and that `V` is passed as the force field to
`computeNetRigidGeneralizedForce(part, V, F)`, then the net force in `F` is
`N * u` (`N` the number of markers of the part, `u` the translational part
of `U`) and the net torque in `F` is zero, provided `COM_half[part]` is the
mean of the half-step positions of the markers of the part. -/
theorem round_trip_translation {α : Type} [Field α] [CharZero α] (st : CIBState α)
    (part : Nat) (U : RigidDOFVector α) (V : LDataArray α) (F_in : RigidDOFVector α)
    (lev : LevelData α)
    (hlast : st.levels.getLast? = some lev) (hfcn : st.nodalvelfcn part = none)
    (hdisj : PairwiseDisjoint st.d_struct_lag_idx_range)
    (hpart : part < st.d_num_rigid_parts) (hlen : st.d_num_rigid_parts < 2 ^ 32)
    (hcom : ∀ d : Fin 3, d.val < st.NDIM → st.d_center_of_mass_half part d =
      meanPosition st.NDIM lev.X_half
        (markersOf st.d_struct_lag_idx_range part lev.local_nodes) d) :
    (st.NDIM = 3 → U 3 = 0 → U 4 = 0 → U 5 = 0 →
      (∀ d : Fin 3,
        computeNetRigidGeneralizedForce st part (setRigidBodyVelocity st part U V) F_in
            (Fin.castAdd 3 d) =
          ((markersOf st.d_struct_lag_idx_range part lev.local_nodes).length : α) *
            U (Fin.castAdd 3 d)) ∧
      (∀ d : Fin 3,
        computeNetRigidGeneralizedForce st part (setRigidBodyVelocity st part U V) F_in
            (Fin.natAdd 3 d) = 0)) ∧
    (st.NDIM = 2 → U 2 = 0 →
      computeNetRigidGeneralizedForce st part (setRigidBodyVelocity st part U V) F_in 0 =
        ((markersOf st.d_struct_lag_idx_range part lev.local_nodes).length : α) * U 0 ∧
      computeNetRigidGeneralizedForce st part (setRigidBodyVelocity st part U V) F_in 1 =
        ((markersOf st.d_struct_lag_idx_range part lev.local_nodes).length : α) * U 1 ∧
      computeNetRigidGeneralizedForce st part (setRigidBodyVelocity st part U V) F_in 2 = 0) := by
  have key := round_trip_aux st part U V F_in lev hlast hfcn hdisj hpart hlen
  constructor
  · intro h3 hU3 hU4 hU5
    have hc : ∀ d : Fin 3,
        ((markersOf st.d_struct_lag_idx_range part lev.local_nodes).map
          (fun node => lev.X_half node.local_idx d - st.d_center_of_mass_half part d)).sum = 0 :=
      fun d => centered_sum_zero st.NDIM _ _ _ d (by rw [h3]; exact d.isLt)
        (hcom d (by rw [h3]; exact d.isLt))
    constructor
    · intro d
      rw [key, ← sum_map_const_mul]
      congr 1
      apply List.map_congr_left
      intro node _
      unfold forceContribution rigidRow
      simp only [h3, Nat.succ_ne_self, if_false, if_true, hU3, hU4, hU5, zero_mul, add_zero,
        sub_zero]
      fin_cases d <;> rfl
    · intro d
      rw [key]
      unfold forceContribution rigidRow
      simp only [h3, Nat.succ_ne_self, if_false, if_true, hU3, hU4, hU5, zero_mul, add_zero,
        sub_zero]
      fin_cases d
      · show ((markersOf st.d_struct_lag_idx_range part lev.local_nodes).map (fun node =>
            U 2 * (lev.X_half node.local_idx 1 - st.d_center_of_mass_half part 1) -
              U 1 * (lev.X_half node.local_idx 2 - st.d_center_of_mass_half part 2))).sum = 0
        rw [sum_map_lin, hc 1, hc 2]; ring
      · show ((markersOf st.d_struct_lag_idx_range part lev.local_nodes).map (fun node =>
            U 0 * (lev.X_half node.local_idx 2 - st.d_center_of_mass_half part 2) -
              U 2 * (lev.X_half node.local_idx 0 - st.d_center_of_mass_half part 0))).sum = 0
        rw [sum_map_lin, hc 2, hc 0]; ring
      · show ((markersOf st.d_struct_lag_idx_range part lev.local_nodes).map (fun node =>
            U 1 * (lev.X_half node.local_idx 0 - st.d_center_of_mass_half part 0) -
              U 0 * (lev.X_half node.local_idx 1 - st.d_center_of_mass_half part 1))).sum = 0
        rw [sum_map_lin, hc 0, hc 1]; ring
  · intro h2 hU2
    have hc0 := centered_sum_zero st.NDIM lev.X_half
      (markersOf st.d_struct_lag_idx_range part lev.local_nodes) (st.d_center_of_mass_half part)
      0 (by rw [h2]; decide) (hcom 0 (by rw [h2]; decide))
    have hc1 := centered_sum_zero st.NDIM lev.X_half
      (markersOf st.d_struct_lag_idx_range part lev.local_nodes) (st.d_center_of_mass_half part)
      1 (by rw [h2]; decide) (hcom 1 (by rw [h2]; decide))
    refine ⟨?_, ?_, ?_⟩
    · rw [key, ← sum_map_const_mul]
      congr 1
      apply List.map_congr_left
      intro node _
      unfold forceContribution rigidRow
      simp [h2, hU2]
    · rw [key, ← sum_map_const_mul]
      congr 1
      apply List.map_congr_left
      intro node _
      unfold forceContribution rigidRow
      simp [h2, hU2]
    · rw [key]
      unfold forceContribution rigidRow
      simp only [h2, if_true, hU2, zero_mul, add_zero, sub_zero]
      show ((markersOf st.d_struct_lag_idx_range part lev.local_nodes).map (fun node =>
            U 1 * (lev.X_half node.local_idx 0 - st.d_center_of_mass_half part 0) -
              U 0 * (lev.X_half node.local_idx 1 - st.d_center_of_mass_half part 1))).sum = 0
      rw [sum_map_lin, hc0, hc1]; ring

theorem scenario_markers (α : Type) [Field α] (omega : α) :
    markersOf (scenarioState α omega).d_struct_lag_idx_range 0 (scenarioLevel α).local_nodes =
      [⟨0, 0⟩, ⟨1, 1⟩, ⟨2, 2⟩, ⟨3, 3⟩] :=
  markersOf_single (0, 4) 1 _ scenario_layout

theorem scenario_disjoint : PairwiseDisjoint [((0 : Int), (4 : Int))] := scenario_layout.disjoint

theorem scenario_mean_half (α : Type) [Field α] [CharZero α] (d : Fin 3) :
    meanPosition 3 (scenarioLevel α).X_half [⟨0, 0⟩, ⟨1, 1⟩, ⟨2, 2⟩, ⟨3, 3⟩] d = 0 := by
  unfold meanPosition
  rw [if_pos d.isLt]
  fin_cases d <;> simp [scenarioLevel]

/-- Counterexample for C9 as stated: in the scenario state with a nodal
velocity function registered for the part (one that leaves `V` as it is),
the four markers have their mean at `COM_half`, `U = (1,0,0,0,0,0)` is
translation-only, and yet the net force after the round trip from `V = 0` is
not `N * u = 4 * 1`: `setRigidBodyVelocity` delegates to the registered
function instead of writing the rigid velocity. -/
theorem round_trip_counterexample :
    (scenarioStateWithFcn ℚ 0).levels.getLast? = some (scenarioLevel ℚ) ∧
    (markersOf (scenarioStateWithFcn ℚ 0).d_struct_lag_idx_range 0
      (scenarioLevel ℚ).local_nodes).length = 4 ∧
    (∀ d : Fin 3, (scenarioStateWithFcn ℚ 0).d_center_of_mass_half 0 d =
      meanPosition 3 (scenarioLevel ℚ).X_half
        (markersOf (scenarioStateWithFcn ℚ 0).d_struct_lag_idx_range 0
          (scenarioLevel ℚ).local_nodes) d) ∧
    computeNetRigidGeneralizedForce (scenarioStateWithFcn ℚ 0) 0
        (setRigidBodyVelocity (scenarioStateWithFcn ℚ 0) 0 ![1, 0, 0, 0, 0, 0] (fun _ => 0)) 0 0
      ≠ 4 * 1 := by
  have hm : markersOf (scenarioStateWithFcn ℚ 0).d_struct_lag_idx_range 0
      (scenarioLevel ℚ).local_nodes = [⟨0, 0⟩, ⟨1, 1⟩, ⟨2, 2⟩, ⟨3, 3⟩] := scenario_markers ℚ 0
  refine ⟨rfl, by rw [hm]; rfl, ?_, ?_⟩
  · intro d
    rw [hm, scenario_mean_half]
    rfl
  · have hV : setRigidBodyVelocity (scenarioStateWithFcn ℚ 0) 0 ![1, 0, 0, 0, 0, 0]
        (fun _ => 0) = fun _ => 0 := rfl
    rw [hV, computeNetRigidGeneralizedForce_apply (scenarioStateWithFcn ℚ 0) 0 _ 0
      (scenarioLevel ℚ) rfl scenario_disjoint (by decide) (by decide), hm]
    simp [forceContribution, scenarioStateWithFcn, scenarioState]

/-- Witness for C7: the scenario state over the rationals, `U = (1,2,3,0,0,1)`, `V = 0`. -/
theorem setRigidBodyVelocity_spec_witness :
    (∀ node ∈ (scenarioLevel ℚ).local_nodes,
        inRange (rangeOf (scenarioState ℚ 0).d_struct_lag_idx_range 0) node.lag_idx →
        ((scenarioState ℚ 0).NDIM = 3 →
          setRigidBodyVelocity (scenarioState ℚ 0) 0 ![1, 2, 3, 0, 0, 1] (fun _ => 0)
              node.local_idx =
            ![(![1, 2, 3, 0, 0, 1] : RigidDOFVector ℚ) 0, (![1, 2, 3, 0, 0, 1] : RigidDOFVector ℚ) 1,
                (![1, 2, 3, 0, 0, 1] : RigidDOFVector ℚ) 2] +
              crossProduct
                ![(![1, 2, 3, 0, 0, 1] : RigidDOFVector ℚ) 3,
                  (![1, 2, 3, 0, 0, 1] : RigidDOFVector ℚ) 4,
                  (![1, 2, 3, 0, 0, 1] : RigidDOFVector ℚ) 5]
                ((scenarioLevel ℚ).X_half node.local_idx -
                  (scenarioState ℚ 0).d_center_of_mass_half 0)) ∧
        ((scenarioState ℚ 0).NDIM = 2 →
          setRigidBodyVelocity (scenarioState ℚ 0) 0 ![1, 2, 3, 0, 0, 1] (fun _ => 0)
                node.local_idx 0 =
              (![1, 2, 3, 0, 0, 1] : RigidDOFVector ℚ) 0 -
                (![1, 2, 3, 0, 0, 1] : RigidDOFVector ℚ) 2 *
                  ((scenarioLevel ℚ).X_half node.local_idx 1 -
                    (scenarioState ℚ 0).d_center_of_mass_half 0 1) ∧
            setRigidBodyVelocity (scenarioState ℚ 0) 0 ![1, 2, 3, 0, 0, 1] (fun _ => 0)
                node.local_idx 1 =
              (![1, 2, 3, 0, 0, 1] : RigidDOFVector ℚ) 1 +
                (![1, 2, 3, 0, 0, 1] : RigidDOFVector ℚ) 2 *
                  ((scenarioLevel ℚ).X_half node.local_idx 0 -
                    (scenarioState ℚ 0).d_center_of_mass_half 0 0))) ∧
    (∀ k : Int,
        (∀ node ∈ (scenarioLevel ℚ).local_nodes,
          inRange (rangeOf (scenarioState ℚ 0).d_struct_lag_idx_range 0) node.lag_idx →
            node.local_idx ≠ k) →
        setRigidBodyVelocity (scenarioState ℚ 0) 0 ![1, 2, 3, 0, 0, 1] (fun _ => 0) k =
          (fun _ => 0 : LDataArray ℚ) k) ∧
    (((scenarioLevel ℚ).local_nodes.map LNode.local_idx).Nodup →
      ∀ node ∈ (scenarioLevel ℚ).local_nodes,
        ¬ inRange (rangeOf (scenarioState ℚ 0).d_struct_lag_idx_range 0) node.lag_idx →
        setRigidBodyVelocity (scenarioState ℚ 0) 0 ![1, 2, 3, 0, 0, 1] (fun _ => 0)
            node.local_idx =
          (fun _ => 0 : LDataArray ℚ) node.local_idx) :=
  setRigidBodyVelocity_spec (scenarioState ℚ 0) 0 ![1, 2, 3, 0, 0, 1] (fun _ => 0)
    (scenarioLevel ℚ) rfl rfl

/-- Witness for C8: the scenario state over the rationals, `L_i = (i, 1, 2)`. -/
theorem computeNetRigidGeneralizedForce_spec_witness :
    ((scenarioState ℚ 0).NDIM = 3 →
      (∀ d : Fin 3,
        computeNetRigidGeneralizedForce (scenarioState ℚ 0) 0 (fun i => ![(i : ℚ), 1, 2])
            (fun _ => 55) (Fin.castAdd 3 d) =
          ((markersOf (scenarioState ℚ 0).d_struct_lag_idx_range 0
              (scenarioLevel ℚ).local_nodes).map
            (fun node => (fun i : Int => ![(i : ℚ), 1, 2]) node.local_idx d)).sum) ∧
      (∀ d : Fin 3,
        computeNetRigidGeneralizedForce (scenarioState ℚ 0) 0 (fun i => ![(i : ℚ), 1, 2])
            (fun _ => 55) (Fin.natAdd 3 d) =
          ((markersOf (scenarioState ℚ 0).d_struct_lag_idx_range 0
              (scenarioLevel ℚ).local_nodes).map
            (fun node => crossProduct
              ((scenarioLevel ℚ).X_half node.local_idx -
                (scenarioState ℚ 0).d_center_of_mass_half 0)
              ((fun i : Int => ![(i : ℚ), 1, 2]) node.local_idx) d)).sum)) ∧
    ((scenarioState ℚ 0).NDIM = 2 →
      computeNetRigidGeneralizedForce (scenarioState ℚ 0) 0 (fun i => ![(i : ℚ), 1, 2])
          (fun _ => 55) 0 =
        ((markersOf (scenarioState ℚ 0).d_struct_lag_idx_range 0
            (scenarioLevel ℚ).local_nodes).map
          (fun node => (fun i : Int => ![(i : ℚ), 1, 2]) node.local_idx 0)).sum ∧
      computeNetRigidGeneralizedForce (scenarioState ℚ 0) 0 (fun i => ![(i : ℚ), 1, 2])
          (fun _ => 55) 1 =
        ((markersOf (scenarioState ℚ 0).d_struct_lag_idx_range 0
            (scenarioLevel ℚ).local_nodes).map
          (fun node => (fun i : Int => ![(i : ℚ), 1, 2]) node.local_idx 1)).sum ∧
      computeNetRigidGeneralizedForce (scenarioState ℚ 0) 0 (fun i => ![(i : ℚ), 1, 2])
          (fun _ => 55) 2 =
        ((markersOf (scenarioState ℚ 0).d_struct_lag_idx_range 0
            (scenarioLevel ℚ).local_nodes).map
          (fun node =>
            ((scenarioLevel ℚ).X_half node.local_idx 0 -
                (scenarioState ℚ 0).d_center_of_mass_half 0 0) *
                (fun i : Int => ![(i : ℚ), 1, 2]) node.local_idx 1 -
              ((scenarioLevel ℚ).X_half node.local_idx 1 -
                (scenarioState ℚ 0).d_center_of_mass_half 0 1) *
                (fun i : Int => ![(i : ℚ), 1, 2]) node.local_idx 0)).sum) :=
  computeNetRigidGeneralizedForce_spec (scenarioState ℚ 0) 0 (fun i => ![(i : ℚ), 1, 2])
    (fun _ => 55) (scenarioLevel ℚ) rfl scenario_disjoint (by decide) (by decide)

/-- Witness for C9: the scenario state over the rationals, `U = (1,2,3,0,0,0)`, `V = 0`. -/
theorem round_trip_translation_witness :
    ((scenarioState ℚ 0).NDIM = 3 → (![1, 2, 3, 0, 0, 0] : RigidDOFVector ℚ) 3 = 0 →
      (![1, 2, 3, 0, 0, 0] : RigidDOFVector ℚ) 4 = 0 →
      (![1, 2, 3, 0, 0, 0] : RigidDOFVector ℚ) 5 = 0 →
      (∀ d : Fin 3,
        computeNetRigidGeneralizedForce (scenarioState ℚ 0) 0
            (setRigidBodyVelocity (scenarioState ℚ 0) 0 ![1, 2, 3, 0, 0, 0] (fun _ => 0))
            (fun _ => 55) (Fin.castAdd 3 d) =
          ((markersOf (scenarioState ℚ 0).d_struct_lag_idx_range 0
              (scenarioLevel ℚ).local_nodes).length : ℚ) *
            (![1, 2, 3, 0, 0, 0] : RigidDOFVector ℚ) (Fin.castAdd 3 d)) ∧
      (∀ d : Fin 3,
        computeNetRigidGeneralizedForce (scenarioState ℚ 0) 0
            (setRigidBodyVelocity (scenarioState ℚ 0) 0 ![1, 2, 3, 0, 0, 0] (fun _ => 0))
            (fun _ => 55) (Fin.natAdd 3 d) = 0)) ∧
    ((scenarioState ℚ 0).NDIM = 2 → (![1, 2, 3, 0, 0, 0] : RigidDOFVector ℚ) 2 = 0 →
      computeNetRigidGeneralizedForce (scenarioState ℚ 0) 0
          (setRigidBodyVelocity (scenarioState ℚ 0) 0 ![1, 2, 3, 0, 0, 0] (fun _ => 0))
          (fun _ => 55) 0 =
        ((markersOf (scenarioState ℚ 0).d_struct_lag_idx_range 0
            (scenarioLevel ℚ).local_nodes).length : ℚ) *
          (![1, 2, 3, 0, 0, 0] : RigidDOFVector ℚ) 0 ∧
      computeNetRigidGeneralizedForce (scenarioState ℚ 0) 0
          (setRigidBodyVelocity (scenarioState ℚ 0) 0 ![1, 2, 3, 0, 0, 0] (fun _ => 0))
          (fun _ => 55) 1 =
        ((markersOf (scenarioState ℚ 0).d_struct_lag_idx_range 0
            (scenarioLevel ℚ).local_nodes).length : ℚ) *
          (![1, 2, 3, 0, 0, 0] : RigidDOFVector ℚ) 1 ∧
      computeNetRigidGeneralizedForce (scenarioState ℚ 0) 0
          (setRigidBodyVelocity (scenarioState ℚ 0) 0 ![1, 2, 3, 0, 0, 0] (fun _ => 0))
          (fun _ => 55) 2 = 0) :=
  round_trip_translation (scenarioState ℚ 0) 0 ![1, 2, 3, 0, 0, 0] (fun _ => 0) (fun _ => 55)
    (scenarioLevel ℚ) rfl rfl scenario_disjoint (by decide) (by decide)
    (by
      intro d _
      rw [scenario_markers]
      exact (scenario_mean_half ℚ d).symm)

theorem lagrangianIndices_length (ranges : List (Int × Int)) (ids : List Nat) :
    (lagrangianIndices ranges ids).length = totalNodes ranges ids := by
  unfold lagrangianIndices totalNodes
  induction ids with
  | nil => rfl
  | cons a rest ih =>
    simp only [List.flatMap_cons, List.length_append, List.length_map, List.length_range,
      List.map_cons, List.sum_cons, ih]

theorem lagrangianIndices_append (ranges : List (Int × Int)) (l1 l2 : List Nat) :
    lagrangianIndices ranges (l1 ++ l2) =
      lagrangianIndices ranges l1 ++ lagrangianIndices ranges l2 := by
  unfold lagrangianIndices
  simp [List.flatMap_append]

theorem totalNodes_append (ranges : List (Int × Int)) (l1 l2 : List Nat) :
    totalNodes ranges (l1 ++ l2) = totalNodes ranges l1 + totalNodes ranges l2 := by
  unfold totalNodes
  simp

theorem totalNodes_cons (ranges : List (Int × Int)) (a : Nat) (l : List Nat) :
    totalNodes ranges (a :: l) = getNumberOfNodes ranges a + totalNodes ranges l := by
  unfold totalNodes
  simp

theorem lagrangianIndices_getD_split (ranges : List (Int × Int)) (l1 l2 : List Nat) (a : Nat)
    (j : Nat) (hj : j < getNumberOfNodes ranges a) :
    totalNodes ranges l1 + j < totalNodes ranges (l1 ++ a :: l2) ∧
    (lagrangianIndices ranges (l1 ++ a :: l2)).getD (totalNodes ranges l1 + j) 0 =
      toInt (toUnsigned (rangeOf ranges a).1 + j) := by
  constructor
  · rw [totalNodes_append, totalNodes_cons]; omega
  · rw [lagrangianIndices_append, List.getD_eq_getElem?_getD,
      List.getElem?_append_right (by rw [lagrangianIndices_length]; omega),
      lagrangianIndices_length]
    have : totalNodes ranges l1 + j - totalNodes ranges l1 = j := by omega
    rw [this]
    unfold lagrangianIndices
    simp only [List.flatMap_cons]
    rw [List.getElem?_append_left (by simp; exact hj)]
    simp [hj]

theorem lagrangianIndices_getD (ranges : List (Int × Int)) (ids : List Nat) (k : Nat)
    (hk : k < ids.length) (j : Nat) (hj : j < getNumberOfNodes ranges ids[k]) :
    totalNodes ranges (ids.take k) + j < totalNodes ranges ids ∧
    (lagrangianIndices ranges ids).getD (totalNodes ranges (ids.take k) + j) 0 =
      toInt (toUnsigned (rangeOf ranges ids[k]).1 + j) := by
  have hsplit : ids.take k ++ ids[k] :: ids.drop (k + 1) = ids := by
    rw [← List.drop_eq_getElem_cons hk, List.take_append_drop]
  have := lagrangianIndices_getD_split ranges (ids.take k) (ids.drop (k + 1)) ids[k] j hj
  rw [hsplit] at this
  exact this

theorem toInt_toUnsigned_add (a : Int) (j : Nat) (h1 : -2 ^ 31 ≤ a + j) (h2 : a + j < 2 ^ 31) :
    toInt (toUnsigned a + j) = a + j := by
  unfold toInt toUnsigned
  split <;> omega

theorem toUnsigned_of_nonneg (n : Int) (h0 : 0 ≤ n) (h1 : n < 2 ^ 32) :
    ((toUnsigned n : Nat) : Int) = n := by
  unfold toUnsigned
  omega

theorem mem_scatterIndices (total_nodes : Nat) (map : List Int) (data_depth : Int)
    (J : Nat) (hJ : J < total_nodes) (d : Nat) (hd : (d : Int) < data_depth) :
    ((J : Int) * data_depth + (d : Int), map.getD J 0 * data_depth + (d : Int)) ∈
      scatterIndices total_nodes map data_depth := by
  unfold scatterIndices
  rw [List.mem_flatMap]
  refine ⟨J, List.mem_range.mpr hJ, ?_⟩
  rw [List.mem_map]
  exact ⟨d, List.mem_range.mpr (by omega), rfl⟩

theorem copyVecToArray_apply {α : Type} (ranges : List (Int × Int))
    (mapLagrangianToPETSc : Int → Int) (b : Int → α) (array : Int → α)
    (struct_ids : List Nat) (data_depth : Int) (hne : struct_ids ≠ [])
    (J : Nat) (hJ : J < totalNodes ranges struct_ids) (d : Nat) (hd : (d : Int) < data_depth) :
    copyVecToArray ranges mapLagrangianToPETSc b array struct_ids data_depth
        ((J : Int) * data_depth + (d : Int)) =
      b (mapLagrangianToPETSc ((lagrangianIndices ranges struct_ids).getD J 0) * data_depth +
        (d : Int)) := by
  unfold copyVecToArray
  have he : struct_ids.isEmpty = false := by
    cases struct_ids with
    | nil => exact absurd rfl hne
    | cons a l => rfl
  simp only [he, Bool.false_eq_true, if_false]
  have hnd := scatterIndices_fst_nodup (totalNodes ranges struct_ids)
    ((lagrangianIndices ranges struct_ids).map mapLagrangianToPETSc) data_depth
  have hmem := mem_scatterIndices (totalNodes ranges struct_ids)
    ((lagrangianIndices ranges struct_ids).map mapLagrangianToPETSc) data_depth J hJ d hd
  have hmem' := List.mem_map_of_mem (fun p : Int × Int => (p.2, p.1)) hmem
  have := vecScatter_mem b _ array (by simpa [List.map_map, Function.comp] using hnd) _ hmem'
  simp only at this
  rw [this]
  congr 2
  have hlen : J < (lagrangianIndices ranges struct_ids).length := by
    rw [lagrangianIndices_length]; exact hJ
  rw [List.getD_eq_getElem _ _ (by simpa using hlen), List.getD_eq_getElem _ _ hlen]
  simp

/-- C11: after `copyVecToArray(b, array, struct_ids, data_depth)` the flat
buffer is ordered by (listed structure, local marker, component): for the
`k`-th listed structure with range `[first_k, last_k)` (of `int` values),
every `j < last_k - first_k` and every `d < data_depth`,
`array[(off_k + j) * data_depth + d] = b[p(first_k + j) * data_depth + d]`,
where `off_k` is the node count of the structures listed before position `k`
and `p` is the Lagrangian-to-PETSc index map; when `struct_ids` is empty the
buffer is not touched. -/
theorem copyVecToArray_layout {α : Type} (ranges : List (Int × Int))
    (mapLagrangianToPETSc : Int → Int) (b : Int → α) (array : Int → α)
    (struct_ids : List Nat) (data_depth : Int) :
    (struct_ids = [] →
      copyVecToArray ranges mapLagrangianToPETSc b array struct_ids data_depth = array) ∧
    (∀ (k : Nat) (hk : k < struct_ids.length),
      -2 ^ 31 ≤ (rangeOf ranges struct_ids[k]).1 → (rangeOf ranges struct_ids[k]).2 < 2 ^ 31 →
      ∀ j : Nat, (j : Int) < (rangeOf ranges struct_ids[k]).2 - (rangeOf ranges struct_ids[k]).1 →
        ∀ d : Nat, (d : Int) < data_depth →
          copyVecToArray ranges mapLagrangianToPETSc b array struct_ids data_depth
              (((totalNodes ranges (struct_ids.take k) + j : Nat) : Int) * data_depth + (d : Int)) =
            b (mapLagrangianToPETSc ((rangeOf ranges struct_ids[k]).1 + (j : Int)) * data_depth +
              (d : Int))) := by
  constructor
  · intro h
    subst h
    rfl
  · intro k hk h1 h2 j hj d hd
    have hne : struct_ids ≠ [] := by
      intro h; subst h; simp at hk
    have hN : j < getNumberOfNodes ranges struct_ids[k] := by
      unfold getNumberOfNodes
      have := toUnsigned_of_nonneg
        ((rangeOf ranges struct_ids[k]).2 - (rangeOf ranges struct_ids[k]).1) (by omega) (by omega)
      omega
    obtain ⟨hlt, hget⟩ := lagrangianIndices_getD ranges struct_ids k hk j hN
    rw [copyVecToArray_apply ranges mapLagrangianToPETSc b array struct_ids data_depth hne _ hlt
      d hd, hget, toInt_toUnsigned_add _ _ (by omega) (by omega)]


/-- Witness for C11: two structures listed in reverse order, `data_depth = 2`. -/
theorem copyVecToArray_layout_witness :
    copyVecToArray [((0 : Int), (2 : Int)), (2, 3)] (fun l => 2 - l) (fun i => (i : ℚ) * 10)
        (fun _ => -1) [1, 0] 2
        (((totalNodes [((0 : Int), (2 : Int)), (2, 3)] (([1, 0] : List Nat).take 1) + 1 : Nat) : Int)
          * 2 + ((1 : Nat) : Int)) =
      (fun i : Int => (i : ℚ) * 10)
        ((fun l : Int => 2 - l)
          ((rangeOf [((0 : Int), (2 : Int)), (2, 3)] ([1, 0] : List Nat)[1]).1 + ((1 : Nat) : Int)) * 2 +
          ((1 : Nat) : Int)) :=
  (copyVecToArray_layout [((0 : Int), (2 : Int)), (2, 3)] (fun l => 2 - l)
    (fun i => (i : ℚ) * 10) (fun _ => -1) [1, 0] 2).2 1 (by decide) (by decide) (by decide)
    1 (by decide) 1 (by decide)

/-! ## Theorems: mobility matrix -/

theorem foldl_update_not_mem {α κ : Type} (idx : κ → Int) (upd : κ → α → α) (ks : List κ)
    (mm : Int → α) (x : Int) (hx : x ∉ ks.map idx) :
    (ks.foldl (fun mm k => fun x => if x = idx k then upd k (mm x) else mm x) mm) x = mm x := by
  induction ks generalizing mm with
  | nil => rfl
  | cons a rest ih =>
    rw [List.foldl_cons, ih]
    · have : x ≠ idx a := by
        intro h; apply hx; simp [h]
      simp only [if_neg this]
    · intro h; apply hx; simp only [List.map_cons, List.mem_cons]; right; exact h

theorem foldl_update_mem {α κ : Type} (idx : κ → Int) (upd : κ → α → α) (ks : List κ)
    (hnd : (ks.map idx).Nodup) (mm : Int → α) (k : κ) (hk : k ∈ ks) :
    (ks.foldl (fun mm k => fun x => if x = idx k then upd k (mm x) else mm x) mm) (idx k) =
      upd k (mm (idx k)) := by
  induction ks generalizing mm with
  | nil => simp at hk
  | cons a rest ih =>
    rw [List.foldl_cons]
    rw [List.map_cons, List.nodup_cons] at hnd
    rcases List.mem_cons.mp hk with rfl | hmem
    · rw [foldl_update_not_mem idx upd rest _ _ hnd.1]
      simp
    · rw [ih hnd.2 _ hmem]
      have : idx k ≠ idx a := by
        intro h
        apply hnd.1
        rw [← h]
        exact List.mem_map_of_mem idx hmem
      simp only [if_neg this]

theorem regularize_eq_fold {α : Type} [Field α] (size : Nat) (scale : α × α) (XW : Int → α)
    (mm : Int → α) :
    regularizeMobilityMatrix size scale XW mm =
      ((List.range size).flatMap (fun i => (List.range size).map (fun j => (i, j)))).foldl
        (fun mm (p : Nat × Nat) => fun x =>
          if x = (fun p : Nat × Nat => (p.1 : Int) * size + p.2) p then
            (fun (p : Nat × Nat) (v : α) =>
              if p.1 = p.2 then v * scale.1 + scale.2 * XW p.1 else v * scale.1) p (mm x)
          else mm x) mm := by
  unfold regularizeMobilityMatrix
  rw [List.flatMap, List.foldl_flatten, List.foldl_map]
  congr 1
  funext mm i
  rw [List.foldl_map]
  congr 1
  funext mm j
  by_cases hij : i = j
  · simp only [if_pos hij]
    funext x
    by_cases hx : x = (i : Int) * size + j
    · simp [hx]
    · simp [hx]
  · simp only [if_neg hij]

theorem regularize_apply {α : Type} [Field α] (size : Nat) (scale : α × α) (XW : Int → α)
    (mm : Int → α) (i j : Nat) (hi : i < size) (hj : j < size) :
    regularizeMobilityMatrix size scale XW mm ((i : Int) * size + j) =
      scale.1 * mm ((i : Int) * size + j) + if i = j then scale.2 * XW i else 0 := by
  rw [regularize_eq_fold]
  have hnd : (((List.range size).flatMap (fun i => (List.range size).map (fun j => (i, j)))).map
      (fun p : Nat × Nat => (p.1 : Int) * size + p.2)).Nodup := by
    have := scatterIndices_fst_nodup size [] (size : Int)
    unfold scatterIndices at this
    simpa [List.map_flatMap, Function.comp] using this
  have hmem : (i, j) ∈ (List.range size).flatMap (fun i => (List.range size).map (fun j => (i, j))) := by
    rw [List.mem_flatMap]
    exact ⟨i, List.mem_range.mpr hi, List.mem_map.mpr ⟨j, List.mem_range.mpr hj, rfl⟩⟩
  have := foldl_update_mem (fun p : Nat × Nat => (p.1 : Int) * size + p.2)
    (fun (p : Nat × Nat) (v : α) =>
      if p.1 = p.2 then v * scale.1 + scale.2 * XW p.1 else v * scale.1) _ hnd mm (i, j) hmem
  simp only at this
  rw [this]
  by_cases hij : i = j
  · simp [hij]; ring
  · simp [hij]; ring

theorem copyVecToArray_indep {α : Type} (ranges : List (Int × Int))
    (mapLagrangianToPETSc : Int → Int) (b : Int → α) (array1 array2 : Int → α)
    (struct_ids : List Nat) (depth : Nat) (x : Nat)
    (hx : x < totalNodes ranges struct_ids * depth) :
    copyVecToArray ranges mapLagrangianToPETSc b array1 struct_ids (depth : Int) (x : Int) =
      copyVecToArray ranges mapLagrangianToPETSc b array2 struct_ids (depth : Int) (x : Int) := by
  have hne : struct_ids ≠ [] := by
    intro h
    subst h
    simp [totalNodes] at hx
  have hpos : 0 < depth := by
    rcases Nat.eq_zero_or_pos depth with h | h
    · subst h; simp at hx
    · exact h
  have hJ : x / depth < totalNodes ranges struct_ids := by
    rw [Nat.div_lt_iff_lt_mul hpos]; exact hx
  have hd : ((x % depth : Nat) : Int) < (depth : Int) := by
    exact_mod_cast Nat.mod_lt x hpos
  have hxe : (x : Int) = ((x / depth : Nat) : Int) * (depth : Int) + ((x % depth : Nat) : Int) := by
    have := Nat.div_add_mod' x depth
    exact_mod_cast this.symm
  rw [hxe, copyVecToArray_apply ranges mapLagrangianToPETSc b array1 struct_ids depth hne _ hJ _ hd,
    copyVecToArray_apply ranges mapLagrangianToPETSc b array2 struct_ids depth hne _ hJ _ hd]

/-- C12: for a recognised matrix type, `generateMobilityMatrix` returns `M`
with `M[i][j] = scale.first * K[i][j]` for `i != j` and
`M[i][i] = scale.first * K[i][i] + scale.second * W[i]` for all
`i, j < N * NDIM`, where `K` is the dense matrix produced by the selected
kernel generator on the gathered positions and `W` is the regularization
weight field gathered by `copyVecToArray` in the same flat order. -/
theorem generateMobilityMatrix_spec {α : Type} [Field α] (K : MobilityKernels α) (NDIM : Nat)
    (ranges : List (Int × Int)) (mapLagrangianToPETSc : Int → Int) (ib_kernel : String)
    (dt : α) (X W : Int → α) (mat_type : MobilityMatrixType) (mobility_mat : Int → α)
    (prototype_struct_ids : List Nat) (grid_dx domain_extents : Nat → α) (rho mu : α)
    (scale : α × α) (f_periodic_corr : α) (hrec : mat_type ≠ MobilityMatrixType.UNKNOWN) :
    ∃ Kmat M : Int → α,
      mobilityKernel K mat_type ib_kernel mu rho dt grid_dx domain_extents
        (copyVecToArray ranges mapLagrangianToPETSc X (fun _ => 0) prototype_struct_ids NDIM)
        (totalNodes ranges prototype_struct_ids) f_periodic_corr mobility_mat = Except.ok Kmat ∧
      generateMobilityMatrix K NDIM ranges mapLagrangianToPETSc ib_kernel dt X W mat_type
        mobility_mat prototype_struct_ids grid_dx domain_extents rho mu scale f_periodic_corr =
          Except.ok M ∧
      ∀ i j : Nat, i < totalNodes ranges prototype_struct_ids * NDIM →
        j < totalNodes ranges prototype_struct_ids * NDIM →
        M ((i : Int) * ((totalNodes ranges prototype_struct_ids * NDIM : Nat) : Int) + (j : Int)) =
          scale.1 * Kmat ((i : Int) * ((totalNodes ranges prototype_struct_ids * NDIM : Nat) : Int)
              + (j : Int)) +
            if i = j then
              scale.2 * copyVecToArray ranges mapLagrangianToPETSc W (fun _ => 0)
                prototype_struct_ids NDIM (i : Int)
            else 0 := by
  have hk : ∃ Kmat, mobilityKernel K mat_type ib_kernel mu rho dt grid_dx domain_extents
      (copyVecToArray ranges mapLagrangianToPETSc X (fun _ => 0) prototype_struct_ids NDIM)
      (totalNodes ranges prototype_struct_ids) f_periodic_corr mobility_mat = Except.ok Kmat := by
    cases mat_type with
    | RPY => exact ⟨_, rfl⟩
    | EMPIRICAL => exact ⟨_, rfl⟩
    | UNKNOWN => exact absurd rfl hrec
  obtain ⟨Kmat, hK⟩ := hk
  refine ⟨Kmat, regularizeMobilityMatrix (totalNodes ranges prototype_struct_ids * NDIM) scale
    (copyVecToArray ranges mapLagrangianToPETSc W
      (copyVecToArray ranges mapLagrangianToPETSc X (fun _ => 0) prototype_struct_ids NDIM)
      prototype_struct_ids NDIM) Kmat, hK, ?_, ?_⟩
  · unfold generateMobilityMatrix
    simp only [hK]
  · intro i j hi hj
    rw [regularize_apply _ _ _ _ i j hi hj]
    by_cases hij : i = j
    · simp only [if_pos hij]
      rw [copyVecToArray_indep ranges mapLagrangianToPETSc W _ (fun _ => 0) prototype_struct_ids
        NDIM i hi]
    · simp only [if_neg hij]


/-! ## Theorems: freshness flags -/

theorem interpolateVelocity_fresh {α : Type} (NDEBUG : Bool) (equalEps : α → α → Bool)
    (st : TransferState α) (u_data_idx : Int) (data_time : α)
    (h : st.d_lag_velvec_is_initialized = true)
    (ht : timeAssertFails NDEBUG equalEps data_time st.d_half_time = false) :
    interpolateVelocity NDEBUG equalEps st u_data_idx data_time =
      Except.ok { st with
        interp_calls := st.interp_calls ++
          [{ u_data_idx := u_data_idx, U_data_time := st.d_half_time,
             X_data_time := st.d_half_time, data_time := data_time }]
        d_lag_velvec_is_initialized := false } := by
  unfold interpolateVelocity
  simp only [h, ht, if_true, Bool.false_eq_true, if_false]

theorem interpolateVelocity_stale {α : Type} (NDEBUG : Bool) (equalEps : α → α → Bool)
    (st : TransferState α) (u_data_idx : Int) (data_time : α)
    (h : st.d_lag_velvec_is_initialized = false) :
    interpolateVelocity NDEBUG equalEps st u_data_idx data_time = Except.ok st := by
  unfold interpolateVelocity
  simp [h]

theorem setConstraintForce_ok {α : Type} [Field α] (NDEBUG : Bool)
    (equalEps : α → α → Bool) (st : TransferState α) (L : Int → α) (data_time scale : α)
    (ht : timeAssertFails NDEBUG equalEps data_time st.d_half_time = false) :
    setConstraintForce NDEBUG equalEps st L data_time scale =
      Except.ok { st with
        F_half := fun i => scale * L i
        F_half_needs_ghost_fill := true
        d_constraint_force_is_initialized := true } := by
  unfold setConstraintForce
  simp only [ht, Bool.false_eq_true, if_false]

/-- C13: `interpolateVelocity` is gated by the velocity-pending flag: when
the flag is false the call is a no-op (nothing is delegated and the state is
unchanged); when the flag is true (and the time assertion passes) the call
delegates exactly one interpolation onto the half-step marker velocity at
the half-step positions, changes nothing else and leaves the flag false, so
that an immediately repeated call is a no-op. -/
theorem interpolateVelocity_gated {α : Type} (NDEBUG : Bool) (equalEps : α → α → Bool)
    (st : TransferState α) (u_data_idx : Int) (data_time : α) :
    (st.d_lag_velvec_is_initialized = false →
      interpolateVelocity NDEBUG equalEps st u_data_idx data_time = Except.ok st) ∧
    (st.d_lag_velvec_is_initialized = true →
      timeAssertFails NDEBUG equalEps data_time st.d_half_time = false →
      ∃ st' : TransferState α,
        interpolateVelocity NDEBUG equalEps st u_data_idx data_time = Except.ok st' ∧
        st'.interp_calls = st.interp_calls ++
          [{ u_data_idx := u_data_idx, U_data_time := st.d_half_time,
             X_data_time := st.d_half_time, data_time := data_time }] ∧
        st'.d_lag_velvec_is_initialized = false ∧
        st'.d_constraint_force_is_initialized = st.d_constraint_force_is_initialized ∧
        st'.d_half_time = st.d_half_time ∧
        st'.F_half = st.F_half ∧
        st'.F_half_needs_ghost_fill = st.F_half_needs_ghost_fill ∧
        st'.spread_calls = st.spread_calls ∧
        ∀ (u_data_idx' : Int) (data_time' : α),
          interpolateVelocity NDEBUG equalEps st' u_data_idx' data_time' = Except.ok st') := by
  constructor
  · exact interpolateVelocity_stale NDEBUG equalEps st u_data_idx data_time
  · intro h ht
    refine ⟨_, interpolateVelocity_fresh NDEBUG equalEps st u_data_idx data_time h ht,
      rfl, rfl, rfl, rfl, rfl, rfl, rfl, ?_⟩
    intro u' t'
    exact interpolateVelocity_stale NDEBUG equalEps _ u' t' rfl

theorem spreadForce_fresh {α : Type} (NDEBUG : Bool) (equalEps : α → α → Bool)
    (st : TransferState α) (f_data_idx : Int) (data_time : α)
    (h : st.d_constraint_force_is_initialized = true)
    (ht : timeAssertFails NDEBUG equalEps data_time st.d_half_time = false) :
    spreadForce NDEBUG equalEps st f_data_idx data_time =
      Except.ok { st with
        spread_calls := st.spread_calls ++ [{ f_data_idx := f_data_idx, data_time := data_time }]
        d_constraint_force_is_initialized := false } := by
  unfold spreadForce
  simp only [h, ht, if_true, Bool.false_eq_true, if_false]

theorem spreadForce_stale {α : Type} (NDEBUG : Bool) (equalEps : α → α → Bool)
    (st : TransferState α) (f_data_idx : Int) (data_time : α)
    (h : st.d_constraint_force_is_initialized = false) :
    spreadForce NDEBUG equalEps st f_data_idx data_time = Except.ok st := by
  unfold spreadForce
  simp [h]

theorem spreadForceSeq_stale {α : Type} (NDEBUG : Bool) (equalEps : α → α → Bool)
    (st : TransferState α) (calls : List (Int × α))
    (h : st.d_constraint_force_is_initialized = false) :
    spreadForceSeq NDEBUG equalEps st calls = Except.ok st := by
  induction calls with
  | nil => rfl
  | cons c cs ih =>
    unfold spreadForceSeq
    rw [spreadForce_stale NDEBUG equalEps st c.1 c.2 h]
    exact ih

/-- C14: the force-fresh flag is consumed exactly once: after one
`setConstraintForce` call, any sequence of `k >= 1` `spreadForce` calls at the
half-step time performs the underlying spread exactly once, with the
arguments of the first call, and ends with the flag false; a `spreadForce`
call made while the flag is false spreads nothing and changes no state. -/
theorem spreadForce_consumed_once {α : Type} [Field α] (NDEBUG : Bool)
    (equalEps : α → α → Bool) (st : TransferState α) (L : Int → α) (data_time scale : α)
    (hset : timeAssertFails NDEBUG equalEps data_time st.d_half_time = false) :
    ∃ st1 : TransferState α,
      setConstraintForce NDEBUG equalEps st L data_time scale = Except.ok st1 ∧
      st1.d_constraint_force_is_initialized = true ∧
      st1.spread_calls = st.spread_calls ∧
      (∀ (call : Int × α) (calls : List (Int × α)),
        (∀ c ∈ call :: calls, timeAssertFails NDEBUG equalEps c.2 st1.d_half_time = false) →
        spreadForceSeq NDEBUG equalEps st1 (call :: calls) =
          Except.ok { st1 with
            spread_calls := st.spread_calls ++ [{ f_data_idx := call.1, data_time := call.2 }]
            d_constraint_force_is_initialized := false }) ∧
      (∀ (st2 : TransferState α) (f_data_idx : Int) (t : α),
        st2.d_constraint_force_is_initialized = false →
        spreadForce NDEBUG equalEps st2 f_data_idx t = Except.ok st2) := by
  refine ⟨_, setConstraintForce_ok NDEBUG equalEps st L data_time scale hset, rfl, rfl, ?_, ?_⟩
  · intro call calls hall
    unfold spreadForceSeq
    rw [spreadForce_fresh NDEBUG equalEps _ call.1 call.2 rfl
      (hall call (List.mem_cons_self _ _))]
    simp only []
    rw [spreadForceSeq_stale NDEBUG equalEps _ calls rfl]
  · intro st2 f t h
    exact spreadForce_stale NDEBUG equalEps st2 f t h

/-- C15 (amended): in a build with assertions enabled (`NDEBUG` undefined),
every call of `interpolateVelocity` made while the velocity-pending flag is
true and whose `data_time` is not equal (within floating-point epsilon) to
the half-step time fails fatally. -/
theorem interpolateVelocity_time_check {α : Type} (equalEps : α → α → Bool)
    (st : TransferState α) (u_data_idx : Int) (data_time : α)
    (hflag : st.d_lag_velvec_is_initialized = true)
    (htime : equalEps data_time st.d_half_time = false) :
    interpolateVelocity false equalEps st u_data_idx data_time = Except.error Abort.assertion := by
  unfold interpolateVelocity timeAssertFails
  simp [hflag, htime]

/-- C16: `trapezoidalStep` fails fatally for every pair of arguments and
every state: it never returns, so it returns no modified state. -/
theorem trapezoidalStep_fails {α : Type} (st : CIBState α) (current_time new_time : α) :
    trapezoidalStep st current_time new_time = Except.error Abort.error ∧
    ∀ st' : CIBState α, trapezoidalStep st current_time new_time ≠ Except.ok st' := by
  constructor
  · rfl
  · intro st' h
    unfold trapezoidalStep at h
    cases h

/-- C17: for every `L`, `scale` and `data_time` equal (within epsilon) to the
half-step time, `setConstraintForce(L, data_time, scale)` leaves the
half-step force buffer equal to `scale * L` entry by entry, marks the
half-step force as needing a ghost fill and sets the force-fresh flag; the
other members are unchanged. -/
theorem setConstraintForce_spec {α : Type} [Field α] (NDEBUG : Bool)
    (equalEps : α → α → Bool) (st : TransferState α) (L : Int → α) (data_time scale : α)
    (htime : equalEps data_time st.d_half_time = true) :
    ∃ st' : TransferState α,
      setConstraintForce NDEBUG equalEps st L data_time scale = Except.ok st' ∧
      (∀ i : Int, st'.F_half i = scale * L i) ∧
      st'.F_half_needs_ghost_fill = true ∧
      st'.d_constraint_force_is_initialized = true ∧
      st'.d_lag_velvec_is_initialized = st.d_lag_velvec_is_initialized ∧
      st'.d_half_time = st.d_half_time ∧
      st'.interp_calls = st.interp_calls ∧
      st'.spread_calls = st.spread_calls := by
  have hf : timeAssertFails NDEBUG equalEps data_time st.d_half_time = false := by
    unfold timeAssertFails
    simp [htime]
  exact ⟨_, setConstraintForce_ok NDEBUG equalEps st L data_time scale hf,
    fun _ => rfl, rfl, rfl, rfl, rfl, rfl, rfl⟩

/-- Witness for C12: one structure of two markers in 2-D, RPY type. -/
theorem generateMobilityMatrix_spec_witness :
    ∃ Kmat M : Int → ℚ,
      mobilityKernel (sampleKernels ℚ) MobilityMatrixType.RPY "IB_4" 3 1 1 (fun _ => 1)
        (fun _ => 1)
        (copyVecToArray [((0 : Int), (2 : Int))] (fun l => l) (fun i => (i : ℚ)) (fun _ => 0) [0]
          ((2 : Nat) : Int))
        (totalNodes [((0 : Int), (2 : Int))] [0]) 0 (fun _ => 0) = Except.ok Kmat ∧
      generateMobilityMatrix (sampleKernels ℚ) 2 [((0 : Int), (2 : Int))] (fun l => l) "IB_4" 1
        (fun i => (i : ℚ)) (fun i => 100 + (i : ℚ)) MobilityMatrixType.RPY (fun _ => 0) [0]
        (fun _ => 1) (fun _ => 1) 1 3 (2, 5) 0 = Except.ok M ∧
      ∀ i j : Nat, i < totalNodes [((0 : Int), (2 : Int))] [0] * 2 →
        j < totalNodes [((0 : Int), (2 : Int))] [0] * 2 →
        M ((i : Int) * ((totalNodes [((0 : Int), (2 : Int))] [0] * 2 : Nat) : Int) + (j : Int)) =
          ((2 : ℚ), (5 : ℚ)).1 *
              Kmat ((i : Int) * ((totalNodes [((0 : Int), (2 : Int))] [0] * 2 : Nat) : Int) +
                (j : Int)) +
            if i = j then
              ((2 : ℚ), (5 : ℚ)).2 *
                copyVecToArray [((0 : Int), (2 : Int))] (fun l => l) (fun i => 100 + (i : ℚ))
                  (fun _ => 0) [0] ((2 : Nat) : Int) (i : Int)
            else 0 :=
  generateMobilityMatrix_spec (sampleKernels ℚ) 2 [((0 : Int), (2 : Int))] (fun l => l) "IB_4" 1
    (fun i => (i : ℚ)) (fun i => 100 + (i : ℚ)) MobilityMatrixType.RPY (fun _ => 0) [0]
    (fun _ => 1) (fun _ => 1) 1 3 (2, 5) 0 (by decide)

/-- Witness for C14: a debug build, exact comparison of times, two spreads at
the half-step time `1/2` after `setConstraintForce`. -/
theorem spreadForce_consumed_once_witness :
    ∃ st1 : TransferState ℚ,
      setConstraintForce false (fun a b => decide (a = b)) (transferScenario ℚ false false)
        (fun i => (i : ℚ)) (1 / 2) 3 = Except.ok st1 ∧
      spreadForceSeq false (fun a b => decide (a = b)) st1 [(7, 1 / 2), (8, 1 / 2)] =
        Except.ok { st1 with
          spread_calls := (transferScenario ℚ false false).spread_calls ++
            [{ f_data_idx := 7, data_time := 1 / 2 }]
          d_constraint_force_is_initialized := false } := by
  obtain ⟨st1, h1, _, _, h4, _⟩ :=
    spreadForce_consumed_once false (fun a b : ℚ => decide (a = b))
      (transferScenario ℚ false false) (fun i => (i : ℚ)) (1 / 2) 3
      (by simp [timeAssertFails, transferScenario])
  refine ⟨st1, h1, h4 (7, 1 / 2) [(8, 1 / 2)] ?_⟩
  have hst : st1.d_half_time = 1 / 2 := by
    rw [setConstraintForce_ok false _ _ _ _ _ (by simp [timeAssertFails, transferScenario])] at h1
    cases h1
    rfl
  intro c hc
  simp only [List.mem_cons, List.mem_singleton, List.not_mem_nil, or_false] at hc
  rcases hc with rfl | rfl <;> simp [timeAssertFails, hst]

/-- Counterexample for C15 as stated: the time `1` is not equal to the
half-step time `1/2`, and yet the call returns normally, as a no-op, when the
velocity-pending flag is false (even in a build with assertions), and
returns normally after interpolating when the flag is true in a release
build (`NDEBUG` defined). -/
theorem interpolateVelocity_time_counterexample :
    (fun a b : ℚ => decide (a = b)) 1 (transferScenario ℚ false false).d_half_time = false ∧
    interpolateVelocity false (fun a b : ℚ => decide (a = b)) (transferScenario ℚ false false)
        0 1 = Except.ok (transferScenario ℚ false false) ∧
    ∃ st' : TransferState ℚ,
      interpolateVelocity true (fun a b : ℚ => decide (a = b)) (transferScenario ℚ true false)
        0 1 = Except.ok st' := by
  refine ⟨by simp [transferScenario], interpolateVelocity_stale _ _ _ _ _ rfl,
    _, interpolateVelocity_fresh true _ _ 0 1 rfl rfl⟩

/-- Witness for C15 (amended): a debug build, flag true, time `1` against `1/2`. -/
theorem interpolateVelocity_time_check_witness :
    interpolateVelocity false (fun a b : ℚ => decide (a = b)) (transferScenario ℚ true false)
      0 1 = Except.error Abort.assertion :=
  interpolateVelocity_time_check (fun a b : ℚ => decide (a = b)) (transferScenario ℚ true false)
    0 1 rfl (by simp [transferScenario])

/-- Witness for C17: exact comparison of times, `data_time = 1/2`, `scale = 3`. -/
theorem setConstraintForce_spec_witness :
    ∃ st' : TransferState ℚ,
      setConstraintForce false (fun a b => decide (a = b)) (transferScenario ℚ false false)
        (fun i => (i : ℚ)) (1 / 2) 3 = Except.ok st' ∧
      (∀ i : Int, st'.F_half i = 3 * (fun i : Int => (i : ℚ)) i) ∧
      st'.F_half_needs_ghost_fill = true ∧
      st'.d_constraint_force_is_initialized = true ∧
      st'.d_lag_velvec_is_initialized =
        (transferScenario ℚ false false).d_lag_velvec_is_initialized ∧
      st'.d_half_time = (transferScenario ℚ false false).d_half_time ∧
      st'.interp_calls = (transferScenario ℚ false false).interp_calls ∧
      st'.spread_calls = (transferScenario ℚ false false).spread_calls :=
  setConstraintForce_spec false (fun a b : ℚ => decide (a = b)) (transferScenario ℚ false false)
    (fun i => (i : ℚ)) (1 / 2) 3 (by simp [transferScenario])

/-! ## Theorems: mean constraint force -/

theorem sumInner_apply {α : Type} [Field α] (NDIM : Nat) (L : Int → α) (k : Nat) (m : Nat)
    (F : Nat → α) (x : Nat) :
    ((List.range m).foldl (fun (F : Nat → α) (d : Nat) =>
      fun x => if x = d then F x + L ((k : Int) * (NDIM : Int) + (d : Int)) else F x) F) x =
      if x < m then F x + L ((k : Int) * (NDIM : Int) + (x : Int)) else F x := by
  induction m with
  | zero => simp
  | succ m ih =>
    rw [List.range_succ, List.foldl_append, List.foldl_cons, List.foldl_nil]
    by_cases hx : x = m
    · subst hx
      simp [ih]
    · simp only [if_neg hx, ih]
      by_cases hlt : x < m
      · simp [hlt, Nat.lt_succ_of_lt hlt]
      · have : ¬ x < m + 1 := by omega
        simp [hlt, this]

theorem sumConstraintForce_apply {α : Type} [Field α] (NDIM : Nat) (L : Int → α) (n : Nat)
    (x : Nat) :
    sumConstraintForce NDIM L n x =
      if x < NDIM then
        ((List.range n).map (fun k : Nat => L ((k : Int) * (NDIM : Int) + (x : Int)))).sum
      else 0 := by
  unfold sumConstraintForce
  induction n with
  | zero => simp
  | succ n ih =>
    rw [List.range_succ, List.foldl_append, List.foldl_cons, List.foldl_nil, sumInner_apply, ih]
    by_cases hx : x < NDIM
    · simp [hx]
    · simp [hx]

theorem patchInner_apply {α : Type} [Field α] (axis : Nat) (c : α) (l : List SideIndex)
    (p : PatchSideData α) :
    (l.foldl (fun (p : PatchSideData α) (i : SideIndex) =>
        { p with data := fun a x => if a = axis ∧ x = i then p.data a x - c else p.data a x })
      p).sideIndices = p.sideIndices ∧
    ∀ a x, (l.foldl (fun (p : PatchSideData α) (i : SideIndex) =>
        { p with data := fun a x => if a = axis ∧ x = i then p.data a x - c else p.data a x })
      p).data a x = if a = axis then p.data a x - (l.count x : α) * c else p.data a x := by
  induction l generalizing p with
  | nil => simp
  | cons i rest ih =>
    rw [List.foldl_cons]
    obtain ⟨h1, h2⟩ := ih { p with data := fun a x =>
      if a = axis ∧ x = i then p.data a x - c else p.data a x }
    refine ⟨h1, ?_⟩
    intro a x
    rw [h2]
    by_cases ha : a = axis
    · simp only [ha, true_and, if_true]
      by_cases hx : x = i
      · subst hx
        simp only [if_true, List.count_cons_self]
        push_cast
        ring
      · have hne : i ≠ x := fun h => hx h.symm
        have hc : List.count x (i :: rest) = List.count x rest := by
          simp [List.count_cons, hne]
        simp only [if_neg hx, hc]
    · simp [ha]

theorem subtractMeanPatch_apply {α : Type} [Field α] (NDIM : Nat) (F : Nat → α) (V : α)
    (p : PatchSideData α) :
    (subtractMeanPatch NDIM F V p).sideIndices = p.sideIndices ∧
    ∀ a x, (subtractMeanPatch NDIM F V p).data a x =
      if a < NDIM then p.data a x - ((p.sideIndices a).count x : α) * (F a / V)
      else p.data a x := by
  unfold subtractMeanPatch
  induction NDIM with
  | zero => simp
  | succ m ih =>
    rw [List.range_succ, List.foldl_append, List.foldl_cons, List.foldl_nil]
    obtain ⟨h1, h2⟩ := ih
    obtain ⟨g1, g2⟩ := patchInner_apply m (F m / V)
      (((List.range m).foldl (fun (p : PatchSideData α) (axis : Nat) =>
        (p.sideIndices axis).foldl (fun (p : PatchSideData α) (i : SideIndex) =>
          { p with data := fun a x =>
              if a = axis ∧ x = i then p.data a x - F axis / V else p.data a x }) p) p).sideIndices m)
      ((List.range m).foldl (fun (p : PatchSideData α) (axis : Nat) =>
        (p.sideIndices axis).foldl (fun (p : PatchSideData α) (i : SideIndex) =>
          { p with data := fun a x =>
              if a = axis ∧ x = i then p.data a x - F axis / V else p.data a x }) p) p)
    refine ⟨g1.trans h1, ?_⟩
    intro a x
    rw [g2, h2, h1]
    by_cases ha : a = m
    · subst ha
      simp
    · by_cases hlt : a < m
      · simp [ha, hlt, Nat.lt_succ_of_lt hlt]
      · have : ¬ a < m + 1 := by omega
        simp [ha, hlt, this]

theorem sum_map_mul_left' {α : Type} [Field α] {β : Type} (l : List β) (c : α) (f : β → α) :
    (l.map (fun k => c * f k)).sum = c * (l.map f).sum := by
  induction l with
  | nil => simp
  | cons a rest ih => simp only [List.map_cons, List.sum_cons, ih]; ring

theorem count_eq_one_of_nodup {β : Type} [BEq β] [LawfulBEq β] (l : List β) (x : β)
    (hnd : l.Nodup) (hx : x ∈ l) : l.count x = 1 := by
  induction l with
  | nil => simp at hx
  | cons a rest ih =>
    rw [List.nodup_cons] at hnd
    rw [List.count_cons]
    rcases List.mem_cons.mp hx with rfl | hmem
    · have : List.count x rest = 0 := List.count_eq_zero.mpr hnd.1
      simp [this]
    · have hne : a ≠ x := by
        intro h; subst h; exact hnd.1 hmem
      simp [ih hnd.2 hmem, hne]

theorem subtractMean_aux {α : Type} [Field α] (NDIM : Nat) (vol_domain : α) (L : Int → α)
    (local_size_L : Nat) (hierarchy : List (List (PatchSideData α))) (scale : α)
    (ln pn : Nat) (level : List (PatchSideData α)) (patch : PatchSideData α)
    (hln : hierarchy[ln]? = some level) (hpn : level[pn]? = some patch) :
    ∃ (level' : List (PatchSideData α)) (patch' : PatchSideData α),
      (subtractMeanConstraintForce NDIM vol_domain L local_size_L hierarchy scale).2[ln]? =
        some level' ∧
      level'[pn]? = some patch' ∧
      patch'.sideIndices = patch.sideIndices ∧
      ∀ axis : Nat, axis < NDIM → (patch.sideIndices axis).Nodup →
        ∀ i ∈ patch.sideIndices axis,
          patch'.data axis i = patch.data axis i -
            scale * ((List.range (local_size_L / NDIM)).map
              (fun k : Nat => L ((k : Int) * (NDIM : Int) + (axis : Int)))).sum / vol_domain := by
  refine ⟨level.map (subtractMeanPatch NDIM
      (sumConstraintForce NDIM (fun i => scale * L i) (local_size_L / NDIM)) vol_domain),
    subtractMeanPatch NDIM
      (sumConstraintForce NDIM (fun i => scale * L i) (local_size_L / NDIM)) vol_domain patch,
    ?_, ?_, ?_, ?_⟩
  · unfold subtractMeanConstraintForce
    simp only [List.getElem?_map, hln, Option.map_some']
  · simp only [List.getElem?_map, hpn, Option.map_some']
  · exact (subtractMeanPatch_apply _ _ _ _).1
  · intro axis haxis hnd i hi
    rw [(subtractMeanPatch_apply _ _ _ _).2, if_pos haxis, count_eq_one_of_nodup _ _ hnd hi,
      sumConstraintForce_apply, if_pos haxis, sum_map_mul_left']
    simp

/-- C18: for every `L`, `scale` and domain volume `V != 0`,
`subtractMeanConstraintForce(L, f_data_idx, scale)` decreases every
side-centered sample of component `axis` of the Eulerian force field, on
every patch of every level, by exactly
`(scale * sum over all markers k of L[k][axis]) / V` (each side being visited
once by the side iterator); in the scenario of `N` markers each carrying
`(1,0,0)` with `scale = 1`, a force field uniformly equal to `(N/V, 0, 0)`
becomes identically zero. -/
theorem subtractMeanConstraintForce_spec {α : Type} [Field α] (NDIM : Nat) (vol_domain : α)
    (L : Int → α) (local_size_L : Nat) (hierarchy : List (List (PatchSideData α))) (scale : α)
    (ln pn : Nat) (level : List (PatchSideData α)) (patch : PatchSideData α)
    (hV : vol_domain ≠ 0)
    (hln : hierarchy[ln]? = some level) (hpn : level[pn]? = some patch)
    (hnd : ∀ axis : Nat, axis < NDIM → (patch.sideIndices axis).Nodup) :
    ∃ (level' : List (PatchSideData α)) (patch' : PatchSideData α),
      (subtractMeanConstraintForce NDIM vol_domain L local_size_L hierarchy scale).2[ln]? =
        some level' ∧
      level'[pn]? = some patch' ∧
      patch'.sideIndices = patch.sideIndices ∧
      (∀ axis : Nat, axis < NDIM → ∀ i ∈ patch.sideIndices axis,
        patch'.data axis i = patch.data axis i -
          scale * ((List.range (local_size_L / NDIM)).map
            (fun k : Nat => L ((k : Int) * (NDIM : Int) + (axis : Int)))).sum / vol_domain) ∧
      (∀ N : Nat, 0 < NDIM → local_size_L = N * NDIM → scale = 1 →
        (∀ k : Nat, k < N → ∀ d : Nat, d < NDIM →
          L ((k : Int) * (NDIM : Int) + (d : Int)) = if d = 0 then 1 else 0) →
        (∀ axis : Nat, axis < NDIM → ∀ i ∈ patch.sideIndices axis,
          patch.data axis i = if axis = 0 then (N : α) / vol_domain else 0) →
        ∀ axis : Nat, axis < NDIM → ∀ i ∈ patch.sideIndices axis, patch'.data axis i = 0) := by
  obtain ⟨level', patch', h1, h2, h3, h4⟩ :=
    subtractMean_aux NDIM vol_domain L local_size_L hierarchy scale ln pn level patch hln hpn
  refine ⟨level', patch', h1, h2, h3, fun axis ha i hi => h4 axis ha (hnd axis ha) i hi, ?_⟩
  intro N hpos hsize hscale hL hdata axis ha i hi
  rw [h4 axis ha (hnd axis ha) i hi, hdata axis ha i hi, hscale, hsize,
    Nat.mul_div_cancel _ hpos]
  have hsum : ((List.range N).map
      (fun k : Nat => L ((k : Int) * (NDIM : Int) + (axis : Int)))).sum =
      if axis = 0 then (N : α) else 0 := by
    have hcongr : (List.range N).map
        (fun k : Nat => L ((k : Int) * (NDIM : Int) + (axis : Int))) =
        (List.range N).map (fun _ : Nat => if axis = 0 then (1 : α) else 0) := by
      apply List.map_congr_left
      intro k hk
      exact hL k (List.mem_range.mp hk) axis ha
    rw [hcongr, sum_map_const_mul]
    by_cases h0 : axis = 0
    · simp [h0]
    · simp [h0]
  rw [hsum]
  by_cases h0 : axis = 0
  · simp [h0]
  · simp [h0]

theorem subtractMean_L {α : Type} [Field α] (NDIM : Nat) (vol_domain : α)
    (L : Int → α) (local_size_L : Nat) (hierarchy : List (List (PatchSideData α))) (scale : α)
    (i : Int) :
    (subtractMeanConstraintForce NDIM vol_domain L local_size_L hierarchy scale).1 i =
      1 / scale * (scale * L i) := rfl

theorem subtractMean_restores {α : Type} [Field α] (NDIM : Nat) (vol_domain : α)
    (L : Int → α) (local_size_L : Nat) (hierarchy : List (List (PatchSideData α))) (scale : α)
    (hscale : scale ≠ 0) :
    (subtractMeanConstraintForce NDIM vol_domain L local_size_L hierarchy scale).1 = L := by
  funext i
  rw [subtractMean_L]
  field_simp

/-- C19, the code at the failing input `scale = 0`: the vector
`L = (0, 1, 2, ..)` is left equal to zero at the index 1, not restored to the
value 1 it held before the call. -/
theorem subtractMean_scale_zero_not_restored :
    (subtractMeanConstraintForce 3 2 (fun i : Int => (i : ℚ)) 6 [] 0).1 1 = 0 ∧
    (subtractMeanConstraintForce 3 2 (fun i : Int => (i : ℚ)) 6 [] 0).1 1 ≠
      (fun i : Int => (i : ℚ)) 1 := by
  rw [subtractMean_L]
  norm_num

theorem comLevel_single {α : Type} [Field α] (NDIM : Nat) (r : Int × Int)
    (X_data : LevelData α → LDataArray α) (lev : LevelData α)
    (hlev : lev.levelContainsLagrangianData = true)
    (hone : lev.structIDs.length = 1) (N : Nat)
    (hnodes : lev.local_nodes.length = N) (hrange : r.2 - r.1 = (N : Int))
    (hfit : r.2 - r.1 < 2 ^ 31)
    (com : Int → Vector3d α) (hcom : com 0 = 0) :
    comLevelStep NDIM [r] X_data com lev 0 =
      meanPosition NDIM (X_data lev) lev.local_nodes := by
  funext d
  unfold comLevelStep comDivide
  simp only [hlev, Bool.not_true, Bool.false_eq_true, if_false, hone]
  have h0 : (0 : Int) ≤ 0 ∧ (0 : Int) < ((1 : Nat) : Int) := by decide
  rw [if_pos h0, comFold_apply, hcom]
  have hfilter : lev.local_nodes.filter (fun n => structHandle [r] 1 n.lag_idx = 0) =
      lev.local_nodes := by
    rw [List.filter_eq_self]
    intro n _
    simp [structHandle]
  have hN : toInt (getNumberOfNodes [r] (0 : Int).toNat) = (N : Int) := by
    unfold getNumberOfNodes rangeOf
    simp only [Int.toNat_zero, List.getD_cons_zero]
    rw [toInt_toUnsigned _ (by omega) hfit, hrange]
  rw [hfilter, hN]
  unfold meanPosition
  rw [hnodes]
  by_cases hd : d.val < NDIM
  · simp [hd]
  · simp [hd]

theorem sum_eq_zero_of_symmetric {α : Type} [Field α] [CharZero α] (l : List α)
    (h : l.Perm (l.map (fun x => -x))) : l.sum = 0 := by
  have h1 : l.sum = (l.map (fun x => -x)).sum := h.sum_eq
  have h2 : (l.map (fun x => -x)).sum = -l.sum := by
    induction l with
    | nil => simp
    | cons a rest ih =>
      clear ih h h1
      simp only [List.map_cons, List.sum_cons]
      have : ∀ l' : List α, (l'.map (fun x => -x)).sum = -l'.sum := by
        intro l'
        induction l' with
        | nil => simp
        | cons b r ih2 => simp only [List.map_cons, List.sum_cons, ih2]; ring
      rw [this]; ring
  rw [h2] at h1
  have h3 : (2 : α) * l.sum = 0 := by linear_combination h1
  rcases mul_eq_zero.mp h3 with h | h
  · exact absurd h two_ne_zero
  · exact h

/-- C20: `computeCOMandMOIOfStructures` on a single structure of `N >= 1`
markers, all on one level, sets the center of mass to the arithmetic mean
`(1/N) * sum` of the marker positions; in particular, for a marker set
symmetric about the origin (the positions and their negatives are the same
collection) the center of mass is `(0,0,0)`. -/
theorem computeCOM_single_structure {α : Type} [Field α] [CharZero α] (NDIM : Nat)
    (r : Int × Int) (X_data : LevelData α → LDataArray α)
    (pre post : List (LevelData α)) (lev : LevelData α)
    (com : Int → Vector3d α) (moi : Int → Matrix3d α)
    (hpre : ∀ l ∈ pre, l.levelContainsLagrangianData = false)
    (hpost : ∀ l ∈ post, l.levelContainsLagrangianData = false)
    (hlev : lev.levelContainsLagrangianData = true)
    (hone : lev.structIDs.length = 1) (N : Nat) (hN : 1 ≤ N)
    (hnodes : lev.local_nodes.length = N) (hrange : r.2 - r.1 = (N : Int))
    (hfit : r.2 - r.1 < 2 ^ 31) :
    (computeCOMandMOIOfStructures NDIM [r] (pre ++ lev :: post) X_data com moi).1 0 =
        meanPosition NDIM (X_data lev) lev.local_nodes ∧
    ((lev.local_nodes.map (fun node => spatial NDIM (X_data lev node.local_idx))).Perm
        ((lev.local_nodes.map (fun node => spatial NDIM (X_data lev node.local_idx))).map
          (fun X => -X)) →
      (computeCOMandMOIOfStructures NDIM [r] (pre ++ lev :: post) X_data com moi).1 0 = 0) := by
  have hmean : (computeCOMandMOIOfStructures NDIM [r] (pre ++ lev :: post) X_data com moi).1 0 =
      meanPosition NDIM (X_data lev) lev.local_nodes := by
    unfold computeCOMandMOIOfStructures
    simp only []
    rw [foldl_single_active (comLevelStep NDIM [r] X_data)
      (fun l => l.levelContainsLagrangianData = true) _ pre post lev
      (fun y hy => by simp [hpre y hy]) (fun y hy => by simp [hpost y hy])]
    · apply comLevel_single NDIM r X_data lev hlev hone N hnodes hrange hfit
      simp
    · intro acc x hx
      unfold comLevelStep
      simp only [Bool.not_eq_true] at hx
      simp [hx]
  refine ⟨hmean, ?_⟩
  intro hsym
  rw [hmean]
  funext d
  unfold meanPosition
  by_cases hd : d.val < NDIM
  · rw [if_pos hd]
    have hp := hsym.map (fun v : Vector3d α => v d)
    simp only [List.map_map] at hp
    have hl : (lev.local_nodes.map (fun node => X_data lev node.local_idx d)) =
        lev.local_nodes.map ((fun v : Vector3d α => v d) ∘
          (fun node => spatial NDIM (X_data lev node.local_idx))) := by
      apply List.map_congr_left
      intro n _
      simp [spatial, hd]
    have hs := sum_eq_zero_of_symmetric
      (lev.local_nodes.map ((fun v : Vector3d α => v d) ∘
        (fun node => spatial NDIM (X_data lev node.local_idx))))
      (by
        have : (lev.local_nodes.map ((fun v : Vector3d α => v d) ∘
            (fun node => spatial NDIM (X_data lev node.local_idx)))).map (fun x => -x) =
            lev.local_nodes.map ((fun v : Vector3d α => v d) ∘ (fun X : Vector3d α => -X) ∘
              (fun node => spatial NDIM (X_data lev node.local_idx))) := by
          simp [List.map_map, Function.comp]
        rw [this]
        exact hp)
    rw [hl, hs]
    simp
  · rw [if_neg hd]
    rfl

/-- Witness for C18: one patch, `L = (0, 1, .., 5)` for two markers in 3-D,
`V = 2`, `scale = 1`. -/
theorem subtractMeanConstraintForce_spec_witness :
    ∃ (level' : List (PatchSideData ℚ)) (patch' : PatchSideData ℚ),
      (subtractMeanConstraintForce 3 2 (fun i : Int => (i : ℚ)) 6 [[samplePatch ℚ]] 1).2[0]? =
        some level' ∧
      level'[0]? = some patch' ∧
      patch'.sideIndices = (samplePatch ℚ).sideIndices ∧
      (∀ axis : Nat, axis < 3 → ∀ i ∈ (samplePatch ℚ).sideIndices axis,
        patch'.data axis i = (samplePatch ℚ).data axis i -
          1 * ((List.range (6 / 3)).map
            (fun k : Nat => (fun i : Int => (i : ℚ))
              ((k : Int) * ((3 : Nat) : Int) + (axis : Int)))).sum / 2) := by
  obtain ⟨level', patch', h1, h2, h3, h4, _⟩ :=
    subtractMeanConstraintForce_spec 3 2 (fun i : Int => (i : ℚ)) 6 [[samplePatch ℚ]] 1 0 0
      [samplePatch ℚ] (samplePatch ℚ) (by norm_num) rfl rfl
      (by
        intro axis _
        by_cases h : axis = 0
        · rw [h]; decide
        · unfold samplePatch
          simp [h])
  exact ⟨level', patch', h1, h2, h3, h4⟩

/-- Witness for C20: the four markers of the rotation scenario. -/
theorem computeCOM_single_structure_witness :
    (computeCOMandMOIOfStructures 3 [((0 : Int), (4 : Int))] ([] ++ scenarioLevel ℚ :: [])
        (fun lev => lev.X_current) (fun _ => 0) (fun _ => 0)).1 0 =
      meanPosition 3 ((fun lev : LevelData ℚ => lev.X_current) (scenarioLevel ℚ))
        (scenarioLevel ℚ).local_nodes ∧
    (((scenarioLevel ℚ).local_nodes.map (fun node => spatial 3
          ((fun lev : LevelData ℚ => lev.X_current) (scenarioLevel ℚ) node.local_idx))).Perm
        (((scenarioLevel ℚ).local_nodes.map (fun node => spatial 3
          ((fun lev : LevelData ℚ => lev.X_current) (scenarioLevel ℚ) node.local_idx))).map
          (fun X => -X)) →
      (computeCOMandMOIOfStructures 3 [((0 : Int), (4 : Int))] ([] ++ scenarioLevel ℚ :: [])
        (fun lev => lev.X_current) (fun _ => 0) (fun _ => 0)).1 0 = 0) :=
  computeCOM_single_structure 3 (0, 4) (fun lev => lev.X_current) [] [] (scenarioLevel ℚ)
    (fun _ => 0) (fun _ => 0) (by simp) (by simp) rfl rfl 4 (by decide) rfl (by decide)
    (by decide)

/-! ## Theorems: symmetry of the moment of inertia -/

theorem moiMirror_symm {α : Type} (n : Nat) (moi : Int → Matrix3d α) (s : Int)
    (hs : 0 ≤ s ∧ s < n) (i j : Fin 3) :
    moiMirror n moi s i j = moiMirror n moi s j i := by
  unfold moiMirror
  simp only [if_pos hs]
  fin_cases i <;> fin_cases j <;> simp [setEntry]

/-- C21: for every marker configuration (every hierarchy, every position
data, every incoming content of the output vectors, `NDIM` 2 or 3 or
anything else) and every structure `s` with `0 <= s < d_num_rigid_parts`,
the moment-of-inertia tensor that `computeCOMandMOIOfStructures` leaves for
`s` is symmetric: `M(i, j) = M(j, i)` for all `i, j` in `{0, 1, 2}`. -/
theorem computeMOI_symmetric {α : Type} [Field α] (NDIM : Nat) (ranges : List (Int × Int))
    (levels : List (LevelData α)) (X_data : LevelData α → LDataArray α)
    (center_of_mass : Int → Vector3d α) (moment_of_inertia : Int → Matrix3d α)
    (s : Int) (hs : 0 ≤ s ∧ s < ranges.length) (i j : Fin 3) :
    (computeCOMandMOIOfStructures NDIM ranges levels X_data center_of_mass
        moment_of_inertia).2 s i j =
      (computeCOMandMOIOfStructures NDIM ranges levels X_data center_of_mass
        moment_of_inertia).2 s j i := by
  unfold computeCOMandMOIOfStructures
  exact moiMirror_symm _ _ s hs i j

/-- Witness for C21: the rotation scenario, entries `(0, 1)` and `(1, 0)`. -/
theorem computeMOI_symmetric_witness :
    (computeCOMandMOIOfStructures 3 [((0 : Int), (4 : Int))] [scenarioLevel ℚ]
        (fun lev => lev.X_current) (fun _ => 0) (fun _ => 0)).2 0 0 1 =
      (computeCOMandMOIOfStructures 3 [((0 : Int), (4 : Int))] [scenarioLevel ℚ]
        (fun lev => lev.X_current) (fun _ => 0) (fun _ => 0)).2 0 1 0 :=
  computeMOI_symmetric 3 [((0 : Int), (4 : Int))] [scenarioLevel ℚ]
    (fun lev => lev.X_current) (fun _ => 0) (fun _ => 0) 0 (by decide) 0 1

/-! ## Theorems: index safety of the structure lookup -/

theorem structHandle_bounds (ranges : List (Int × Int)) (k : Nat) (lag_idx : Int)
    (hbelongs : ∃ r ∈ ranges, inRange r lag_idx) :
    0 ≤ structHandle ranges k lag_idx ∧
      structHandle ranges k lag_idx < (ranges.length : Int) := by
  obtain ⟨r, hr, hin⟩ := hbelongs
  have hlen : 0 < ranges.length := List.length_pos_of_mem hr
  unfold structHandle
  by_cases hk : k > 1
  · rw [if_pos hk]
    have hlt := getStructureHandleFrom_lt 0 ranges lag_idx
    have hge := getStructureHandleFrom_nonneg_or 0 ranges lag_idx
    have hne : getStructureHandleFrom 0 ranges lag_idx ≠ -1 := by
      intro h
      exact (getStructureHandleFrom_eq_neg_one 0 ranges lag_idx).mp h r hr hin
    unfold getStructureHandle
    simp only [Nat.zero_add, Nat.cast_zero] at hlt hge
    rcases hge with h | h
    · exact absurd h hne
    · exact ⟨h, hlt⟩
  · rw [if_neg hk]
    constructor
    · exact le_refl _
    · exact_mod_cast hlen

/-- C30: if the Lagrangian index of a marker lies in the range of some
structure, then the handle computed by the two lines
`int struct_handle = 0; if (structs_on_this_ln > 1) struct_handle = getStructureHandle(lag_idx);`
satisfies `0 <= struct_handle < d_num_rigid_parts`, is not the sentinel
`-1`, and is `0` (with no range lookup, whatever the table holds) when at
most one structure is on the level.  That handle is the only per-structure
index in use: the node steps of `computeCOMandMOIOfStructures` change the
center of mass and the moment of inertia of no other structure, and the node
step of `eulerStep` and `midpointStep` depends on the center of mass, the
rotation matrix and the translational velocity only through their entries at
the handle. -/
theorem structHandle_index_safe {α : Type} [Field α] (NDIM : Nat) (ranges : List (Int × Int))
    (structs_on_this_ln : Nat) (node : LNode)
    (hbelongs : ∃ r ∈ ranges, inRange r node.lag_idx) :
    (0 ≤ structHandle ranges structs_on_this_ln node.lag_idx ∧
      structHandle ranges structs_on_this_ln node.lag_idx < (ranges.length : Int)) ∧
    structHandle ranges structs_on_this_ln node.lag_idx ≠ -1 ∧
    (structs_on_this_ln ≤ 1 → ∀ table : List (Int × Int),
      structHandle table structs_on_this_ln node.lag_idx = 0) ∧
    (∀ (X : LDataArray α) (com : Int → Vector3d α) (s : Int),
      s ≠ structHandle ranges structs_on_this_ln node.lag_idx →
      comNodeStep NDIM ranges structs_on_this_ln X com node s = com s) ∧
    (∀ (X : LDataArray α) (com : Int → Vector3d α) (moi : Int → Matrix3d α) (s : Int),
      s ≠ structHandle ranges structs_on_this_ln node.lag_idx →
      moiNodeStep NDIM ranges structs_on_this_ln X com moi node s = moi s) ∧
    (∀ (com com' : Int → Vector3d α) (rot rot' : Int → Matrix3d α)
        (tv tv' : Int → Vector3d α) (sdt : α) (Xc X_out : LDataArray α),
      com (structHandle ranges structs_on_this_ln node.lag_idx) =
        com' (structHandle ranges structs_on_this_ln node.lag_idx) →
      rot (structHandle ranges structs_on_this_ln node.lag_idx) =
        rot' (structHandle ranges structs_on_this_ln node.lag_idx) →
      tv (structHandle ranges structs_on_this_ln node.lag_idx) =
        tv' (structHandle ranges structs_on_this_ln node.lag_idx) →
      stepNode NDIM ranges structs_on_this_ln com rot sdt tv Xc X_out node =
        stepNode NDIM ranges structs_on_this_ln com' rot' sdt tv' Xc X_out node) := by
  have hb := structHandle_bounds ranges structs_on_this_ln node.lag_idx hbelongs
  refine ⟨hb, ?_, ?_, ?_, ?_, ?_⟩
  · intro h
    rw [h] at hb
    omega
  · intro hk table
    unfold structHandle
    rw [if_neg (by omega)]
  · intro X com s hs
    unfold comNodeStep
    simp only [Function.update_noteq hs]
  · intro X com moi s hs
    unfold moiNodeStep
    simp only []
    split
    · simp only [Function.update_noteq hs]
    · split
      · simp only [Function.update_noteq hs]
      · rfl
  · intro com com' rot rot' tv tv' sdt Xc X_out h1 h2 h3
    unfold stepNode
    simp only [h1, h2, h3]

/-- Witness for C30: the table `[(0,4), (4,9)]`, two structures on the level
and a marker of Lagrangian index 5. -/
theorem structHandle_index_safe_witness :
    (0 ≤ structHandle [((0 : Int), (4 : Int)), (4, 9)] 2 (LNode.mk 5 0).lag_idx ∧
      structHandle [((0 : Int), (4 : Int)), (4, 9)] 2 (LNode.mk 5 0).lag_idx <
        (([((0 : Int), (4 : Int)), (4, 9)] : List (Int × Int)).length : Int)) ∧
    structHandle [((0 : Int), (4 : Int)), (4, 9)] 2 (LNode.mk 5 0).lag_idx ≠ -1 :=
  have h := structHandle_index_safe (α := ℚ) 3 [((0 : Int), (4 : Int)), (4, 9)] 2 (LNode.mk 5 0)
    ⟨(4, 9), by simp, by decide⟩
  ⟨h.1, h.2.1⟩

/-! ## Theorems: adjointness of the rigid velocity and the net force -/

theorem dotDOF_sum {α : Type} [Field α] {β : Type} (NDIM : Nat) (U : RigidDOFVector α)
    (l : List β) (f : β → RigidDOFVector α) :
    dotDOF NDIM U (fun k => (l.map (fun n => f n k)).sum) =
      (l.map (fun n => dotDOF NDIM U (f n))).sum := by
  induction l with
  | nil => simp [dotDOF]
  | cons a rest ih =>
    simp only [List.map_cons, List.sum_cons]
    rw [← ih]
    unfold dotDOF
    rw [← Finset.sum_add_distrib]
    apply Finset.sum_congr rfl
    intro k _
    split_ifs
    · ring
    · ring

theorem adjoint_node {α : Type} [Field α] (NDIM : Nat) (hdim : NDIM = 2 ∨ NDIM = 3)
    (U : RigidDOFVector α) (X Xc row P : Vector3d α) :
    dotSpatial NDIM (rigidRow NDIM U X Xc row) P =
      dotDOF NDIM U (forceContribution NDIM P X Xc) := by
  have h5 : ∀ (a b c d e f : α), (![a, b, c, d, e, f] : Fin 6 → α) 5 = f := fun _ _ _ _ _ _ => rfl
  have v5 : ((5 : Fin 6) : Nat) = 5 := rfl
  rcases hdim with h | h
  · subst h
    simp [dotSpatial, dotDOF, rigidRow, forceContribution, Fin.sum_univ_three, Fin.sum_univ_six,
      h5, v5]
    ring
  · subst h
    simp [dotSpatial, dotDOF, rigidRow, forceContribution, Fin.sum_univ_three, Fin.sum_univ_six,
      h5, v5]
    ring

/-- C27: for every structure `part` without a nodal velocity function, every
generalized velocity `U` and every per-marker field `P`, with
`V = setRigidBodyVelocity(part, U)` and
`F = computeNetRigidGeneralizedForce(part, P)` (both reading the same
`X_half` and `COM_half[part]`), the sum over the markers of the structure of
`V_i . P_i` equals `U . F`, the dot product of the generalized vectors over
their 6 components in 3-D and 3 components in 2-D. -/
theorem velocity_force_adjoint {α : Type} [Field α] (st : CIBState α) (part : Nat)
    (U : RigidDOFVector α) (P V_in : LDataArray α) (F_in : RigidDOFVector α)
    (lev : LevelData α)
    (hlast : st.levels.getLast? = some lev) (hfcn : st.nodalvelfcn part = none)
    (hdisj : PairwiseDisjoint st.d_struct_lag_idx_range)
    (hpart : part < st.d_num_rigid_parts) (hlen : st.d_num_rigid_parts < 2 ^ 32)
    (hdim : st.NDIM = 2 ∨ st.NDIM = 3) :
    ((markersOf st.d_struct_lag_idx_range part lev.local_nodes).map
        (fun node => dotSpatial st.NDIM (setRigidBodyVelocity st part U V_in node.local_idx)
          (P node.local_idx))).sum =
      dotDOF st.NDIM U (computeNetRigidGeneralizedForce st part P F_in) := by
  have hF : computeNetRigidGeneralizedForce st part P F_in =
      fun k => ((markersOf st.d_struct_lag_idx_range part lev.local_nodes).map
        (fun node => forceContribution st.NDIM (P node.local_idx) (lev.X_half node.local_idx)
          (st.d_center_of_mass_half part) k)).sum := by
    funext k
    exact computeNetRigidGeneralizedForce_apply st part P F_in lev hlast hdisj hpart hlen k
  rw [hF, dotDOF_sum]
  congr 1
  apply List.map_congr_left
  intro node hnode
  rw [mem_markersOf] at hnode
  rw [setRigidBodyVelocity_apply st part U V_in lev hlast hfcn,
    if_pos ⟨node, hnode.1, hnode.2, rfl⟩]
  exact adjoint_node st.NDIM hdim U _ _ _ _

/-- Witness for C27: the rotation scenario over the rationals,
`U = (1,2,3,4,5,6)` and `P_i = (i, 1, 2)`. -/
theorem velocity_force_adjoint_witness :
    ((markersOf (scenarioState ℚ 0).d_struct_lag_idx_range 0 (scenarioLevel ℚ).local_nodes).map
        (fun node => dotSpatial (scenarioState ℚ 0).NDIM
          (setRigidBodyVelocity (scenarioState ℚ 0) 0 ![1, 2, 3, 4, 5, 6] (fun _ => 0)
            node.local_idx)
          ((fun i : Int => ![(i : ℚ), 1, 2]) node.local_idx))).sum =
      dotDOF (scenarioState ℚ 0).NDIM ![1, 2, 3, 4, 5, 6]
        (computeNetRigidGeneralizedForce (scenarioState ℚ 0) 0 (fun i => ![(i : ℚ), 1, 2])
          (fun _ => 55)) :=
  velocity_force_adjoint (scenarioState ℚ 0) 0 ![1, 2, 3, 4, 5, 6] (fun i => ![(i : ℚ), 1, 2])
    (fun _ => 0) (fun _ => 55) (scenarioLevel ℚ) rfl rfl scenario_disjoint (by decide)
    (by decide) (Or.inr rfl)

/-! ## Theorems: the position updates are rigid motions -/

theorem specRotation_orthogonal (w : Vector3d ℝ) (t : ℝ) :
    (specRotation (MathFns.mk Real.sqrt Real.cos Real.sin) w t).transpose *
      specRotation (MathFns.mk Real.sqrt Real.cos Real.sin) w t = 1 := by
  rw [← setRotationMatrixEntry_eq_spec]
  exact (setRotationMatrixEntry_proper w 1 t ⟨by simp, by simp⟩).1

theorem orthogonal_norm_sq (R : Matrix3d ℝ) (hR : R.transpose * R = 1) (v : Vector3d ℝ) :
    (Matrix.mulVec R v) 0 ^ 2 + (Matrix.mulVec R v) 1 ^ 2 + (Matrix.mulVec R v) 2 ^ 2 =
      v 0 ^ 2 + v 1 ^ 2 + v 2 ^ 2 := by
  have e := fun i j => congrFun (congrFun hR i) j
  have e00 := e 0 0
  have e01 := e 0 1
  have e02 := e 0 2
  have e11 := e 1 1
  have e12 := e 1 2
  have e22 := e 2 2
  simp [Matrix.mul_apply, Fin.sum_univ_three, Matrix.transpose_apply, Matrix.one_apply]
    at e00 e01 e02 e11 e12 e22
  simp only [Matrix.mulVec, Matrix.dotProduct, Fin.sum_univ_three]
  linear_combination (v 0) ^ 2 * e00 + (v 1) ^ 2 * e11 + (v 2) ^ 2 * e22 +
    2 * v 0 * v 1 * e01 + 2 * v 0 * v 2 * e02 + 2 * v 1 * v 2 * e12

/-- Two points moved by the same map `X -> c + R (X - c) + t` with `R`
orthogonal keep their distance. -/
theorem rigid_map_distance (F : MathFns ℝ) (R : Matrix3d ℝ) (hR : R.transpose * R = 1)
    (c t a b a' b' : Vector3d ℝ)
    (ha : ∀ d : Fin 3, a' d = c d + Matrix.mulVec R (fun d' => a d' - c d') d + t d)
    (hb : ∀ d : Fin 3, b' d = c d + Matrix.mulVec R (fun d' => b d' - c d') d + t d) :
    euclideanDistance F a' b' = euclideanDistance F a b := by
  unfold euclideanDistance
  congr 1
  have hdiff : ∀ d : Fin 3, a' d - b' d = Matrix.mulVec R (fun d' => a d' - b d') d := by
    intro d
    rw [ha, hb]
    have : (fun d' => a d' - b d') = (fun d' => a d' - c d') - (fun d' => b d' - c d') := by
      funext d'
      simp
    rw [this, Matrix.mulVec_sub]
    simp only [Pi.sub_apply]
    ring
  rw [hdiff 0, hdiff 1, hdiff 2]
  exact orthogonal_norm_sq R hR _

theorem midpointStep_levels {α : Type} [LinearOrderedField α] (F : MathFns α) (st : CIBState α)
    (t0 t1 : α) (pre post : List (LevelData α)) (lev : LevelData α)
    (hlevels : st.levels = pre ++ lev :: post)
    (hpre : ∀ l ∈ pre, l.levelContainsLagrangianData = false)
    (hpost : ∀ l ∈ post, l.levelContainsLagrangianData = false) :
    (midpointStep F st t0 t1).levels =
      pre ++ midpointStepLevel st.NDIM st.d_struct_lag_idx_range st.d_center_of_mass_current
        (midpointStepRotationMat F st.d_num_rigid_parts st.d_rot_vel_half (t1 - t0)) (t1 - t0)
        st.d_trans_vel_half lev :: post := by
  unfold midpointStep
  simp only []
  rw [hlevels]
  apply map_single_active _ (fun l => l.levelContainsLagrangianData = true) _ pre post lev
    (fun y hy => by simp [hpre y hy]) (fun y hy => by simp [hpost y hy])
  intro x hx
  unfold midpointStepLevel
  simp only [Bool.not_eq_true] at hx
  simp [hx]

theorem steps_rigid_aux (st : CIBState ℝ) (t0 t1 : ℝ)
    (pre post : List (LevelData ℝ)) (lev : LevelData ℝ)
    (hlevels : st.levels = pre ++ lev :: post)
    (hpre : ∀ l ∈ pre, l.levelContainsLagrangianData = false)
    (hpost : ∀ l ∈ post, l.levelContainsLagrangianData = false)
    (hlev : lev.levelContainsLagrangianData = true)
    (hlayout : MarkerLayout st.d_struct_lag_idx_range lev.structIDs.length lev.local_nodes)
    (h3 : st.NDIM = 3) :
    ∃ levE levM : LevelData ℝ,
      (eulerStep (MathFns.mk Real.sqrt Real.cos Real.sin) st t0 t1).levels =
        pre ++ levE :: post ∧
      (midpointStep (MathFns.mk Real.sqrt Real.cos Real.sin) st t0 t1).levels =
        pre ++ levM :: post ∧
      ∀ (s : Nat), s < st.d_num_rigid_parts →
        ∀ ni ∈ markersOf st.d_struct_lag_idx_range s lev.local_nodes,
        ∀ nj ∈ markersOf st.d_struct_lag_idx_range s lev.local_nodes,
          euclideanDistance (MathFns.mk Real.sqrt Real.cos Real.sin)
              (levE.X_half ni.local_idx) (levE.X_half nj.local_idx) =
            euclideanDistance (MathFns.mk Real.sqrt Real.cos Real.sin)
              (lev.X_current ni.local_idx) (lev.X_current nj.local_idx) ∧
          euclideanDistance (MathFns.mk Real.sqrt Real.cos Real.sin)
              (levM.X_new ni.local_idx) (levM.X_new nj.local_idx) =
            euclideanDistance (MathFns.mk Real.sqrt Real.cos Real.sin)
              (lev.X_current ni.local_idx) (lev.X_current nj.local_idx) := by
  obtain ⟨levE, hE1, _, _, hE4⟩ :=
    eulerStep_positions_aux (MathFns.mk Real.sqrt Real.cos Real.sin) st t0 t1 pre post lev
      hlevels hpre hpost hlev hlayout
  have hln : st.levels[pre.length]? = some lev := by
    rw [hlevels, List.getElem?_append_right (le_refl _)]
    simp
  obtain ⟨levM', hM1, hM2⟩ :=
    midpointStep_positions_aux (MathFns.mk Real.sqrt Real.cos Real.sin) st t0 t1 pre.length lev
      hln hlev hlayout
  have hMl := midpointStep_levels (MathFns.mk Real.sqrt Real.cos Real.sin) st t0 t1 pre post lev
    hlevels hpre hpost
  have hMeq : levM' = midpointStepLevel st.NDIM st.d_struct_lag_idx_range
      st.d_center_of_mass_current
      (midpointStepRotationMat (MathFns.mk Real.sqrt Real.cos Real.sin) st.d_num_rigid_parts
        st.d_rot_vel_half (t1 - t0)) (t1 - t0) st.d_trans_vel_half lev := by
    rw [hMl, List.getElem?_append_right (le_refl _)] at hM1
    simp at hM1
    exact hM1.symm
  refine ⟨levE, _, hE1, hMl, ?_⟩
  rw [← hMeq]
  have hsp : ∀ v : Vector3d ℝ, spatial st.NDIM v = v := by
    intro v; rw [h3]; exact spatial_three v
  have hd : ∀ d : Fin 3, d.val < st.NDIM := by
    intro d; rw [h3]; exact d.isLt
  intro s hs ni hni nj hnj
  constructor
  · apply rigid_map_distance _ _ (specRotation_orthogonal (st.d_rot_vel_current s)
      (1 / 2 * (t1 - t0)))
      (meanPosition st.NDIM lev.X_current (markersOf st.d_struct_lag_idx_range s lev.local_nodes))
      (fun d => 1 / 2 * (t1 - t0) * st.d_trans_vel_current s d)
    · intro d
      have := hE4 s hs ni hni d (hd d)
      rw [hsp] at this
      exact this
    · intro d
      have := hE4 s hs nj hnj d (hd d)
      rw [hsp] at this
      exact this
  · apply rigid_map_distance _ _ (specRotation_orthogonal (st.d_rot_vel_half s) (t1 - t0))
      (st.d_center_of_mass_current s)
      (fun d => (t1 - t0) * st.d_trans_vel_half s d)
    · intro d
      have := hM2 s hs ni hni d (hd d)
      rw [hsp] at this
      exact this
    · intro d
      have := hM2 s hs nj hnj d (hd d)
      rw [hsp] at this
      exact this

/-- C28: in 3-D and over the reals, `eulerStep` and `midpointStep` move each
structure rigidly: for every `dt = new_time - current_time`, every velocity
state and any two markers `i`, `j` of the same structure (on the level that
holds the structures), the Euclidean distance between their updated
positions, `X_half` after `eulerStep` and `X_new` after `midpointStep`,
equals the distance between their current positions `X_current`. -/
theorem steps_move_rigidly (st : CIBState ℝ) (current_time new_time : ℝ)
    (pre post : List (LevelData ℝ)) (lev : LevelData ℝ)
    (hlevels : st.levels = pre ++ lev :: post)
    (hpre : ∀ l ∈ pre, l.levelContainsLagrangianData = false)
    (hpost : ∀ l ∈ post, l.levelContainsLagrangianData = false)
    (hlev : lev.levelContainsLagrangianData = true)
    (hlayout : MarkerLayout st.d_struct_lag_idx_range lev.structIDs.length lev.local_nodes)
    (h3 : st.NDIM = 3) :
    ∃ levE levM : LevelData ℝ,
      (eulerStep (MathFns.mk Real.sqrt Real.cos Real.sin) st current_time new_time).levels =
        pre ++ levE :: post ∧
      (midpointStep (MathFns.mk Real.sqrt Real.cos Real.sin) st current_time new_time).levels =
        pre ++ levM :: post ∧
      ∀ (s : Nat), s < st.d_num_rigid_parts →
        ∀ ni ∈ markersOf st.d_struct_lag_idx_range s lev.local_nodes,
        ∀ nj ∈ markersOf st.d_struct_lag_idx_range s lev.local_nodes,
          euclideanDistance (MathFns.mk Real.sqrt Real.cos Real.sin)
              (levE.X_half ni.local_idx) (levE.X_half nj.local_idx) =
            euclideanDistance (MathFns.mk Real.sqrt Real.cos Real.sin)
              (lev.X_current ni.local_idx) (lev.X_current nj.local_idx) ∧
          euclideanDistance (MathFns.mk Real.sqrt Real.cos Real.sin)
              (levM.X_new ni.local_idx) (levM.X_new nj.local_idx) =
            euclideanDistance (MathFns.mk Real.sqrt Real.cos Real.sin)
              (lev.X_current ni.local_idx) (lev.X_current nj.local_idx) :=
  steps_rigid_aux st current_time new_time pre post lev hlevels hpre hpost hlev hlayout h3

/-- Witness for C28: the rotation scenario with `omega = pi`, from time 0 to
time 1. -/
theorem steps_move_rigidly_witness :
    ∃ levE levM : LevelData ℝ,
      (eulerStep (MathFns.mk Real.sqrt Real.cos Real.sin) (scenarioState ℝ Real.pi) 0 1).levels =
        [] ++ levE :: [] ∧
      (midpointStep (MathFns.mk Real.sqrt Real.cos Real.sin) (scenarioState ℝ Real.pi)
        0 1).levels = [] ++ levM :: [] ∧
      ∀ (s : Nat), s < (scenarioState ℝ Real.pi).d_num_rigid_parts →
        ∀ ni ∈ markersOf (scenarioState ℝ Real.pi).d_struct_lag_idx_range s
            (scenarioLevel ℝ).local_nodes,
        ∀ nj ∈ markersOf (scenarioState ℝ Real.pi).d_struct_lag_idx_range s
            (scenarioLevel ℝ).local_nodes,
          euclideanDistance (MathFns.mk Real.sqrt Real.cos Real.sin)
              (levE.X_half ni.local_idx) (levE.X_half nj.local_idx) =
            euclideanDistance (MathFns.mk Real.sqrt Real.cos Real.sin)
              ((scenarioLevel ℝ).X_current ni.local_idx)
              ((scenarioLevel ℝ).X_current nj.local_idx) ∧
          euclideanDistance (MathFns.mk Real.sqrt Real.cos Real.sin)
              (levM.X_new ni.local_idx) (levM.X_new nj.local_idx) =
            euclideanDistance (MathFns.mk Real.sqrt Real.cos Real.sin)
              ((scenarioLevel ℝ).X_current ni.local_idx)
              ((scenarioLevel ℝ).X_current nj.local_idx) :=
  steps_move_rigidly (scenarioState ℝ Real.pi) 0 1 [] [] (scenarioLevel ℝ) rfl (by simp)
    (by simp) rfl scenario_layout rfl

/-! ## Theorems: the half-step center of mass -/

theorem sum_mulVec {α : Type} [Field α] {β : Type} (R : Matrix3d α) (l : List β)
    (v : β → Vector3d α) (d : Fin 3) :
    (l.map (fun n => Matrix.mulVec R (v n) d)).sum =
      ∑ k : Fin 3, R d k * (l.map (fun n => v n k)).sum := by
  induction l with
  | nil => simp
  | cons a rest ih =>
    simp only [List.map_cons, List.sum_cons, ih]
    simp only [Matrix.mulVec, Matrix.dotProduct, Fin.sum_univ_three]
    ring

theorem sum_map_add3 {α : Type} [Field α] {β : Type} (l : List β) (a c : α) (f : β → α) :
    (l.map (fun n => a + f n + c)).sum = (l.length : α) * a + (l.map f).sum + (l.length : α) * c := by
  induction l with
  | nil => simp
  | cons x rest ih =>
    simp only [List.map_cons, List.sum_cons, ih, List.length_cons]
    push_cast
    ring

theorem spatial_centered_sum {α : Type} [Field α] [CharZero α] (NDIM : Nat) (X : LDataArray α)
    (M : List LNode) (k : Fin 3) :
    (M.map (fun node => spatial NDIM (fun d' => X node.local_idx d' -
      meanPosition NDIM X M d') k)).sum = 0 := by
  unfold spatial
  by_cases hk : k.val < NDIM
  · simp only [if_pos hk]
    exact centered_sum_zero NDIM X M (meanPosition NDIM X M) k hk rfl
  · simp only [if_neg hk]
    simp

theorem eulerStep_com_half_aux {α : Type} [LinearOrderedField α] (F : MathFns α)
    (st : CIBState α) (t0 t1 : α) (pre post : List (LevelData α)) (lev : LevelData α)
    (hlevels : st.levels = pre ++ lev :: post)
    (hpre : ∀ l ∈ pre, l.levelContainsLagrangianData = false)
    (hpost : ∀ l ∈ post, l.levelContainsLagrangianData = false)
    (hlev : lev.levelContainsLagrangianData = true)
    (hlayout : MarkerLayout st.d_struct_lag_idx_range lev.structIDs.length lev.local_nodes)
    (s : Nat) (hs : s < st.d_num_rigid_parts)
    (hne : markersOf st.d_struct_lag_idx_range s lev.local_nodes ≠ [])
    (d : Fin 3) (hd : d.val < st.NDIM) :
    (eulerStep F st t0 t1).d_center_of_mass_half s d =
      (eulerStep F st t0 t1).d_center_of_mass_current s d +
        1 / 2 * (t1 - t0) * st.d_trans_vel_current s d := by
  obtain ⟨lev', hE1, _, hE3, hE4⟩ :=
    eulerStep_positions_aux F st t0 t1 pre post lev hlevels hpre hpost hlev hlayout
  have hEl := eulerStep_levels F st t0 t1 pre post lev hlevels hpre hpost
  have hlev' : lev' = eulerStepLevel st.NDIM st.d_struct_lag_idx_range
      (eulerStep F st t0 t1).d_center_of_mass_current
      (eulerStepRotationMat F st.d_num_rigid_parts st.d_rot_vel_current (t1 - t0)) (t1 - t0)
      st.d_trans_vel_current lev := by
    rw [hE1] at hEl
    have := List.append_cancel_left hEl
    exact (List.cons.inj this).1
  have hflag : lev'.levelContainsLagrangianData = true := by
    rw [hlev']; unfold eulerStepLevel; simp [hlev]
  have hids : lev'.structIDs = lev.structIDs := by
    rw [hlev']; unfold eulerStepLevel; simp [hlev]
  have hlayout' : MarkerLayout st.d_struct_lag_idx_range lev'.structIDs.length
      lev'.local_nodes := by
    rw [hids, hE3]; exact hlayout
  have hhalf : (eulerStep F st t0 t1).d_center_of_mass_half =
      (computeCOMandMOIOfStructures st.NDIM st.d_struct_lag_idx_range
        (eulerStep F st t0 t1).levels (fun l => l.X_half) st.d_center_of_mass_half
        st.d_moment_of_inertia_half).1 := rfl
  rw [hhalf, hE1,
    computeCOM_mean st.NDIM st.d_struct_lag_idx_range (fun l => l.X_half) pre post lev'
      hpre hpost hflag hlayout' _ _ s hs,
    eulerStep_com_current F st t0 t1 pre post lev hlevels hpre hpost hlev hlayout s hs, hE3]
  have hN : ((markersOf st.d_struct_lag_idx_range s lev.local_nodes).length : α) ≠ 0 := by
    have : (markersOf st.d_struct_lag_idx_range s lev.local_nodes).length ≠ 0 :=
      fun h0 => hne (List.length_eq_zero.mp h0)
    exact_mod_cast this
  have hsum : ((markersOf st.d_struct_lag_idx_range s lev.local_nodes).map
      (fun node => lev'.X_half node.local_idx d)).sum =
      ((markersOf st.d_struct_lag_idx_range s lev.local_nodes).map
        (fun node =>
          meanPosition st.NDIM lev.X_current
              (markersOf st.d_struct_lag_idx_range s lev.local_nodes) d +
            Matrix.mulVec (specRotation F (st.d_rot_vel_current s) (1 / 2 * (t1 - t0)))
              (spatial st.NDIM (fun d' => lev.X_current node.local_idx d' -
                meanPosition st.NDIM lev.X_current
                  (markersOf st.d_struct_lag_idx_range s lev.local_nodes) d')) d +
            1 / 2 * (t1 - t0) * st.d_trans_vel_current s d)).sum := by
    congr 1
    apply List.map_congr_left
    intro node hnode
    exact hE4 s hs node hnode d hd
  conv_lhs => unfold meanPosition
  rw [if_pos hd, hsum, sum_map_add3, sum_mulVec]
  have hz : ∀ k : Fin 3,
      ((markersOf st.d_struct_lag_idx_range s lev.local_nodes).map
        (fun node => spatial st.NDIM (fun d' => lev.X_current node.local_idx d' -
          meanPosition st.NDIM lev.X_current
            (markersOf st.d_struct_lag_idx_range s lev.local_nodes) d') k)).sum = 0 :=
    fun k => spatial_centered_sum st.NDIM lev.X_current _ k
  simp only [hz, mul_zero, Finset.sum_const_zero, add_zero]
  field_simp
  ring

/-- C29: after `eulerStep(current_time, new_time)` with
`dt = new_time - current_time`, for a structure `s` with at least one marker
(all the markers on the one level that holds the structures), the recomputed
half-step center of mass is the current center of mass carried by the
translation alone, `COM_half[s] = COM_current[s] + 0.5 dt U_trans_current[s]`,
on the components `d < NDIM` (as an equation of 3-vectors when `NDIM = 3`),
for every rotational velocity; `COM_current[s]` is the mean of the current
positions of the markers of `s`.  Holds over every ordered field and every
`sqrt`, `cos`, `sin`. -/
theorem eulerStep_com_half {α : Type} [LinearOrderedField α] (F : MathFns α)
    (st : CIBState α) (current_time new_time : α)
    (pre post : List (LevelData α)) (lev : LevelData α)
    (hlevels : st.levels = pre ++ lev :: post)
    (hpre : ∀ l ∈ pre, l.levelContainsLagrangianData = false)
    (hpost : ∀ l ∈ post, l.levelContainsLagrangianData = false)
    (hlev : lev.levelContainsLagrangianData = true)
    (hlayout : MarkerLayout st.d_struct_lag_idx_range lev.structIDs.length lev.local_nodes)
    (s : Nat) (hs : s < st.d_num_rigid_parts)
    (hne : markersOf st.d_struct_lag_idx_range s lev.local_nodes ≠ []) :
    (eulerStep F st current_time new_time).d_center_of_mass_current s =
      meanPosition st.NDIM lev.X_current
        (markersOf st.d_struct_lag_idx_range s lev.local_nodes) ∧
    (∀ d : Fin 3, d.val < st.NDIM →
      (eulerStep F st current_time new_time).d_center_of_mass_half s d =
        (eulerStep F st current_time new_time).d_center_of_mass_current s d +
          1 / 2 * (new_time - current_time) * st.d_trans_vel_current s d) ∧
    (st.NDIM = 3 →
      (eulerStep F st current_time new_time).d_center_of_mass_half s =
        (eulerStep F st current_time new_time).d_center_of_mass_current s +
          (1 / 2 * (new_time - current_time)) • st.d_trans_vel_current s) := by
  have key := eulerStep_com_half_aux F st current_time new_time pre post lev hlevels hpre hpost
    hlev hlayout s hs hne
  refine ⟨eulerStep_com_current F st current_time new_time pre post lev hlevels hpre hpost hlev
    hlayout s hs, key, ?_⟩
  intro h3
  funext d
  rw [key d (by rw [h3]; exact d.isLt)]
  simp only [Pi.add_apply, Pi.smul_apply, smul_eq_mul]

/-- Witness for C29: the rotation scenario over the rationals with
`omega = 1`, from time 0 to time 1 (`sqrt`, `cos`, `sin` are stand-ins). -/
theorem eulerStep_com_half_witness :
    (eulerStep (MathFns.mk (fun x : ℚ => x) (fun _ => 1) (fun _ => 0)) (scenarioState ℚ 1)
        0 1).d_center_of_mass_current 0 =
      meanPosition (scenarioState ℚ 1).NDIM (scenarioLevel ℚ).X_current
        (markersOf (scenarioState ℚ 1).d_struct_lag_idx_range 0 (scenarioLevel ℚ).local_nodes) ∧
    (∀ d : Fin 3, d.val < (scenarioState ℚ 1).NDIM →
      (eulerStep (MathFns.mk (fun x : ℚ => x) (fun _ => 1) (fun _ => 0)) (scenarioState ℚ 1)
          0 1).d_center_of_mass_half 0 d =
        (eulerStep (MathFns.mk (fun x : ℚ => x) (fun _ => 1) (fun _ => 0)) (scenarioState ℚ 1)
            0 1).d_center_of_mass_current 0 d +
          1 / 2 * (1 - 0) * (scenarioState ℚ 1).d_trans_vel_current 0 d) ∧
    ((scenarioState ℚ 1).NDIM = 3 →
      (eulerStep (MathFns.mk (fun x : ℚ => x) (fun _ => 1) (fun _ => 0)) (scenarioState ℚ 1)
          0 1).d_center_of_mass_half 0 =
        (eulerStep (MathFns.mk (fun x : ℚ => x) (fun _ => 1) (fun _ => 0)) (scenarioState ℚ 1)
            0 1).d_center_of_mass_current 0 +
          (1 / 2 * ((1 : ℚ) - 0)) • (scenarioState ℚ 1).d_trans_vel_current 0) :=
  eulerStep_com_half (MathFns.mk (fun x : ℚ => x) (fun _ => 1) (fun _ => 0)) (scenarioState ℚ 1)
    0 1 [] [] (scenarioLevel ℚ) rfl (by simp) (by simp) rfl scenario_layout 0 (by decide)
    (by rw [scenario_markers]; simp)

/-! ## Theorems: pre-fluid-solve callbacks -/

theorem register_foldl {Fn Ctx : Type} (regs : List (Fn × Ctx)) (st : CallbackState Fn Ctx) :
    regs.foldl (fun st r => registerPreProcessSolveFluidEquationsCallBackFcn st r.1 r.2) st =
      { d_prefluidsolve_callback_fcns := st.d_prefluidsolve_callback_fcns ++ regs.map Prod.fst
        d_prefluidsolve_callback_fcns_ctx :=
          st.d_prefluidsolve_callback_fcns_ctx ++ regs.map Prod.snd } := by
  induction regs generalizing st with
  | nil => simp
  | cons a rest ih =>
    rw [List.foldl_cons, ih]
    simp [registerPreProcessSolveFluidEquationsCallBackFcn]

theorem callback_loop {α Fn Ctx : Type} (regs : List (Fn × Ctx)) (t0 t1 : α) (c : Int) :
    (List.range (regs.map Prod.fst).length).filterMap (fun (i : Nat) =>
      match (regs.map Prod.fst)[i]?, (regs.map Prod.snd)[i]? with
      | some fcn, some ctx => some (PreprocessEvent.callback fcn t0 t1 c ctx)
      | _, _ => none) =
    regs.map (fun r => PreprocessEvent.callback r.1 t0 t1 c r.2) := by
  induction regs with
  | nil => simp
  | cons a rest ih =>
    simp only [List.map_cons, List.length_cons]
    rw [List.range_succ_eq_map, List.filterMap_cons]
    simp only [List.getElem?_cons_zero, List.filterMap_map]
    rw [← ih]
    congr 1
    congr 1
    funext i
    simp

/-- C26 (amended): after any sequence of registrations, each call of
`preprocessSolveFluidEquations(current_time, new_time, cycle_num)` first runs
the base `IBMethod` preprocessing with the same three arguments and then
invokes every registered callback exactly once, in registration order, each
with `(current_time, new_time, cycle_num)` and the context it was registered
with: the callbacks run after the base preprocessing, not before it. -/
theorem preprocessSolveFluidEquations_calls {α Fn Ctx : Type} (regs : List (Fn × Ctx))
    (current_time new_time : α) (cycle_num : Int) :
    preprocessSolveFluidEquations
        (regs.foldl (fun st r => registerPreProcessSolveFluidEquationsCallBackFcn st r.1 r.2)
          { d_prefluidsolve_callback_fcns := [], d_prefluidsolve_callback_fcns_ctx := [] })
        current_time new_time cycle_num =
      PreprocessEvent.base current_time new_time cycle_num ::
        regs.map (fun r => PreprocessEvent.callback r.1 current_time new_time cycle_num r.2) := by
  rw [register_foldl]
  unfold preprocessSolveFluidEquations
  simp only [List.nil_append, List.singleton_append]
  rw [callback_loop]

/-- Counterexample for C26 as stated: with one registered callback the base
preprocessing is the first call and the callback the second, so the callback
does not come before the base preprocessing. -/
theorem preprocessSolveFluidEquations_order_counterexample :
    ¬ specCallbacksBeforeBase
      (preprocessSolveFluidEquations
        (registerPreProcessSolveFluidEquationsCallBackFcn
          { d_prefluidsolve_callback_fcns := [], d_prefluidsolve_callback_fcns_ctx := [] }
          "callback" "ctx")
        (0 : ℚ) 1 0) := by
  intro h
  have := h 1 0 "callback" 0 1 0 "ctx" 0 1 0 rfl rfl
  omega

/-! ## Theorems: checkpoint round trip -/

theorem digitChar_value (k : Nat) (hk : k < 10) : (Nat.digitChar k).toNat - 48 = k := by
  interval_cases k <;> rfl

theorem toDigitsCore_value (fuel : Nat) : ∀ (n : Nat) (ds : List Char), n < fuel →
    digitsValue (Nat.toDigitsCore 10 fuel n ds) 0 = digitsValue ds n := by
  induction fuel with
  | zero => intro n ds h; omega
  | succ fuel ih =>
    intro n ds h
    unfold Nat.toDigitsCore
    simp only []
    split
    · rename_i h0
      have hn : n < 10 := by omega
      unfold digitsValue
      rw [List.foldl_cons, digitChar_value _ (Nat.mod_lt _ (by decide))]
      congr 1
      omega
    · rename_i h0
      rw [ih (n / 10) _ (by omega)]
      unfold digitsValue
      rw [List.foldl_cons, digitChar_value _ (Nat.mod_lt _ (by decide))]
      congr 1
      omega

theorem toString_value (n : Nat) : digitsValue (toString n).data 0 = n := by
  have h : (toString n).data = Nat.toDigitsCore 10 (n + 1) n [] := rfl
  rw [h, toDigitsCore_value (n + 1) n [] (by omega)]
  rfl

theorem toString_nat_injective (s t : Nat) (h : toString s = toString t) : s = t := by
  have := congrArg (fun x : String => digitsValue x.data 0) h
  simpa [toString_value] using this

theorem keyU_injective (s t : Nat) (h : keyU s = keyU t) : s = t := by
  unfold keyU at h
  have h1 := congrArg String.data h
  rw [String.data_append, String.data_append] at h1
  have h2 := List.append_cancel_left h1
  exact toString_nat_injective s t (String.ext h2)

theorem keyW_injective (s t : Nat) (h : keyW s = keyW t) : s = t := by
  unfold keyW at h
  have h1 := congrArg String.data h
  rw [String.data_append, String.data_append] at h1
  have h2 := List.append_cancel_left h1
  exact toString_nat_injective s t (String.ext h2)

theorem keyU_ne_keyW (s t : Nat) : keyU s ≠ keyW t := by
  unfold keyU keyW
  intro h
  have h1 := congrArg String.data h
  rw [String.data_append, String.data_append] at h1
  have h2 : ("U_" : String).data = ['U', '_'] := rfl
  have h3 : ("W_" : String).data = ['W', '_'] := rfl
  rw [h2, h3] at h1
  simp at h1

theorem putLoop_apply {α : Type} (tv rv : Int → Vector3d α) (n : Nat) (db : Database α)
    (s : Nat) (hs : s < n) :
    ((List.range n).foldl (fun (db : Database α) (struct_no : Nat) =>
        putDoubleArray
          (putDoubleArray db (keyU struct_no)
            [tv struct_no 0, tv struct_no 1, tv struct_no 2])
          (keyW struct_no) [rv struct_no 0, rv struct_no 1, rv struct_no 2]) db) (keyU s) =
        some [tv s 0, tv s 1, tv s 2] ∧
    ((List.range n).foldl (fun (db : Database α) (struct_no : Nat) =>
        putDoubleArray
          (putDoubleArray db (keyU struct_no)
            [tv struct_no 0, tv struct_no 1, tv struct_no 2])
          (keyW struct_no) [rv struct_no 0, rv struct_no 1, rv struct_no 2]) db) (keyW s) =
        some [rv s 0, rv s 1, rv s 2] := by
  induction n with
  | zero => omega
  | succ n ih =>
    rw [List.range_succ, List.foldl_append, List.foldl_cons, List.foldl_nil]
    by_cases hsn : s = n
    · subst hsn
      unfold putDoubleArray
      simp [keyU_ne_keyW]
    · have ih' := ih (by omega)
      have h1 : keyU s ≠ keyU n := fun h => hsn (keyU_injective _ _ h)
      have h2 : keyW s ≠ keyW n := fun h => hsn (keyW_injective _ _ h)
      have h3 : keyW s ≠ keyU n := fun h => keyU_ne_keyW n s h.symm
      constructor
      · rw [← ih'.1]
        unfold putDoubleArray
        simp only [if_neg (keyU_ne_keyW s n), if_neg h1]
      · rw [← ih'.2]
        unfold putDoubleArray
        simp only [if_neg h2, if_neg h3]

theorem getLoop_ok {α : Type} [Zero α] (db : Database α) (tv rv : Int → Vector3d α)
    (l : List Nat)
    (hU : ∀ s ∈ l, db (keyU s) = some [tv s 0, tv s 1, tv s 2])
    (hW : ∀ s ∈ l, db (keyW s) = some [rv s 0, rv s 1, rv s 2]) :
    ∀ st : CIBState α, ∃ st1 : CIBState α,
      getFromRestartLoop db l st = Except.ok st1 ∧
      (∀ s ∈ l, st1.d_trans_vel_current s = tv s ∧ st1.d_rot_vel_current s = rv s) ∧
      (∀ i : Int, (∀ s ∈ l, (s : Int) ≠ i) →
        st1.d_trans_vel_current i = st.d_trans_vel_current i ∧
        st1.d_rot_vel_current i = st.d_rot_vel_current i) ∧
      st1.d_struct_lag_idx_range = st.d_struct_lag_idx_range := by
  induction l with
  | nil =>
    intro st
    exact ⟨st, rfl, by simp, fun _ _ => ⟨rfl, rfl⟩, rfl⟩
  | cons a rest ih =>
    intro st
    have hUa := hU a (List.mem_cons_self _ _)
    have hWa := hW a (List.mem_cons_self _ _)
    have ih' := ih (fun s hs => hU s (List.mem_cons_of_mem _ hs))
      (fun s hs => hW s (List.mem_cons_of_mem _ hs))
    unfold getFromRestartLoop getDoubleArray
    simp only [hUa, hWa, List.length_cons, List.length_nil, Nat.reduceAdd, if_true]
    obtain ⟨st1, h1, h2, h3, h4⟩ := ih' { st with
      d_trans_vel_current := fun i =>
        if i = (a : Int) then fun d => [tv a 0, tv a 1, tv a 2].getD d.val 0
        else st.d_trans_vel_current i
      d_rot_vel_current := fun i =>
        if i = (a : Int) then fun d => [rv a 0, rv a 1, rv a 2].getD d.val 0
        else st.d_rot_vel_current i }
    refine ⟨st1, h1, ?_, ?_, h4⟩
    · intro s hs
      by_cases hsr : s ∈ rest
      · exact h2 s hsr
      · have hsa : s = a := by
          rcases List.mem_cons.mp hs with h | h
          · exact h
          · exact absurd h hsr
        subst hsa
        have hne : ∀ t ∈ rest, (t : Int) ≠ (s : Int) := by
          intro t ht h
          apply hsr
          have : t = s := by exact_mod_cast h
          rw [← this]
          exact ht
        have := h3 (s : Int) hne
        rw [this.1, this.2]
        simp only [if_true]
        constructor
        · funext d
          fin_cases d <;> rfl
        · funext d
          fin_cases d <;> rfl
    · intro i hi
      have hia : i ≠ (a : Int) := fun h => hi a (List.mem_cons_self _ _) h.symm
      have := h3 i (fun s hs => hi s (List.mem_cons_of_mem _ hs))
      rw [this.1, this.2]
      simp [hia]

/-- C25: checkpoint round trip.  For every number of structures and every
velocity state, `putToDatabase` stores, for every structure `s`, the three
entries of `d_trans_vel_current[s]` under the key `"U_<s>"` and those of
`d_rot_vel_current[s]` under `"W_<s>"`; the keys are pairwise distinct
across structures (and a `U` key is never a `W` key); and `getFromRestart`
on a restart database that holds the resulting database under the object
name, run by an object with the same number of structures, returns normally
with `d_trans_vel_current[s]` and `d_rot_vel_current[s]` restored for every
structure `s`. -/
theorem checkpoint_round_trip {α : Type} [Zero α]
    (IBMethod_putToDatabase : Database α → Database α) (st st0 : CIBState α)
    (db : Database α) (restart_db : String → Option (Database α)) (d_object_name : String)
    (hn : st0.d_num_rigid_parts = st.d_num_rigid_parts)
    (hdb : restart_db d_object_name = some (putToDatabase IBMethod_putToDatabase st db)) :
    (∃ st1 : CIBState α,
      getFromRestart restart_db d_object_name st0 = Except.ok st1 ∧
      ∀ s : Nat, s < st.d_num_rigid_parts →
        st1.d_trans_vel_current s = st.d_trans_vel_current s ∧
        st1.d_rot_vel_current s = st.d_rot_vel_current s) ∧
    (∀ s : Nat, s < st.d_num_rigid_parts →
      putToDatabase IBMethod_putToDatabase st db (keyU s) =
        some [st.d_trans_vel_current s 0, st.d_trans_vel_current s 1,
          st.d_trans_vel_current s 2] ∧
      putToDatabase IBMethod_putToDatabase st db (keyW s) =
        some [st.d_rot_vel_current s 0, st.d_rot_vel_current s 1,
          st.d_rot_vel_current s 2]) ∧
    (∀ s t : Nat, (keyU s = keyU t ↔ s = t) ∧ (keyW s = keyW t ↔ s = t) ∧ keyU s ≠ keyW t) := by
  have hput : ∀ s : Nat, s < st.d_num_rigid_parts →
      putToDatabase IBMethod_putToDatabase st db (keyU s) =
        some [st.d_trans_vel_current s 0, st.d_trans_vel_current s 1,
          st.d_trans_vel_current s 2] ∧
      putToDatabase IBMethod_putToDatabase st db (keyW s) =
        some [st.d_rot_vel_current s 0, st.d_rot_vel_current s 1,
          st.d_rot_vel_current s 2] := by
    intro s hs
    unfold putToDatabase
    exact putLoop_apply st.d_trans_vel_current st.d_rot_vel_current _ _ s hs
  refine ⟨?_, hput, ?_⟩
  · unfold getFromRestart
    rw [hdb]
    simp only []
    obtain ⟨st1, h1, h2, _, _⟩ := getLoop_ok (putToDatabase IBMethod_putToDatabase st db)
      st.d_trans_vel_current st.d_rot_vel_current (List.range st0.d_num_rigid_parts)
      (fun s hs => (hput s (by rw [← hn]; exact List.mem_range.mp hs)).1)
      (fun s hs => (hput s (by rw [← hn]; exact List.mem_range.mp hs)).2) st0
    refine ⟨st1, h1, ?_⟩
    intro s hs
    exact h2 s (List.mem_range.mpr (by rw [hn]; exact hs))
  · intro s t
    exact ⟨⟨keyU_injective s t, fun h => by rw [h]⟩, ⟨keyW_injective s t, fun h => by rw [h]⟩,
      keyU_ne_keyW s t⟩

/-- Witness for C25: the rotation scenario with `omega = 7`, saved into an
empty database and restored into the scenario state with `omega = 0`. -/
theorem checkpoint_round_trip_witness :
    ∃ st1 : CIBState ℚ,
      getFromRestart
          (fun name => if name = "CIBMethod" then
            some (putToDatabase (fun db => db) (scenarioState ℚ 7) (fun _ => none)) else none)
          "CIBMethod" (scenarioState ℚ 0) = Except.ok st1 ∧
      ∀ s : Nat, s < (scenarioState ℚ 7).d_num_rigid_parts →
        st1.d_trans_vel_current s = (scenarioState ℚ 7).d_trans_vel_current s ∧
        st1.d_rot_vel_current s = (scenarioState ℚ 7).d_rot_vel_current s :=
  (checkpoint_round_trip (fun db => db) (scenarioState ℚ 7) (scenarioState ℚ 0) (fun _ => none)
    (fun name => if name = "CIBMethod" then
      some (putToDatabase (fun db => db) (scenarioState ℚ 7) (fun _ => none)) else none)
    "CIBMethod" rfl (by simp)).1

/-! ## Theorems: weight and lambda files -/

theorem assignFold_not_mem {α : Type} (NDIM : Nat) (r : Int × Int) (value : Int → Fin 3 → α)
    (nodes : List LNode) (A : LDataArray α) (i : Int)
    (h : ∀ node ∈ nodes, inRange r node.lag_idx → node.local_idx ≠ i) :
    (nodes.foldl (assignNode NDIM r value) A) i = A i := by
  induction nodes generalizing A with
  | nil => rfl
  | cons a rest ih =>
    rw [List.foldl_cons, ih _ (fun n hn => h n (List.mem_cons_of_mem _ hn))]
    unfold assignNode
    by_cases ha : r.1 ≤ a.lag_idx ∧ a.lag_idx < r.2
    · have hne : i ≠ a.local_idx := fun e => h a (List.mem_cons_self _ _) ha e.symm
      simp only [if_pos ha]
      funext d
      simp [hne]
    · simp only [if_neg ha]

theorem assignFold_mem {α : Type} (NDIM : Nat) (r : Int × Int) (value : Int → Fin 3 → α)
    (nodes : List LNode) (hnd : (nodes.map LNode.local_idx).Nodup) (A : LDataArray α)
    (node : LNode) (hnode : node ∈ nodes) (hin : inRange r node.lag_idx)
    (d : Fin 3) (hd : d.val < NDIM) :
    (nodes.foldl (assignNode NDIM r value) A) node.local_idx d = value node.lag_idx d := by
  induction nodes generalizing A with
  | nil => simp at hnode
  | cons a rest ih =>
    rw [List.foldl_cons]
    rw [List.map_cons, List.nodup_cons] at hnd
    rcases List.mem_cons.mp hnode with rfl | hmem
    · rw [assignFold_not_mem]
      · unfold assignNode
        have hin' : r.1 ≤ node.lag_idx ∧ node.lag_idx < r.2 := hin
        simp [hin', hd]
      · intro n hn _ e
        apply hnd.1
        rw [← e]
        exact List.mem_map_of_mem _ hn
    · exact ih hnd.2 _ hmem

theorem readWeightLines_ok {α : Type} (ex : Extraction α) :
    ∀ (n : Nat) (k : Int) (lines : List String) (v : Int → α), n ≤ lines.length →
      ∃ v' : Int → α, readWeightLines ex n k lines v = Except.ok v' ∧
        (∀ j : Nat, j < n → v' (k + j) = ex.readDouble (lines.getD j "") 0 (v (k + j))) ∧
        (∀ i : Int, i < k → v' i = v i) := by
  intro n
  induction n with
  | zero =>
    intro k lines v _
    exact ⟨v, rfl, fun j hj => absurd hj (Nat.not_lt_zero _), fun _ _ => rfl⟩
  | succ n ih =>
    intro k lines v hlen
    cases lines with
    | nil => simp at hlen
    | cons line rest =>
      simp only [List.length_cons, Nat.add_le_add_iff_right] at hlen
      unfold readWeightLines
      obtain ⟨v', h1, h2, h3⟩ := ih (k + 1) rest
        (fun i => if i = k then ex.readDouble line 0 (v i) else v i) hlen
      refine ⟨v', h1, ?_, ?_⟩
      · intro j hj
        cases j with
        | zero =>
          have := h3 k (by omega)
          simp only [if_true] at this
          simpa using this
        | succ j =>
          have := h2 j (by omega)
          have hne : k + 1 + (j : Int) ≠ k := by omega
          simp only [if_neg hne] at this
          have e : k + ((j + 1 : Nat) : Int) = k + 1 + (j : Int) := by push_cast; ring
          rw [e, this]
          simp
      · intro i hi
        have := h3 i (by omega)
        have hne : i ≠ k := by omega
        simp only [if_neg hne] at this
        exact this

theorem readWeightLines_truncated {α : Type} (ex : Extraction α) :
    ∀ (n : Nat) (k : Int) (lines : List String) (v : Int → α), lines.length < n →
      readWeightLines ex n k lines v = Except.error Abort.error := by
  intro n
  induction n with
  | zero => intro k lines v h; omega
  | succ n ih =>
    intro k lines v hlen
    cases lines with
    | nil => rfl
    | cons line rest =>
      simp only [List.length_cons, Nat.add_lt_add_iff_right] at hlen
      unfold readWeightLines
      exact ih _ _ _ hlen

theorem readLambdaLines_truncated {α : Type} (ex : Extraction α) (NDIM : Nat) :
    ∀ (n : Nat) (k : Int) (lines : List String) (v : Int → α), lines.length < n →
      readLambdaLines ex NDIM n k lines v = Except.error Abort.error := by
  intro n
  induction n with
  | zero => intro k lines v h; omega
  | succ n ih =>
    intro k lines v hlen
    cases lines with
    | nil => rfl
    | cons line rest =>
      simp only [List.length_cons, Nat.add_lt_add_iff_right] at hlen
      unfold readLambdaLines
      exact ih _ _ _ hlen

theorem forStructs_cons {D : Type} (body : D → Nat → Except (Abort × D) D)
    (a : Nat) (rest : List Nat) (data : D) :
    forStructs body (a :: rest) data =
      match body data a with
      | Except.ok data => forStructs body rest data
      | Except.error e => Except.error e := rfl

theorem forStructs_append {D : Type} (body : D → Nat → Except (Abort × D) D)
    (l1 l2 : List Nat) (data : D) :
    forStructs body (l1 ++ l2) data =
      match forStructs body l1 data with
      | Except.ok data => forStructs body l2 data
      | Except.error e => Except.error e := by
  induction l1 generalizing data with
  | nil => rfl
  | cons a rest ih =>
    rw [List.cons_append, forStructs_cons, forStructs_cons]
    cases h : body data a with
    | ok d => simp only [ih]
    | error e => rfl

theorem regWeightStruct_entry {α : Type} [Field α] (ex : Extraction α)
    (openFile : String → Option (List String)) (NDIM : Nat) (equalEps : α → α → Bool)
    (cv : α) (ranges : List (Int × Int)) (names : Nat → String) (nodes : List LNode)
    (reg : LDataArray α) (s : Nat)
    (hvalid : (rangeOf ranges s).1 ≤ (rangeOf ranges s).2)
    (hfile : names s = "" ∨ FileLoads ex openFile ranges names s) :
    ∃ value : Int → Fin 3 → α,
      regWeightStruct ex openFile NDIM equalEps cv ranges names nodes reg s =
        Except.ok (nodes.foldl (assignNode NDIM (rangeOf ranges s) value) reg) ∧
      ∀ (lag_idx : Int) (d : Fin 3), inRange (rangeOf ranges s) lag_idx →
        value lag_idx d = regEntry ex openFile equalEps cv ranges names s lag_idx := by
  by_cases hname : names s = ""
  · refine ⟨fun _ _ => cv, ?_, ?_⟩
    · unfold regWeightStruct
      simp [hname]
    · intro lag_idx d _
      unfold regEntry
      simp [hname]
  · rcases hfile with h | ⟨first, rest, hopen, hcount, hlen⟩
    · exact absurd h hname
    · obtain ⟨v', h1, h2, _⟩ := readWeightLines_ok ex
        ((rangeOf ranges s).2 - (rangeOf ranges s).1).toNat 0 rest (fun _ => 0) hlen
      refine ⟨fun lag_idx _ =>
        if !equalEps (v' (lag_idx - (rangeOf ranges s).1)) 0 then
          cv / v' (lag_idx - (rangeOf ranges s).1) else 0, ?_, ?_⟩
      · unfold regWeightStruct readCount
        have hneg : ¬ ((rangeOf ranges s).2 - (rangeOf ranges s).1 < 0) := by omega
        simp only [hname, if_false, hopen, hcount, ne_eq, not_true_eq_false, hneg, h1]
      · intro lag_idx d hin
        have hw : v' (lag_idx - (rangeOf ranges s).1) =
            fileWeight ex openFile ranges names s lag_idx := by
          unfold fileWeight
          rw [hopen]
          simp only []
          obtain ⟨hin1, hin2⟩ := hin
          have hj : (lag_idx - (rangeOf ranges s).1).toNat <
              ((rangeOf ranges s).2 - (rangeOf ranges s).1).toNat := by omega
          have := h2 _ hj
          have e : (0 : Int) + (((lag_idx - (rangeOf ranges s).1).toNat : Nat) : Int) =
              lag_idx - (rangeOf ranges s).1 := by omega
          rw [e] at this
          exact this
        unfold regEntry
        simp only [hname, if_false, hw]

theorem regWeight_loop {α : Type} [Field α] (ex : Extraction α)
    (openFile : String → Option (List String)) (NDIM : Nat) (equalEps : α → α → Bool)
    (cv : α) (ranges : List (Int × Int)) (names : Nat → String) (nodes : List LNode)
    (reg0 : LDataArray α)
    (hdisj : PairwiseDisjoint ranges) (hnd : (nodes.map LNode.local_idx).Nodup)
    (hvalid : ∀ r ∈ ranges, r.1 ≤ r.2)
    (hfiles : ∀ s : Nat, s < ranges.length → names s = "" ∨ FileLoads ex openFile ranges names s)
    (m : Nat) (hm : m ≤ ranges.length) :
    ∃ reg' : LDataArray α,
      forStructs (regWeightStruct ex openFile NDIM equalEps cv ranges names nodes)
        (List.range m) reg0 = Except.ok reg' ∧
      ∀ s : Nat, s < m → ∀ node ∈ nodes, inRange (rangeOf ranges s) node.lag_idx →
        ∀ d : Fin 3, d.val < NDIM →
          reg' node.local_idx d = regEntry ex openFile equalEps cv ranges names s node.lag_idx := by
  induction m with
  | zero => exact ⟨reg0, rfl, fun s hs => absurd hs (Nat.not_lt_zero _)⟩
  | succ m ih =>
    obtain ⟨reg1, h1, h2⟩ := ih (by omega)
    have hmlt : m < ranges.length := by omega
    have hv : (rangeOf ranges m).1 ≤ (rangeOf ranges m).2 := by
      rw [rangeOf_eq ranges m hmlt]
      exact hvalid _ (List.getElem_mem _)
    obtain ⟨value, h3, h4⟩ := regWeightStruct_entry ex openFile NDIM equalEps cv ranges names
      nodes reg1 m hv (hfiles m hmlt)
    refine ⟨nodes.foldl (assignNode NDIM (rangeOf ranges m) value) reg1, ?_, ?_⟩
    · rw [List.range_succ, forStructs_append, h1]
      simp only []
      rw [forStructs_cons, h3]
      rfl
    · intro s hs node hnode hin d hd
      by_cases hsm : s = m
      · subst hsm
        rw [assignFold_mem NDIM _ value nodes hnd reg1 node hnode hin d hd]
        exact h4 _ d hin
      · rw [assignFold_not_mem]
        · exact h2 s (by omega) node hnode hin d hd
        · intro n hn hinm e
          have hn' : n = node := List.inj_on_of_nodup_map hnd hn hnode e
          subst hn'
          have hslt : s < ranges.length := by omega
          rw [rangeOf_eq ranges s hslt] at hin
          rw [rangeOf_eq ranges m hmlt] at hinm
          exact hdisj s m hslt hmlt hsm n.lag_idx ⟨hin, hinm⟩

theorem setRegularizationWeight_ok {α : Type} [Field α] (ex : Extraction α)
    (openFile : String → Option (List String)) (NDEBUG : Bool) (equalEps : α → α → Bool)
    (NDIM : Nat) (dx : Nat → α) (ranges : List (Int × Int)) (d_reg_filename : Nat → String)
    (lev : LevelData α) (reg_data_array : LDataArray α)
    (hlayout : MarkerLayout ranges lev.structIDs.length lev.local_nodes)
    (hfiles : ∀ s : Nat, s < ranges.length →
      d_reg_filename s = "" ∨ FileLoads ex openFile ranges d_reg_filename s) :
    ∃ reg' : LDataArray α,
      setRegularizationWeight ex openFile NDEBUG equalEps NDIM dx ranges d_reg_filename lev
        reg_data_array = Except.ok reg' ∧
      ∀ s : Nat, s < ranges.length → ∀ node ∈ lev.local_nodes,
        inRange (rangeOf ranges s) node.lag_idx → ∀ d : Fin 3, d.val < NDIM →
          reg' node.local_idx d =
            regEntry ex openFile equalEps (cellVolume NDIM dx) ranges d_reg_filename s
              node.lag_idx := by
  obtain ⟨reg', h1, h2⟩ := regWeight_loop ex openFile NDIM equalEps (cellVolume NDIM dx) ranges
    d_reg_filename lev.local_nodes reg_data_array hlayout.disjoint hlayout.local_nodup
    (fun r hr => (hlayout.valid r hr).1) hfiles ranges.length (le_refl _)
  refine ⟨reg', ?_, h2⟩
  unfold setRegularizationWeight
  simp only [hlayout.structs, ne_eq, not_true_eq_false, decide_False, Bool.and_false,
    Bool.false_eq_true, if_false]
  exact h1

/-- C22 (amended): when every structure has either no weight file or a weight
file that loads, `setRegularizationWeight` returns normally, and afterwards
every component `d < NDIM` of the regularization entry of each marker of a
structure is: the grid cell volume (the product of the `dx` over the spatial
dimensions) when the structure has no weight file; exactly `0` when the
file assigns that marker the weight `0`, and more generally a weight that
`equalEps` identifies with `0`; and `cell_volume / weight` when the file
assigns it a weight that `equalEps` tells apart from `0`, which is then
nonzero, so no division by a zero weight is performed.  `equalEps` is the
comparison of the library, of which only `equalEps(0, 0)` is used. -/
theorem setRegularizationWeight_entries {α : Type} [Field α] (ex : Extraction α)
    (openFile : String → Option (List String)) (NDEBUG : Bool) (equalEps : α → α → Bool)
    (NDIM : Nat) (dx : Nat → α) (ranges : List (Int × Int)) (d_reg_filename : Nat → String)
    (lev : LevelData α) (reg_data_array : LDataArray α)
    (hlayout : MarkerLayout ranges lev.structIDs.length lev.local_nodes)
    (hzero : equalEps 0 0 = true)
    (hfiles : ∀ s : Nat, s < ranges.length →
      d_reg_filename s = "" ∨ FileLoads ex openFile ranges d_reg_filename s) :
    (∃ reg' : LDataArray α,
      setRegularizationWeight ex openFile NDEBUG equalEps NDIM dx ranges d_reg_filename lev
        reg_data_array = Except.ok reg' ∧
      ∀ s : Nat, s < ranges.length → ∀ node ∈ lev.local_nodes,
        inRange (rangeOf ranges s) node.lag_idx → ∀ d : Fin 3, d.val < NDIM →
          (d_reg_filename s = "" → reg' node.local_idx d = cellVolume NDIM dx) ∧
          (d_reg_filename s ≠ "" →
            fileWeight ex openFile ranges d_reg_filename s node.lag_idx = 0 →
            reg' node.local_idx d = 0) ∧
          (d_reg_filename s ≠ "" →
            equalEps (fileWeight ex openFile ranges d_reg_filename s node.lag_idx) 0 = true →
            reg' node.local_idx d = 0) ∧
          (d_reg_filename s ≠ "" →
            equalEps (fileWeight ex openFile ranges d_reg_filename s node.lag_idx) 0 = false →
            fileWeight ex openFile ranges d_reg_filename s node.lag_idx ≠ 0 ∧
            reg' node.local_idx d =
              cellVolume NDIM dx /
                fileWeight ex openFile ranges d_reg_filename s node.lag_idx)) ∧
    (NDIM = 2 ∨ NDIM = 3 → cellVolume NDIM dx = ((List.range NDIM).map dx).prod) := by
  constructor
  · obtain ⟨reg', h1, h2⟩ := setRegularizationWeight_ok ex openFile NDEBUG equalEps NDIM dx
      ranges d_reg_filename lev reg_data_array hlayout hfiles
    refine ⟨reg', h1, ?_⟩
    intro s hs node hnode hin d hd
    have key := h2 s hs node hnode hin d hd
    unfold regEntry at key
    refine ⟨?_, ?_, ?_, ?_⟩
    · intro hname
      rw [key, if_pos hname]
    · intro hname hw
      rw [key, if_neg hname, hw, hzero]
      simp
    · intro hname hw
      rw [key, if_neg hname, hw]
      simp
    · intro hname hw
      constructor
      · intro h0
        rw [h0, hzero] at hw
        exact Bool.noConfusion hw
      · rw [key, if_neg hname, hw]
        simp
  · intro hdim
    unfold cellVolume
    rcases hdim with h | h
    · subst h
      simp [List.range_succ]
    · subst h
      simp [List.range_succ, mul_assoc]

theorem weights_layout :
    MarkerLayout [((0 : Int), (2 : Int))] 1 [⟨0, 0⟩, ⟨1, 1⟩] where
  structs := rfl
  disjoint := by
    intro i j hi hj hne
    simp only [List.length_cons, List.length_nil] at hi hj
    omega
  valid := by
    intro r hr
    simp only [List.mem_singleton] at hr
    subst hr
    decide
  local_nodup := by decide
  lag_nodup := by decide
  cover := by
    intro r hr x hx
    simp only [List.mem_singleton] at hr
    subst hr
    obtain ⟨h1, h2⟩ := hx
    simp only at h1 h2
    have : x = 0 ∨ x = 1 := by omega
    rcases this with rfl | rfl <;> simp
  belongs := by
    intro node hnode
    refine ⟨(0, 2), by simp, ?_⟩
    simp only [List.mem_cons, List.mem_singleton, List.not_mem_nil, or_false] at hnode
    rcases hnode with rfl | rfl <;> decide

/-- Witness for C22: one structure of two markers with the file `weights.dat`
(weights 0 and 4), `dx = (2, 2, 2)`, exact comparison; the load returns,
marker 0 gets the entry `0` and marker 1 the entry `cell_volume / 4`. -/
theorem setRegularizationWeight_entries_witness :
    ∃ reg' : LDataArray ℚ,
      setRegularizationWeight (sampleExtraction ℚ) sampleFiles false
        (fun a b => decide (a = b)) 3 (fun _ => 2) [((0 : Int), (2 : Int))]
        (fun _ => "weights.dat") (levelOfNodes ℚ [⟨0, 0⟩, ⟨1, 1⟩]) (fun _ _ => 7) =
          Except.ok reg' ∧
      reg' 0 0 = 0 ∧
      reg' 1 0 = cellVolume 3 (fun _ => (2 : ℚ)) /
        fileWeight (sampleExtraction ℚ) sampleFiles [((0 : Int), (2 : Int))]
          (fun _ => "weights.dat") 0 1 := by
  obtain ⟨reg', h1, h2⟩ :=
    (setRegularizationWeight_entries (sampleExtraction ℚ) sampleFiles false
      (fun a b => decide (a = b)) 3 (fun _ => 2) [((0 : Int), (2 : Int))]
      (fun _ => "weights.dat") (levelOfNodes ℚ [⟨0, 0⟩, ⟨1, 1⟩]) (fun _ _ => 7)
      weights_layout (by simp)
      (by
        intro s hs
        have hs0 : s = 0 := by simpa using hs
        subst hs0
        right
        exact ⟨"2", ["0", "4"], rfl, rfl, by decide⟩)).1
  refine ⟨reg', h1, ?_, ?_⟩
  · exact (h2 0 (by decide) ⟨0, 0⟩ (by simp [levelOfNodes]) (by decide) 0 (by decide)).2.1
      (by decide) (by simp [fileWeight, sampleFiles, sampleExtraction, rangeOf])
  · exact ((h2 0 (by decide) ⟨1, 1⟩ (by simp [levelOfNodes]) (by decide) 0 (by decide)).2.2.2
      (by decide) (by simp [fileWeight, sampleFiles, sampleExtraction, rangeOf])).2

/-- Counterexample for C22 as stated: the file `tiny.dat` assigns the one
marker of the structure the nonzero weight `1e-30`, which the tolerance
comparison identifies with `0`; the entry of the marker is `0`, not
`cell_volume / weight`. -/
theorem setRegularizationWeight_tiny_weight_counterexample :
    fileWeight (sampleExtraction ℚ) sampleFiles [((0 : Int), (1 : Int))]
      (fun _ => "tiny.dat") 0 0 ≠ 0 ∧
    ∃ reg' : LDataArray ℚ,
      setRegularizationWeight (sampleExtraction ℚ) sampleFiles false sampleEqualEps 3
        (fun _ => 2) [((0 : Int), (1 : Int))] (fun _ => "tiny.dat")
        (levelOfNodes ℚ [⟨0, 0⟩]) (fun _ _ => 7) = Except.ok reg' ∧
      reg' 0 0 = 0 ∧
      reg' 0 0 ≠ cellVolume 3 (fun _ => (2 : ℚ)) /
        fileWeight (sampleExtraction ℚ) sampleFiles [((0 : Int), (1 : Int))]
          (fun _ => "tiny.dat") 0 0 := by
  have hw : fileWeight (sampleExtraction ℚ) sampleFiles [((0 : Int), (1 : Int))]
      (fun _ => "tiny.dat") 0 0 = 1 / 10 ^ 30 := by
    simp [fileWeight, sampleFiles, sampleExtraction, rangeOf]
  have heps : sampleEqualEps (1 / 10 ^ 30 : ℚ) 0 = true := by
    unfold sampleEqualEps epsilon
    rw [decide_eq_true_eq]
    norm_num [abs_of_pos]
  have hlay : MarkerLayout [((0 : Int), (1 : Int))] 1 [⟨0, 0⟩] := by
    refine ⟨rfl, ?_, ?_, by decide, by decide, ?_, ?_⟩
    · intro i j hi hj hne
      simp only [List.length_cons, List.length_nil] at hi hj
      omega
    · intro r hr
      simp only [List.mem_singleton] at hr
      subst hr
      decide
    · intro r hr x hx
      simp only [List.mem_singleton] at hr
      subst hr
      obtain ⟨h1, h2⟩ := hx
      simp only at h1 h2
      have : x = 0 := by omega
      subst this
      simp
    · intro node hnode
      refine ⟨(0, 1), by simp, ?_⟩
      simp only [List.mem_singleton] at hnode
      subst hnode
      decide
  obtain ⟨reg', h1, h2⟩ := setRegularizationWeight_ok (sampleExtraction ℚ) sampleFiles false
    sampleEqualEps 3 (fun _ => 2) [((0 : Int), (1 : Int))] (fun _ => "tiny.dat")
    (levelOfNodes ℚ [⟨0, 0⟩]) (fun _ _ => 7) hlay
    (by
      intro s hs
      have hs0 : s = 0 := by simpa using hs
      subst hs0
      right
      exact ⟨"1", ["1e-30"], rfl, rfl, by decide⟩)
  have h0 : reg' 0 0 = 0 := by
    have := h2 0 (by decide) ⟨0, 0⟩ (by simp [levelOfNodes]) (by decide) 0 (by decide)
    rw [this]
    unfold regEntry
    rw [hw, heps]
    simp
  refine ⟨by rw [hw]; norm_num, reg', h1, h0, ?_⟩
  rw [h0, hw]
  unfold cellVolume
  norm_num

theorem forStructs_error_persists {D : Type} (body : D → Nat → Except (Abort × D) D)
    (init : D) (m : Nat) (x : Abort × D)
    (h : forStructs body (List.range m) init = Except.error x) (j : Nat) :
    forStructs body (List.range (m + j)) init = Except.error x := by
  induction j with
  | zero => exact h
  | succ j ih =>
    rw [← Nat.add_assoc, List.range_succ, forStructs_append, ih]

theorem forStructs_prefix {D : Type} (body : D → Nat → Except (Abort × D) D)
    (hframe : ∀ (d : D) (t : Nat) (e : Abort) (d' : D),
      body d t = Except.error (e, d') → d' = d)
    (init : D) (m : Nat) :
    (∃ d : D, forStructs body (List.range m) init = Except.ok d) ∨
    (∃ (e : Abort) (d : D) (k : Nat), k < m ∧
      forStructs body (List.range m) init = Except.error (e, d) ∧
      forStructs body (List.range k) init = Except.ok d) := by
  induction m with
  | zero => left; exact ⟨init, rfl⟩
  | succ m ih =>
    rcases ih with ⟨d, hd⟩ | ⟨e, d, k, hk, h1, h2⟩
    · cases hb : body d m with
      | ok d' =>
        left
        refine ⟨d', ?_⟩
        rw [List.range_succ, forStructs_append, hd]
        simp only []
        rw [forStructs_cons, hb]
        rfl
      | error x =>
        right
        obtain ⟨e, d'⟩ := x
        have := hframe d m e d' hb
        subst this
        refine ⟨e, d', m, Nat.lt_succ_self _, ?_, hd⟩
        rw [List.range_succ, forStructs_append, hd]
        simp only []
        rw [forStructs_cons, hb]
    · right
      refine ⟨e, d, k, by omega, ?_, h2⟩
      exact forStructs_error_persists body init m (e, d) h1 1

theorem forStructs_abort {D : Type} (body : D → Nat → Except (Abort × D) D)
    (hframe : ∀ (d : D) (t : Nat) (e : Abort) (d' : D),
      body d t = Except.error (e, d') → d' = d)
    (s n : Nat) (hs : s < n) (habort : ∀ d : D, ∃ e : Abort, body d s = Except.error (e, d))
    (init : D) :
    ∃ (e : Abort) (data : D) (m : Nat), m ≤ s ∧
      forStructs body (List.range n) init = Except.error (e, data) ∧
      forStructs body (List.range m) init = Except.ok data := by
  have hstep : ∃ (e : Abort) (data : D) (m : Nat), m ≤ s ∧
      forStructs body (List.range (s + 1)) init = Except.error (e, data) ∧
      forStructs body (List.range m) init = Except.ok data := by
    rcases forStructs_prefix body hframe init s with ⟨d, hd⟩ | ⟨e, d, k, hk, h1, h2⟩
    · obtain ⟨e, he⟩ := habort d
      refine ⟨e, d, s, le_refl _, ?_, hd⟩
      rw [List.range_succ, forStructs_append, hd]
      simp only []
      rw [forStructs_cons, he]
    · exact ⟨e, d, k, by omega, forStructs_error_persists body init s (e, d) h1 1, h2⟩
  obtain ⟨e, data, m, hm, h1, h2⟩ := hstep
  refine ⟨e, data, m, hm, ?_, h2⟩
  have hn : n = s + 1 + (n - (s + 1)) := by omega
  rw [hn]
  exact forStructs_error_persists body init (s + 1) (e, data) h1 _

theorem regWeightStruct_frame {α : Type} [Field α] (ex : Extraction α)
    (openFile : String → Option (List String)) (NDIM : Nat) (equalEps : α → α → Bool)
    (cv : α) (ranges : List (Int × Int)) (names : Nat → String) (nodes : List LNode)
    (reg : LDataArray α) (t : Nat) (e : Abort) (d' : LDataArray α)
    (h : regWeightStruct ex openFile NDIM equalEps cv ranges names nodes reg t =
      Except.error (e, d')) : d' = reg := by
  unfold regWeightStruct at h
  simp only [] at h
  split at h
  · cases h
  · split at h
    · cases h; rfl
    · split at h
      · cases h; rfl
      · split at h
        · cases h; rfl
        · split at h
          · cases h; rfl
          · cases h

theorem lambdaStruct_frame {α : Type} [Field α] (ex : Extraction α)
    (openFile : String → Option (List String)) (NDIM : Nat)
    (ranges : List (Int × Int)) (names : Nat → String) (nodes : List LNode)
    (lam : LDataArray α) (t : Nat) (e : Abort) (d' : LDataArray α)
    (h : lambdaStruct ex openFile NDIM ranges names nodes lam t = Except.error (e, d')) :
    d' = lam := by
  unfold lambdaStruct at h
  simp only [] at h
  split at h
  · cases h
  · split at h
    · cases h; rfl
    · split at h
      · cases h; rfl
      · split at h
        · cases h; rfl
        · split at h
          · cases h; rfl
          · cases h

theorem regWeightStruct_mismatch {α : Type} [Field α] (ex : Extraction α)
    (openFile : String → Option (List String)) (NDIM : Nat) (equalEps : α → α → Bool)
    (cv : α) (ranges : List (Int × Int)) (names : Nat → String) (nodes : List LNode)
    (s : Nat) (first : String) (rest : List String)
    (hname : names s ≠ "") (hopen : openFile (names s) = some (first :: rest))
    (hcount : ex.readInt first (-1) ≠ (rangeOf ranges s).2 - (rangeOf ranges s).1)
    (reg : LDataArray α) :
    regWeightStruct ex openFile NDIM equalEps cv ranges names nodes reg s =
      Except.error (Abort.error, reg) := by
  unfold regWeightStruct readCount
  simp [hname, hopen, hcount]

theorem lambdaStruct_mismatch {α : Type} [Field α] (ex : Extraction α)
    (openFile : String → Option (List String)) (NDIM : Nat)
    (ranges : List (Int × Int)) (names : Nat → String) (nodes : List LNode)
    (s : Nat) (first : String) (rest : List String)
    (hname : names s ≠ "") (hopen : openFile (names s) = some (first :: rest))
    (hcount : ex.readInt first (-1) ≠ (rangeOf ranges s).2 - (rangeOf ranges s).1)
    (lam : LDataArray α) :
    lambdaStruct ex openFile NDIM ranges names nodes lam s = Except.error (Abort.error, lam) := by
  unfold lambdaStruct readCount
  simp [hname, hopen, hcount]

theorem regWeightStruct_truncated {α : Type} [Field α] (ex : Extraction α)
    (openFile : String → Option (List String)) (NDIM : Nat) (equalEps : α → α → Bool)
    (cv : α) (ranges : List (Int × Int)) (names : Nat → String) (nodes : List LNode)
    (s : Nat) (first : String) (rest : List String)
    (hname : names s ≠ "") (hopen : openFile (names s) = some (first :: rest))
    (hlen : (rest.length : Int) < ex.readInt first (-1))
    (reg : LDataArray α) :
    regWeightStruct ex openFile NDIM equalEps cv ranges names nodes reg s =
      Except.error (Abort.error, reg) := by
  by_cases hcount : ex.readInt first (-1) = (rangeOf ranges s).2 - (rangeOf ranges s).1
  · have hneg : ¬ (ex.readInt first (-1) < 0) := by omega
    have htr := readWeightLines_truncated ex (ex.readInt first (-1)).toNat 0 rest
      (fun _ => (0 : α)) (by omega)
    unfold regWeightStruct readCount
    simp only [hname, if_false, hopen, ← hcount, ne_eq, not_true_eq_false, hneg, htr]
  · exact regWeightStruct_mismatch ex openFile NDIM equalEps cv ranges names nodes s first rest
      hname hopen hcount reg

theorem lambdaStruct_truncated {α : Type} [Field α] (ex : Extraction α)
    (openFile : String → Option (List String)) (NDIM : Nat)
    (ranges : List (Int × Int)) (names : Nat → String) (nodes : List LNode)
    (s : Nat) (first : String) (rest : List String)
    (hname : names s ≠ "") (hopen : openFile (names s) = some (first :: rest))
    (hlen : (rest.length : Int) < ex.readInt first (-1))
    (lam : LDataArray α) :
    lambdaStruct ex openFile NDIM ranges names nodes lam s = Except.error (Abort.error, lam) := by
  by_cases hcount : ex.readInt first (-1) = (rangeOf ranges s).2 - (rangeOf ranges s).1
  · have hpos : 0 ≤ ex.readInt first (-1) := by omega
    have hneg : ¬ (ex.readInt first (-1) * (NDIM : Int) < 0) := by
      have := mul_nonneg hpos (Int.natCast_nonneg NDIM)
      omega
    have htr := readLambdaLines_truncated ex NDIM (ex.readInt first (-1)).toNat 0 rest
      (fun _ => (0 : α)) (by omega)
    unfold lambdaStruct readCount
    simp only [hname, if_false, hopen, ← hcount, ne_eq, not_true_eq_false, hneg, htr]
  · exact lambdaStruct_mismatch ex openFile NDIM ranges names nodes s first rest
      hname hopen hcount lam

theorem setRegularizationWeight_abort {α : Type} [Field α] (ex : Extraction α)
    (openFile : String → Option (List String)) (NDEBUG : Bool) (equalEps : α → α → Bool)
    (NDIM : Nat) (dx : Nat → α) (ranges : List (Int × Int)) (names : Nat → String)
    (lev : LevelData α) (reg0 : LDataArray α) (s : Nat) (hs : s < lev.structIDs.length)
    (habort : ∀ reg : LDataArray α,
      regWeightStruct ex openFile NDIM equalEps (cellVolume NDIM dx) ranges names
        lev.local_nodes reg s = Except.error (Abort.error, reg)) :
    ∃ (e : Abort) (data : LDataArray α) (m : Nat), m ≤ s ∧
      setRegularizationWeight ex openFile NDEBUG equalEps NDIM dx ranges names lev reg0 =
        Except.error (e, data) ∧
      forStructs
        (regWeightStruct ex openFile NDIM equalEps (cellVolume NDIM dx) ranges names
          lev.local_nodes)
        (List.range m) reg0 = Except.ok data := by
  unfold setRegularizationWeight
  simp only []
  split
  · exact ⟨Abort.assertion, reg0, 0, Nat.zero_le _, rfl, rfl⟩
  · exact forStructs_abort _
      (regWeightStruct_frame ex openFile NDIM equalEps (cellVolume NDIM dx) ranges names
        lev.local_nodes)
      s _ hs (fun reg => ⟨Abort.error, habort reg⟩) reg0

theorem setInitialLambda_abort {α : Type} [Field α] (ex : Extraction α)
    (openFile : String → Option (List String)) (NDEBUG : Bool)
    (NDIM : Nat) (ranges : List (Int × Int)) (names : Nat → String)
    (lev : LevelData α) (lam0 : LDataArray α) (s : Nat) (hs : s < lev.structIDs.length)
    (habort : ∀ lam : LDataArray α,
      lambdaStruct ex openFile NDIM ranges names lev.local_nodes lam s =
        Except.error (Abort.error, lam)) :
    ∃ (e : Abort) (data : LDataArray α) (m : Nat), m ≤ s ∧
      setInitialLambda ex openFile NDEBUG NDIM ranges names lev lam0 = Except.error (e, data) ∧
      forStructs (lambdaStruct ex openFile NDIM ranges names lev.local_nodes)
        (List.range m) lam0 = Except.ok data := by
  unfold setInitialLambda
  simp only []
  split
  · exact ⟨Abort.assertion, lam0, 0, Nat.zero_le _, rfl, rfl⟩
  · exact forStructs_abort _
      (lambdaStruct_frame ex openFile NDIM ranges names lev.local_nodes)
      s _ hs (fun lam => ⟨Abort.error, habort lam⟩) lam0

/-- C23: loading a weight file (`setRegularizationWeight`) or a lambda file
(`setInitialLambda`) for a structure `s` of the level fails fatally whenever
the marker count on the first line of the file differs from the marker count
`last - first` of the structure: the iteration of the structure loop for `s`
raises `TBOX_ERROR` before its node loop, leaving the marker array as it
found it, and the whole call ends in a fatal error with the array holding
what the complete iterations of structures before `s` left, so that no
regularization or lambda entry is written from the file of `s`. -/
theorem count_mismatch_fatal {α : Type} [Field α] (ex : Extraction α)
    (openFile : String → Option (List String)) (NDEBUG : Bool) (equalEps : α → α → Bool)
    (NDIM : Nat) (dx : Nat → α) (ranges : List (Int × Int))
    (d_reg_filename d_lambda_filename : Nat → String) (lev : LevelData α)
    (reg_data_array lambda_data_array : LDataArray α)
    (s : Nat) (hs : s < lev.structIDs.length) :
    (∀ (first : String) (rest : List String), d_reg_filename s ≠ "" →
      openFile (d_reg_filename s) = some (first :: rest) →
      ex.readInt first (-1) ≠ (rangeOf ranges s).2 - (rangeOf ranges s).1 →
      (∀ reg : LDataArray α,
        regWeightStruct ex openFile NDIM equalEps (cellVolume NDIM dx) ranges d_reg_filename
          lev.local_nodes reg s = Except.error (Abort.error, reg)) ∧
      ∃ (e : Abort) (data : LDataArray α) (m : Nat), m ≤ s ∧
        setRegularizationWeight ex openFile NDEBUG equalEps NDIM dx ranges d_reg_filename lev
          reg_data_array = Except.error (e, data) ∧
        forStructs
          (regWeightStruct ex openFile NDIM equalEps (cellVolume NDIM dx) ranges d_reg_filename
            lev.local_nodes)
          (List.range m) reg_data_array = Except.ok data) ∧
    (∀ (first : String) (rest : List String), d_lambda_filename s ≠ "" →
      openFile (d_lambda_filename s) = some (first :: rest) →
      ex.readInt first (-1) ≠ (rangeOf ranges s).2 - (rangeOf ranges s).1 →
      (∀ lam : LDataArray α,
        lambdaStruct ex openFile NDIM ranges d_lambda_filename lev.local_nodes lam s =
          Except.error (Abort.error, lam)) ∧
      ∃ (e : Abort) (data : LDataArray α) (m : Nat), m ≤ s ∧
        setInitialLambda ex openFile NDEBUG NDIM ranges d_lambda_filename lev
          lambda_data_array = Except.error (e, data) ∧
        forStructs (lambdaStruct ex openFile NDIM ranges d_lambda_filename lev.local_nodes)
          (List.range m) lambda_data_array = Except.ok data) := by
  constructor
  · intro first rest hname hopen hcount
    have hb := regWeightStruct_mismatch ex openFile NDIM equalEps (cellVolume NDIM dx) ranges
      d_reg_filename lev.local_nodes s first rest hname hopen hcount
    exact ⟨hb, setRegularizationWeight_abort ex openFile NDEBUG equalEps NDIM dx ranges
      d_reg_filename lev reg_data_array s hs hb⟩
  · intro first rest hname hopen hcount
    have hb := lambdaStruct_mismatch ex openFile NDIM ranges d_lambda_filename lev.local_nodes
      s first rest hname hopen hcount
    exact ⟨hb, setInitialLambda_abort ex openFile NDEBUG NDIM ranges d_lambda_filename lev
      lambda_data_array s hs hb⟩

/-- Witness for C23: one structure of two markers and the file `tiny.dat`,
whose first line holds the count 1. -/
theorem count_mismatch_fatal_witness :
    (∃ (e : Abort) (data : LDataArray ℚ) (m : Nat), m ≤ 0 ∧
      setRegularizationWeight (sampleExtraction ℚ) sampleFiles false
        (fun a b => decide (a = b)) 3 (fun _ => 2) [((0 : Int), (2 : Int))]
        (fun _ => "tiny.dat") (levelOfNodes ℚ [⟨0, 0⟩, ⟨1, 1⟩]) (fun _ _ => 7) =
          Except.error (e, data) ∧
      forStructs
        (regWeightStruct (sampleExtraction ℚ) sampleFiles 3 (fun a b => decide (a = b))
          (cellVolume 3 (fun _ => (2 : ℚ))) [((0 : Int), (2 : Int))] (fun _ => "tiny.dat")
          (levelOfNodes ℚ [⟨0, 0⟩, ⟨1, 1⟩]).local_nodes)
        (List.range m) (fun _ _ => 7) = Except.ok data) ∧
    (∃ (e : Abort) (data : LDataArray ℚ) (m : Nat), m ≤ 0 ∧
      setInitialLambda (sampleExtraction ℚ) sampleFiles false 3 [((0 : Int), (2 : Int))]
        (fun _ => "tiny.dat") (levelOfNodes ℚ [⟨0, 0⟩, ⟨1, 1⟩]) (fun _ _ => 7) =
          Except.error (e, data) ∧
      forStructs
        (lambdaStruct (sampleExtraction ℚ) sampleFiles 3 [((0 : Int), (2 : Int))]
          (fun _ => "tiny.dat") (levelOfNodes ℚ [⟨0, 0⟩, ⟨1, 1⟩]).local_nodes)
        (List.range m) (fun _ _ => 7) = Except.ok data) :=
  have h := count_mismatch_fatal (sampleExtraction ℚ) sampleFiles false
    (fun a b => decide (a = b)) 3 (fun _ => 2) [((0 : Int), (2 : Int))]
    (fun _ => "tiny.dat") (fun _ => "tiny.dat") (levelOfNodes ℚ [⟨0, 0⟩, ⟨1, 1⟩])
    (fun _ _ => 7) (fun _ _ => 7) 0 (by decide)
  ⟨(h.1 "1" ["1e-30"] (by decide) rfl (by decide)).2,
    (h.2 "1" ["1e-30"] (by decide) rfl (by decide)).2⟩

/-- C24 (amended): loading a weight file (`setRegularizationWeight`) or a
lambda file (`setInitialLambda`) that is truncated, with fewer data lines than
the count on its first line, for a structure `s` of the level fails fatally:
the iteration of the structure loop for `s` raises `TBOX_ERROR` before its
node loop, leaving the marker array as it found it, and the whole call ends
in a fatal error with the array holding what the complete iterations of
structures before `s` left, so the load never completes with data taken from
a truncated file. -/
theorem truncated_file_fatal {α : Type} [Field α] (ex : Extraction α)
    (openFile : String → Option (List String)) (NDEBUG : Bool) (equalEps : α → α → Bool)
    (NDIM : Nat) (dx : Nat → α) (ranges : List (Int × Int))
    (d_reg_filename d_lambda_filename : Nat → String) (lev : LevelData α)
    (reg_data_array lambda_data_array : LDataArray α)
    (s : Nat) (hs : s < lev.structIDs.length) :
    (∀ (first : String) (rest : List String), d_reg_filename s ≠ "" →
      openFile (d_reg_filename s) = some (first :: rest) →
      (rest.length : Int) < ex.readInt first (-1) →
      (∀ reg : LDataArray α,
        regWeightStruct ex openFile NDIM equalEps (cellVolume NDIM dx) ranges d_reg_filename
          lev.local_nodes reg s = Except.error (Abort.error, reg)) ∧
      ∃ (e : Abort) (data : LDataArray α) (m : Nat), m ≤ s ∧
        setRegularizationWeight ex openFile NDEBUG equalEps NDIM dx ranges d_reg_filename lev
          reg_data_array = Except.error (e, data) ∧
        forStructs
          (regWeightStruct ex openFile NDIM equalEps (cellVolume NDIM dx) ranges d_reg_filename
            lev.local_nodes)
          (List.range m) reg_data_array = Except.ok data) ∧
    (∀ (first : String) (rest : List String), d_lambda_filename s ≠ "" →
      openFile (d_lambda_filename s) = some (first :: rest) →
      (rest.length : Int) < ex.readInt first (-1) →
      (∀ lam : LDataArray α,
        lambdaStruct ex openFile NDIM ranges d_lambda_filename lev.local_nodes lam s =
          Except.error (Abort.error, lam)) ∧
      ∃ (e : Abort) (data : LDataArray α) (m : Nat), m ≤ s ∧
        setInitialLambda ex openFile NDEBUG NDIM ranges d_lambda_filename lev
          lambda_data_array = Except.error (e, data) ∧
        forStructs (lambdaStruct ex openFile NDIM ranges d_lambda_filename lev.local_nodes)
          (List.range m) lambda_data_array = Except.ok data) := by
  constructor
  · intro first rest hname hopen hlen
    have hb := regWeightStruct_truncated ex openFile NDIM equalEps (cellVolume NDIM dx) ranges
      d_reg_filename lev.local_nodes s first rest hname hopen hlen
    exact ⟨hb, setRegularizationWeight_abort ex openFile NDEBUG equalEps NDIM dx ranges
      d_reg_filename lev reg_data_array s hs hb⟩
  · intro first rest hname hopen hlen
    have hb := lambdaStruct_truncated ex openFile NDIM ranges d_lambda_filename lev.local_nodes
      s first rest hname hopen hlen
    exact ⟨hb, setInitialLambda_abort ex openFile NDEBUG NDIM ranges d_lambda_filename lev
      lambda_data_array s hs hb⟩

/-- Witness for C24 (amended): one structure of two markers and the file
`short.dat`, which holds the count 2 and one data line. -/
theorem truncated_file_fatal_witness :
    (∃ (e : Abort) (data : LDataArray ℚ) (m : Nat), m ≤ 0 ∧
      setRegularizationWeight (sampleExtraction ℚ) sampleFiles false
        (fun a b => decide (a = b)) 3 (fun _ => 2) [((0 : Int), (2 : Int))]
        (fun _ => "short.dat") (levelOfNodes ℚ [⟨0, 0⟩, ⟨1, 1⟩]) (fun _ _ => 7) =
          Except.error (e, data) ∧
      forStructs
        (regWeightStruct (sampleExtraction ℚ) sampleFiles 3 (fun a b => decide (a = b))
          (cellVolume 3 (fun _ => (2 : ℚ))) [((0 : Int), (2 : Int))] (fun _ => "short.dat")
          (levelOfNodes ℚ [⟨0, 0⟩, ⟨1, 1⟩]).local_nodes)
        (List.range m) (fun _ _ => 7) = Except.ok data) ∧
    (∃ (e : Abort) (data : LDataArray ℚ) (m : Nat), m ≤ 0 ∧
      setInitialLambda (sampleExtraction ℚ) sampleFiles false 3 [((0 : Int), (2 : Int))]
        (fun _ => "short.dat") (levelOfNodes ℚ [⟨0, 0⟩, ⟨1, 1⟩]) (fun _ _ => 7) =
          Except.error (e, data) ∧
      forStructs
        (lambdaStruct (sampleExtraction ℚ) sampleFiles 3 [((0 : Int), (2 : Int))]
          (fun _ => "short.dat") (levelOfNodes ℚ [⟨0, 0⟩, ⟨1, 1⟩]).local_nodes)
        (List.range m) (fun _ _ => 7) = Except.ok data) :=
  have h := truncated_file_fatal (sampleExtraction ℚ) sampleFiles false
    (fun a b => decide (a = b)) 3 (fun _ => 2) [((0 : Int), (2 : Int))]
    (fun _ => "short.dat") (fun _ => "short.dat") (levelOfNodes ℚ [⟨0, 0⟩, ⟨1, 1⟩])
    (fun _ _ => 7) (fun _ _ => 7) 0 (by decide)
  ⟨(h.1 "2" ["4"] (by decide) rfl (by decide)).2,
    (h.2 "2" ["4"] (by decide) rfl (by decide)).2⟩

/-- Counterexample for C24 as stated: the file `bad.dat` holds the count 2 and
two data lines, `abc` and `x y z`, neither of which holds a floating-point
value; both loads complete, and the entries of the markers of the structure,
7 before the load, are overwritten with values taken from the failed
extractions. -/
theorem malformed_file_counterexample :
    sampleFiles "bad.dat" = some ["2", "abc", "x y z"] ∧
    (∃ reg' : LDataArray ℚ,
      setRegularizationWeight (sampleExtraction ℚ) sampleFiles false
        (fun a b => decide (a = b)) 3 (fun _ => 2) [((0 : Int), (2 : Int))]
        (fun _ => "bad.dat") (levelOfNodes ℚ [⟨0, 0⟩, ⟨1, 1⟩]) (fun _ _ => 7) =
          Except.ok reg' ∧
      reg' 0 0 = 0 ∧ reg' 1 0 = 0) ∧
    (∃ lam' : LDataArray ℚ,
      setInitialLambda (sampleExtraction ℚ) sampleFiles false 3 [((0 : Int), (2 : Int))]
        (fun _ => "bad.dat") (levelOfNodes ℚ [⟨0, 0⟩, ⟨1, 1⟩]) (fun _ _ => 7) =
          Except.ok lam' ∧
      lam' 0 0 = 0 ∧ lam' 1 0 = 0) := by
  refine ⟨rfl, ⟨_, rfl, ?_, ?_⟩, ⟨_, rfl, ?_, ?_⟩⟩
  · rfl
  · rfl
  · rfl
  · rfl

end CIBMethod
